import Mathlib

/-!
Verification of the schema-designer core: a shallow embedding of the
consistency-preserving store (its two realizations: the local embedded
database in `src/lib/db/operations.ts`, embedded below as `FrontendOps`,
and the remote document store in `src/lib/data/backendOperations.ts`,
embedded as `BackendOps`), the dialect-aware SQL generator
(`src/lib/sql-generator`), and the import codec (`importSchema`).

Modelling conventions:
* TypeScript optional fields become `Option`; JavaScript truthiness of an
  optional number (`if (column.length)`) is the predicate "present and
  nonzero", and truthiness of an optional string is "present and nonempty".
* Asynchronous operations are pure state transformers.  Every operation
  returns the post-state together with an `Except String` outcome; writes
  performed before a `throw` are visible in the post-state, exactly as in
  the un-transactional source.
* Freshly generated ids (`uuidv4()` / `crypto.randomUUID()`) and clock
  reads (`Date.now()`) are explicit parameters, making the operations
  deterministic.
* A JavaScript `Map` built by repeated `set` is an association list whose
  lookup returns the value of the last write (`jsMapGet`), with
  first-insertion key order (`setAssoc`).
* `Array.prototype.sort` with an `orderIndex` comparator and Dexie's
  `sortBy('orderIndex')` are both stable ascending sorts; they are embedded
  as a stable insertion sort (`sortByKey`).
* The remote realization's id→parent lookup caches are elided: lookups are
  embedded as their cache-miss fallback, a scan over all project documents,
  which returns the same result whenever ids are unique.
* The remote backing store is one materialized `SchemaExport` document per
  project, matching the server's `GET`/`PUT /projects/:id/schema`
  granularity (`app/api/projects/[id]/schema/route.ts` keeps exactly the
  rows of one project per document).
-/

namespace DbSchemaximus

/-- Visual position of a table on the canvas (`TablePosition`). -/
structure TablePosition where
  x : Int
  y : Int
deriving DecidableEq

/-- The `Project` entity of `types/schema.ts`. -/
structure Project where
  id : String
  name : String
  description : Option String := none
  createdAt : Nat
  updatedAt : Nat
deriving DecidableEq

/-- The `TableEntity` of `types/schema.ts`. -/
structure TableEntity where
  id : String
  projectId : String
  name : String
  description : Option String := none
  position : TablePosition
  color : Option String := none
  createdAt : Nat
  updatedAt : Nat
deriving DecidableEq

/-- The `Column` entity of `types/schema.ts`.  `dataType` is the string
value of the `DataType` enum (the code only ever compares it for equality
or looks it up in dialect maps, so the enum is embedded by its values). -/
structure Column where
  id : String
  tableId : String
  name : String
  dataType : String
  length : Option Nat := none
  precision : Option Nat := none
  scale : Option Nat := none
  nullable : Bool
  isPrimaryKey : Bool
  isUnique : Bool
  isAutoIncrement : Bool
  defaultValue : Option String := none
  description : Option String := none
  orderIndex : Int
  createdAt : Nat
  updatedAt : Nat
deriving DecidableEq

/-- The `Relationship` entity of `types/schema.ts`.  `onDelete`/`onUpdate`
are the string values of the `ReferentialAction` enum. -/
structure Relationship where
  id : String
  projectId : String
  name : Option String := none
  sourceTableId : String
  sourceColumnId : String
  targetTableId : String
  targetColumnId : String
  onDelete : String
  onUpdate : String
  createdAt : Nat
  updatedAt : Nat
deriving DecidableEq

/-- The `SchemaExport` envelope of `types/schema.ts`. -/
structure SchemaExport where
  version : String
  exportedAt : Nat
  project : Project
  tables : List TableEntity
  columns : List Column
  relationships : List Relationship
deriving DecidableEq

/-- JavaScript truthiness of an optional number: present and nonzero. -/
def truthyNat : Option Nat → Bool
  | none => false
  | some n => n ≠ 0

/-- JavaScript truthiness of an optional string: present and nonempty. -/
def truthyStr : Option String → Bool
  | none => false
  | some s => s ≠ ""

/-- Lookup in a JavaScript `Map` built by successive `set` calls on an
association list: the value of the last write for the key wins. -/
def jsMapGet {α : Type} (m : List (String × α)) (k : String) : Option α :=
  m.foldl (fun acc p => if p.1 = k then some p.2 else acc) none

/-- `map.set(k, v)` on an association list with unique keys: replaces in
place when the key is present, appends otherwise (JavaScript `Map`
preserves first-insertion key order). -/
def setAssoc {α : Type} (m : List (String × α)) (k : String) (v : α) :
    List (String × α) :=
  if m.any (fun p => p.1 = k) then
    m.map (fun p => if p.1 = k then (k, v) else p)
  else
    m ++ [(k, v)]

/-- Stable insertion into a list sorted ascending by an integer key: the
new element goes before the first element of greater-or-equal key, so an
earlier element is never moved behind an equal-keyed later one. -/
def insertByKey {α : Type} (key : α → Int) (a : α) : List α → List α
  | [] => [a]
  | b :: l => if key a ≤ key b then a :: b :: l else b :: insertByKey key a l

/-- Stable ascending sort by an integer key; embeds both
`Array.prototype.sort((a, b) => a.orderIndex - b.orderIndex)` and Dexie's
`sortBy('orderIndex')`. -/
def sortByKey {α : Type} (key : α → Int) : List α → List α
  | [] => []
  | a :: l => insertByKey key a (sortByKey key l)

/-- Position of the first occurrence of an element in a list of ids. -/
def posIn (id : String) : List String → Nat
  | [] => 0
  | x :: l => if x = id then 0 else posIn id l + 1

/-- Index of the last occurrence of an id, offset by `k`; embeds the
lookup of a JavaScript `Map` built from `(id, index)` pairs, where a later
`set` for a duplicate id overwrites the earlier index. -/
def lastIdxFrom (k : Nat) (id : String) : List String → Option Nat
  | [] => none
  | x :: l =>
    match lastIdxFrom (k + 1) id l with
    | some j => some j
    | none => if x = id then some k else none

/-- Caller-supplied data of `createTable`:
`Omit<TableEntity, 'id' | 'createdAt' | 'updatedAt'>`. -/
structure TableInput where
  projectId : String
  name : String
  description : Option String := none
  position : TablePosition
  color : Option String := none
deriving DecidableEq

/-- Caller-supplied data of `createColumn`:
`Omit<Column, 'id' | 'createdAt' | 'updatedAt'>`. -/
structure ColumnInput where
  tableId : String
  name : String
  dataType : String
  length : Option Nat := none
  precision : Option Nat := none
  scale : Option Nat := none
  nullable : Bool
  isPrimaryKey : Bool
  isUnique : Bool
  isAutoIncrement : Bool
  defaultValue : Option String := none
  description : Option String := none
  orderIndex : Int
deriving DecidableEq

/-- Caller-supplied data of `createRelationship`:
`Omit<Relationship, 'id' | 'createdAt' | 'updatedAt'>`. -/
structure RelationshipInput where
  projectId : String
  name : Option String := none
  sourceTableId : String
  sourceColumnId : String
  targetTableId : String
  targetColumnId : String
  onDelete : String
  onUpdate : String
deriving DecidableEq

/-- A `Partial<Omit<TableEntity, 'id' | 'projectId' | 'createdAt'>>`:
`none` means the key is absent from the partial. -/
structure TablePatch where
  name : Option String := none
  description : Option (Option String) := none
  position : Option TablePosition := none
  color : Option (Option String) := none
deriving DecidableEq

/-- Spread `{ ...table, ...patch }` of a table patch. -/
def TablePatch.apply (p : TablePatch) (t : TableEntity) : TableEntity :=
  { t with
    name := p.name.getD t.name
    description := p.description.getD t.description
    position := p.position.getD t.position
    color := p.color.getD t.color }

/-- A `Partial<Omit<Column, 'id' | 'tableId' | 'createdAt'>>`. -/
structure ColumnPatch where
  name : Option String := none
  dataType : Option String := none
  length : Option (Option Nat) := none
  precision : Option (Option Nat) := none
  scale : Option (Option Nat) := none
  nullable : Option Bool := none
  isPrimaryKey : Option Bool := none
  isUnique : Option Bool := none
  isAutoIncrement : Option Bool := none
  defaultValue : Option (Option String) := none
  description : Option (Option String) := none
  orderIndex : Option Int := none
deriving DecidableEq

/-- Spread `{ ...column, ...patch }` of a column patch. -/
def ColumnPatch.apply (p : ColumnPatch) (c : Column) : Column :=
  { c with
    name := p.name.getD c.name
    dataType := p.dataType.getD c.dataType
    length := p.length.getD c.length
    precision := p.precision.getD c.precision
    scale := p.scale.getD c.scale
    nullable := p.nullable.getD c.nullable
    isPrimaryKey := p.isPrimaryKey.getD c.isPrimaryKey
    isUnique := p.isUnique.getD c.isUnique
    isAutoIncrement := p.isAutoIncrement.getD c.isAutoIncrement
    defaultValue := p.defaultValue.getD c.defaultValue
    description := p.description.getD c.description
    orderIndex := p.orderIndex.getD c.orderIndex }

/-- The persisted state of the local embedded database (`db/index.ts`):
one object table per entity kind.  Canvas states carry no claim-relevant
behavior and are omitted. -/
structure LocalState where
  projects : List Project
  schemaTables : List TableEntity
  columns : List Column
  relationships : List Relationship
deriving DecidableEq

/-- The empty local database. -/
def LocalState.empty : LocalState :=
  { projects := [], schemaTables := [], columns := [], relationships := [] }

namespace FrontendOps

/-- `createProject` of `db/operations.ts`: stamps timestamps and adds the
row. -/
def createProject (st : LocalState) (name : String)
    (description : Option String) (freshId : String) (now : Nat) :
    LocalState × String :=
  let project : Project :=
    { id := freshId, name := name, description := description,
      createdAt := now, updatedAt := now }
  ({ st with projects := st.projects ++ [project] }, project.id)

/-- `db.projects.update(id, { ...updates, updatedAt: now })` with an empty
partial: the timestamp touch that table/column/relationship mutations
propagate to the owning project.  Dexie's `update` is a no-op when the id
is unknown. -/
def touchProject (st : LocalState) (id : String) (now : Nat) : LocalState :=
  { st with
    projects := st.projects.map fun p =>
      if p.id = id then { p with updatedAt := now } else p }

/-- `createTable` of `db/operations.ts`: adds the row and touches the
owning project's `updatedAt`. -/
def createTable (st : LocalState) (data : TableInput) (freshId : String)
    (now : Nat) : LocalState × String :=
  let table : TableEntity :=
    { id := freshId, projectId := data.projectId, name := data.name,
      description := data.description, position := data.position,
      color := data.color, createdAt := now, updatedAt := now }
  let st := { st with schemaTables := st.schemaTables ++ [table] }
  (touchProject st data.projectId now, table.id)

/-- `getTablesByProject` of `db/operations.ts`. -/
def getTablesByProject (st : LocalState) (projectId : String) :
    List TableEntity :=
  st.schemaTables.filter (fun t => t.projectId = projectId)

/-- `updateTable` of `db/operations.ts`: throws `Table not found` when the
id is unknown, otherwise applies the partial, stamps `updatedAt` and
touches the owning project. -/
def updateTable (st : LocalState) (id : String) (patch : TablePatch)
    (now : Nat) : LocalState × Except String Unit :=
  match st.schemaTables.find? (fun t => t.id = id) with
  | none => (st, .error "Table not found")
  | some table =>
    let st :=
      { st with
        schemaTables := st.schemaTables.map fun t =>
          if t.id = id then { patch.apply t with updatedAt := now } else t }
    (touchProject st table.projectId now, .ok ())

/-- `moveTable` of `db/operations.ts`: `updateTable(id, { position })`. -/
def moveTable (st : LocalState) (id : String) (position : TablePosition)
    (now : Nat) : LocalState × Except String Unit :=
  updateTable st id { position := some position } now

/-- One batched move entry. -/
structure Move where
  id : String
  position : TablePosition
deriving DecidableEq

/-- `moveTables` of `db/operations.ts`: a sequential loop of `moveTable`
calls; the first failure aborts the loop with earlier writes retained. -/
def moveTables (st : LocalState) (now : Nat) :
    List Move → LocalState × Except String Unit
  | [] => (st, .ok ())
  | m :: rest =>
    match moveTable st m.id m.position now with
    | (st', .ok _) => moveTables st' now rest
    | (st', .error e) => (st', .error e)

/-- `deleteTable` of `db/operations.ts`: a no-op when the table is absent;
otherwise deletes the table's columns, every relationship whose
`sourceTableId` or `targetTableId` is the table, then the table itself,
and touches the owning project. -/
def deleteTable (st : LocalState) (id : String) (now : Nat) :
    LocalState × Except String Unit :=
  match st.schemaTables.find? (fun t => t.id = id) with
  | none => (st, .ok ())
  | some table =>
    let st := { st with columns := st.columns.filter (fun c => ¬ c.tableId = id) }
    let st :=
      { st with
        relationships := st.relationships.filter fun r =>
          ¬ (r.sourceTableId = id ∨ r.targetTableId = id) }
    let st := { st with schemaTables := st.schemaTables.filter (fun t => ¬ t.id = id) }
    (touchProject st table.projectId now, .ok ())

/-- `createColumn` of `db/operations.ts`: adds the row unconditionally,
then touches the owning table (and transitively the project) when that
table exists. -/
def createColumn (st : LocalState) (data : ColumnInput) (freshId : String)
    (now : Nat) : LocalState × String :=
  let column : Column :=
    { id := freshId, tableId := data.tableId, name := data.name,
      dataType := data.dataType, length := data.length,
      precision := data.precision, scale := data.scale,
      nullable := data.nullable, isPrimaryKey := data.isPrimaryKey,
      isUnique := data.isUnique, isAutoIncrement := data.isAutoIncrement,
      defaultValue := data.defaultValue, description := data.description,
      orderIndex := data.orderIndex, createdAt := now, updatedAt := now }
  let st := { st with columns := st.columns ++ [column] }
  match st.schemaTables.find? (fun t => t.id = data.tableId) with
  | none => (st, column.id)
  | some _ => ((updateTable st data.tableId {} now).1, column.id)

/-- `getColumnsByTable` of `db/operations.ts`:
`where('tableId').equals(tableId).sortBy('orderIndex')`. -/
def getColumnsByTable (st : LocalState) (tableId : String) : List Column :=
  sortByKey (fun c => c.orderIndex) (st.columns.filter (fun c => c.tableId = tableId))

/-- `updateColumn` of `db/operations.ts`: throws `Column not found` when
the id is unknown; otherwise applies the partial, stamps `updatedAt`, and
touches the owning table (which itself throws when that table is gone,
after the column write is already persisted). -/
def updateColumn (st : LocalState) (id : String) (patch : ColumnPatch)
    (now : Nat) : LocalState × Except String Unit :=
  match st.columns.find? (fun c => c.id = id) with
  | none => (st, .error "Column not found")
  | some column =>
    let st :=
      { st with
        columns := st.columns.map fun c =>
          if c.id = id then { patch.apply c with updatedAt := now } else c }
    updateTable st column.tableId {} now

/-- `deleteColumn` of `db/operations.ts`: a no-op when absent; otherwise
deletes every relationship referencing the column, the column itself, and
touches the owning table. -/
def deleteColumn (st : LocalState) (id : String) (now : Nat) :
    LocalState × Except String Unit :=
  match st.columns.find? (fun c => c.id = id) with
  | none => (st, .ok ())
  | some column =>
    let st :=
      { st with
        relationships := st.relationships.filter fun r =>
          ¬ (r.sourceColumnId = id ∨ r.targetColumnId = id) }
    let st := { st with columns := st.columns.filter (fun c => ¬ c.id = id) }
    updateTable st column.tableId {} now

/-- The sequential per-id writes of `reorderColumns`:
`db.columns.update(columnId, { orderIndex: index })` for each listed id in
order, starting at index `k`.  The write matches the column by id only —
no ownership check against the reordered table — and is a no-op for ids
not in the store. -/
def applyReorderFrom (cols : List Column) (k : Nat) :
    List String → List Column
  | [] => cols
  | cid :: rest =>
    applyReorderFrom
      (cols.map fun c =>
        if c.id = cid then { c with orderIndex := (k : Int) } else c)
      (k + 1) rest

/-- `reorderColumns` of `db/operations.ts`: writes `orderIndex :=`
position-in-list for each listed column id, then touches the table (whose
absence throws only after the column writes are persisted). -/
def reorderColumns (st : LocalState) (tableId : String)
    (columnIds : List String) (now : Nat) : LocalState × Except String Unit :=
  let st := { st with columns := applyReorderFrom st.columns 0 columnIds }
  updateTable st tableId {} now

/-- `createRelationship` of `db/operations.ts`: fails when either
referenced column is absent from the store, fails on a `dataType` mismatch
when `validateDataTypes` (default `true`, from `?? true`) is on, and
otherwise adds the row and touches the project. -/
def createRelationship (st : LocalState) (data : RelationshipInput)
    (freshId : String) (now : Nat) (validateDataTypes : Bool := true) :
    LocalState × Except String String :=
  match st.columns.find? (fun c => c.id = data.sourceColumnId),
      st.columns.find? (fun c => c.id = data.targetColumnId) with
  | none, _ => (st, .error "Source or target column not found")
  | some _, none => (st, .error "Source or target column not found")
  | some sourceColumn, some targetColumn =>
    if validateDataTypes ∧ sourceColumn.dataType ≠ targetColumn.dataType then
      (st, .error "Column data types must match")
    else
      let relationship : Relationship :=
        { id := freshId, projectId := data.projectId, name := data.name,
          sourceTableId := data.sourceTableId,
          sourceColumnId := data.sourceColumnId,
          targetTableId := data.targetTableId,
          targetColumnId := data.targetColumnId,
          onDelete := data.onDelete, onUpdate := data.onUpdate,
          createdAt := now, updatedAt := now }
      let st := { st with relationships := st.relationships ++ [relationship] }
      (touchProject st data.projectId now, .ok relationship.id)

end FrontendOps

/-- The persisted state of the remote realization: one materialized
`SchemaExport` document per project, the unit of every
`GET`/`PUT /projects/:id/schema` round trip. -/
structure RemoteState where
  docs : List SchemaExport
deriving DecidableEq

namespace BackendOps

/-- `GET /projects/:id` as used by `getProject`: the project row, absent
when unknown. -/
def getProject (st : RemoteState) (id : String) : Option Project :=
  (st.docs.find? (fun d => d.project.id = id)).map (fun d => d.project)

/-- `getProjectSchema` of `backendOperations.ts`: fetches the project's
whole document; the server answers 404 (`Project not found`) for an
unknown project. -/
def getProjectSchema (st : RemoteState) (projectId : String) :
    Except String SchemaExport :=
  match st.docs.find? (fun d => d.project.id = projectId) with
  | some d => .ok d
  | none => .error "Project not found"

/-- `putProjectSchema` of `backendOperations.ts`: the read-modify-write
write-back, replacing the project's whole document. -/
def putProjectSchema (st : RemoteState) (projectId : String)
    (schema : SchemaExport) : RemoteState :=
  if st.docs.any (fun d => d.project.id = projectId) then
    { docs := st.docs.map fun d =>
        if d.project.id = projectId then schema else d }
  else
    { docs := st.docs ++ [schema] }

/-- `findTableById` of `backendOperations.ts`, embedded as its cache-miss
fallback: scan every project's document for the table. -/
def findTableById (st : RemoteState) (tableId : String) :
    Option (SchemaExport × TableEntity) :=
  st.docs.findSome? fun d =>
    (d.tables.find? (fun t => t.id = tableId)).map (fun t => (d, t))

/-- `findColumnById` of `backendOperations.ts`, embedded as its cache-miss
fallback scan. -/
def findColumnById (st : RemoteState) (columnId : String) :
    Option (SchemaExport × Column) :=
  st.docs.findSome? fun d =>
    (d.columns.find? (fun c => c.id = columnId)).map (fun c => (d, c))

/-- `createTable` of `backendOperations.ts`: read the project document,
append the table, stamp `exportedAt`, write the document back. -/
def createTable (st : RemoteState) (data : TableInput) (freshId : String)
    (now : Nat) : RemoteState × Except String String :=
  match getProjectSchema st data.projectId with
  | .error e => (st, .error e)
  | .ok schema =>
    let table : TableEntity :=
      { id := freshId, projectId := data.projectId, name := data.name,
        description := data.description, position := data.position,
        color := data.color, createdAt := now, updatedAt := now }
    let schema :=
      { schema with tables := schema.tables ++ [table], exportedAt := now }
    (putProjectSchema st data.projectId schema, .ok table.id)

/-- `getTablesByProject` of `backendOperations.ts`. -/
def getTablesByProject (st : RemoteState) (projectId : String) :
    Except String (List TableEntity) :=
  (getProjectSchema st projectId).map (fun schema => schema.tables)

/-- `updateTable` of `backendOperations.ts`. -/
def updateTable (st : RemoteState) (id : String) (patch : TablePatch)
    (now : Nat) : RemoteState × Except String Unit :=
  match findTableById st id with
  | none => (st, .error "Table not found")
  | some (schema, table) =>
    let nextTable : TableEntity := { patch.apply table with updatedAt := now }
    let schema :=
      { schema with
        tables := schema.tables.map fun t => if t.id = id then nextTable else t
        exportedAt := now }
    (putProjectSchema st nextTable.projectId schema, .ok ())

/-- `moveTable` of `backendOperations.ts`. -/
def moveTable (st : RemoteState) (id : String) (position : TablePosition)
    (now : Nat) : RemoteState × Except String Unit :=
  updateTable st id { position := some position } now

/-- The `latestPositionById` map of the remote `moveTables`: one entry per
distinct id in first-occurrence order, holding the position of the last
entry for that id. -/
def dedupLastWins (moves : List FrontendOps.Move) :
    List (String × TablePosition) :=
  moves.foldl (fun m mv => setAssoc m mv.id mv.position) []

/-- The `byProject` grouping of the remote `moveTables`: each coalesced
move is attached to the project whose document holds its table; moves
whose table resolves nowhere are dropped. -/
def groupMovesByProject (st : RemoteState)
    (latest : List (String × TablePosition)) :
    List (String × List (String × TablePosition)) :=
  latest.foldl
    (fun acc p =>
      match findTableById st p.1 with
      | none => acc
      | some (schema, _) =>
        setAssoc acc schema.project.id
          ((jsMapGet acc schema.project.id).getD [] ++ [p]))
    []

/-- The per-project write loop of the remote `moveTables`: one
read-modify-write per affected project, applying that project's coalesced
positions. -/
def applyProjectMoves (st : RemoteState) (now : Nat) :
    List (String × List (String × TablePosition)) →
    RemoteState × Except String Unit
  | [] => (st, .ok ())
  | (projectId, pmoves) :: rest =>
    match getProjectSchema st projectId with
    | .error e => (st, .error e)
    | .ok schema =>
      let schema :=
        { schema with
          tables := schema.tables.map fun t =>
            match jsMapGet pmoves t.id with
            | none => t
            | some position => { t with position := position, updatedAt := now }
          exportedAt := now }
      applyProjectMoves (putProjectSchema st projectId schema) now rest

/-- `moveTables` of `backendOperations.ts`: coalesce to last-write-wins
per id, group by owning project, then issue one document write per
project. -/
def moveTables (st : RemoteState) (moves : List FrontendOps.Move)
    (now : Nat) : RemoteState × Except String Unit :=
  let latest := dedupLastWins moves
  if latest.isEmpty then (st, .ok ())
  else applyProjectMoves st now (groupMovesByProject st latest)

/-- `deleteTable` of `backendOperations.ts`: drops the table, its columns,
and every relationship whose source/target table is the table or whose
source/target column is one of the table's columns, in one document
rewrite. -/
def deleteTable (st : RemoteState) (id : String) (now : Nat) :
    RemoteState × Except String Unit :=
  match findTableById st id with
  | none => (st, .ok ())
  | some (schema, _) =>
    let removedColumnIds :=
      (schema.columns.filter (fun c => c.tableId = id)).map (fun c => c.id)
    let schema :=
      { schema with
        tables := schema.tables.filter (fun t => ¬ t.id = id)
        columns := schema.columns.filter (fun c => ¬ c.tableId = id)
        relationships := schema.relationships.filter fun r =>
          ¬ r.sourceTableId = id ∧ ¬ r.targetTableId = id ∧
            ¬ r.sourceColumnId ∈ removedColumnIds ∧
            ¬ r.targetColumnId ∈ removedColumnIds
        exportedAt := now }
    (putProjectSchema st schema.project.id schema, .ok ())

/-- `createColumn` of `backendOperations.ts`: fails when the owning table
resolves nowhere; otherwise appends the column and touches the owning
table's `updatedAt` in one document rewrite. -/
def createColumn (st : RemoteState) (data : ColumnInput) (freshId : String)
    (now : Nat) : RemoteState × Except String String :=
  match findTableById st data.tableId with
  | none => (st, .error "Table not found")
  | some (schema, _) =>
    let column : Column :=
      { id := freshId, tableId := data.tableId, name := data.name,
        dataType := data.dataType, length := data.length,
        precision := data.precision, scale := data.scale,
        nullable := data.nullable, isPrimaryKey := data.isPrimaryKey,
        isUnique := data.isUnique, isAutoIncrement := data.isAutoIncrement,
        defaultValue := data.defaultValue, description := data.description,
        orderIndex := data.orderIndex, createdAt := now, updatedAt := now }
    let schema :=
      { schema with
        columns := schema.columns ++ [column]
        tables := schema.tables.map fun t =>
          if t.id = data.tableId then { t with updatedAt := now } else t
        exportedAt := now }
    (putProjectSchema st schema.project.id schema, .ok column.id)

/-- `getColumnsByTable` of `backendOperations.ts`: empty when the table
resolves nowhere; otherwise the owning document's columns of that table,
sorted ascending by `orderIndex`. -/
def getColumnsByTable (st : RemoteState) (tableId : String) : List Column :=
  match findTableById st tableId with
  | none => []
  | some (schema, _) =>
    sortByKey (fun c => c.orderIndex)
      (schema.columns.filter (fun c => c.tableId = tableId))

/-- `updateColumn` of `backendOperations.ts`. -/
def updateColumn (st : RemoteState) (id : String) (patch : ColumnPatch)
    (now : Nat) : RemoteState × Except String Unit :=
  match findColumnById st id with
  | none => (st, .error "Column not found")
  | some (schema, column) =>
    let nextColumn : Column := { patch.apply column with updatedAt := now }
    let schema :=
      { schema with
        columns := schema.columns.map fun c => if c.id = id then nextColumn else c
        tables := schema.tables.map fun t =>
          if t.id = nextColumn.tableId then { t with updatedAt := now } else t
        exportedAt := now }
    (putProjectSchema st schema.project.id schema, .ok ())

/-- `reorderColumns` of `backendOperations.ts`: fails when the table
resolves nowhere; otherwise assigns each listed id's position to the
matching columns **of that table only**, leaving other tables' columns
untouched, and touches the table. -/
def reorderColumns (st : RemoteState) (tableId : String)
    (columnIds : List String) (now : Nat) : RemoteState × Except String Unit :=
  match findTableById st tableId with
  | none => (st, .error "Table not found")
  | some (schema, _) =>
    let schema :=
      { schema with
        columns := schema.columns.map fun c =>
          if ¬ c.tableId = tableId then c
          else
            match lastIdxFrom 0 c.id columnIds with
            | none => c
            | some j => { c with orderIndex := (j : Int), updatedAt := now }
        tables := schema.tables.map fun t =>
          if t.id = tableId then { t with updatedAt := now } else t
        exportedAt := now }
    (putProjectSchema st schema.project.id schema, .ok ())

/-- `createRelationship` of `backendOperations.ts`: resolves both columns
within the project's own document, fails when either is absent, fails on
a `dataType` mismatch when `validateDataTypes` (default `true`) is on,
and otherwise appends the relationship in one document rewrite. -/
def createRelationship (st : RemoteState) (data : RelationshipInput)
    (freshId : String) (now : Nat) (validateDataTypes : Bool := true) :
    RemoteState × Except String String :=
  match getProjectSchema st data.projectId with
  | .error e => (st, .error e)
  | .ok schema =>
    match schema.columns.find? (fun c => c.id = data.sourceColumnId),
        schema.columns.find? (fun c => c.id = data.targetColumnId) with
    | none, _ => (st, .error "Source or target column not found")
    | some _, none => (st, .error "Source or target column not found")
    | some sourceColumn, some targetColumn =>
      if validateDataTypes ∧ sourceColumn.dataType ≠ targetColumn.dataType then
        (st, .error "Column data types must match")
      else
        let relationship : Relationship :=
          { id := freshId, projectId := data.projectId, name := data.name,
            sourceTableId := data.sourceTableId,
            sourceColumnId := data.sourceColumnId,
            targetTableId := data.targetTableId,
            targetColumnId := data.targetColumnId,
            onDelete := data.onDelete, onUpdate := data.onUpdate,
            createdAt := now, updatedAt := now }
        let schema :=
          { schema with
            relationships := schema.relationships ++ [relationship]
            exportedAt := now }
        (putProjectSchema st data.projectId schema, .ok relationship.id)

end BackendOps

/-- `Array.prototype.join('\n')`. -/
def joinLines : List String → String
  | [] => ""
  | [s] => s
  | s :: s' :: rest => s ++ "\n" ++ joinLines (s' :: rest)

/-- `Array.prototype.join(sep)` for the word lists inside one line. -/
def joinWith (sep : String) : List String → String
  | [] => ""
  | [s] => s
  | s :: s' :: rest => s ++ sep ++ joinWith sep (s' :: rest)

namespace postgres

/-- The PostgreSQL `DATA_TYPE_MAP` of `sql-generator/postgres.ts`. -/
def DATA_TYPE_MAP : List (String × String) :=
  [("INTEGER", "INTEGER"), ("BIGINT", "BIGINT"), ("SMALLINT", "SMALLINT"),
   ("DECIMAL", "DECIMAL"), ("NUMERIC", "NUMERIC"), ("REAL", "REAL"),
   ("DOUBLE PRECISION", "DOUBLE PRECISION"), ("SERIAL", "SERIAL"),
   ("BIGSERIAL", "BIGSERIAL"), ("VARCHAR", "VARCHAR"), ("CHAR", "CHAR"),
   ("TEXT", "TEXT"), ("DATE", "DATE"), ("TIME", "TIME"),
   ("TIMESTAMP", "TIMESTAMP"), ("TIMESTAMPTZ", "TIMESTAMPTZ"),
   ("DATETIME", "TIMESTAMP"), ("BOOLEAN", "BOOLEAN"), ("BLOB", "BYTEA"),
   ("BYTEA", "BYTEA"), ("JSON", "JSON"), ("JSONB", "JSONB"),
   ("UUID", "UUID")]

/-- `mapDataType` of `sql-generator/postgres.ts`: dialect type name, with
`(length)` appended for a truthy length on `VARCHAR`/`CHAR` and
`(precision,scale)` appended when both are truthy on
`DECIMAL`/`NUMERIC`. -/
def mapDataType (column : Column) : String :=
  let baseType := (jsMapGet DATA_TYPE_MAP column.dataType).getD column.dataType
  if truthyNat column.length ∧
      (column.dataType = "VARCHAR" ∨ column.dataType = "CHAR") then
    baseType ++ "(" ++ toString (column.length.getD 0) ++ ")"
  else if truthyNat column.precision ∧ truthyNat column.scale ∧
      (column.dataType = "DECIMAL" ∨ column.dataType = "NUMERIC") then
    baseType ++ "(" ++ toString (column.precision.getD 0) ++ ","
      ++ toString (column.scale.getD 0) ++ ")"
  else
    baseType

/-- One column-definition line of the PostgreSQL `generateCreateTable`. -/
def columnDef (column : Column) : String :=
  joinWith " "
    (["  " ++ column.name, mapDataType column]
      ++ (if ¬ column.nullable then ["NOT NULL"] else [])
      ++ (if truthyStr column.defaultValue then
            ["DEFAULT " ++ column.defaultValue.getD ""] else [])
      ++ (if column.isUnique ∧ ¬ column.isPrimaryKey then ["UNIQUE"] else [])
      ++ (if truthyStr column.description then
            ["-- " ++ column.description.getD ""] else []))

/-- `generateCreateTable` of `sql-generator/postgres.ts`. -/
def generateCreateTable (table : TableEntity) (columns : List Column) :
    String :=
  let columnDefs := columns.map columnDef
  let pkColumns := columns.filter (fun c => c.isPrimaryKey)
  let constraints :=
    if pkColumns.length > 0 then
      ["  PRIMARY KEY ("
        ++ joinWith ", " (pkColumns.map (fun c => c.name)) ++ ")"]
    else []
  joinLines
    ((if truthyStr table.description then
        ["-- " ++ table.description.getD ""] else [])
      ++ ["CREATE TABLE " ++ table.name ++ " ("]
      ++ [joinWith ",\n" (columnDefs ++ constraints)]
      ++ [");"])

/-- `generateAlterTableFK` of `sql-generator/postgres.ts`: one
`ALTER TABLE ... ADD CONSTRAINT ... FOREIGN KEY` statement per
relationship, named by the relationship or the
`fk_<source>_<target>` fallback. -/
def generateAlterTableFK (relationship : Relationship)
    (sourceTable targetTable : TableEntity)
    (sourceColumn targetColumn : Column) : String :=
  let constraintName :=
    if truthyStr relationship.name then relationship.name.getD ""
    else "fk_" ++ sourceTable.name ++ "_" ++ targetTable.name
  joinLines
    ["ALTER TABLE " ++ sourceTable.name,
     "  ADD CONSTRAINT " ++ constraintName,
     "  FOREIGN KEY (" ++ sourceColumn.name ++ ")",
     "  REFERENCES " ++ targetTable.name ++ "(" ++ targetColumn.name ++ ")",
     "  ON DELETE " ++ relationship.onDelete,
     "  ON UPDATE " ++ relationship.onUpdate ++ ";"]

end postgres

namespace mysql

/-- The MySQL `DATA_TYPE_MAP` of `sql-generator/mysql.ts`. -/
def DATA_TYPE_MAP : List (String × String) :=
  [("INTEGER", "INT"), ("BIGINT", "BIGINT"), ("SMALLINT", "SMALLINT"),
   ("DECIMAL", "DECIMAL"), ("NUMERIC", "DECIMAL"), ("REAL", "FLOAT"),
   ("DOUBLE PRECISION", "DOUBLE"), ("SERIAL", "INT AUTO_INCREMENT"),
   ("BIGSERIAL", "BIGINT AUTO_INCREMENT"), ("VARCHAR", "VARCHAR"),
   ("CHAR", "CHAR"), ("TEXT", "TEXT"), ("DATE", "DATE"), ("TIME", "TIME"),
   ("TIMESTAMP", "TIMESTAMP"), ("TIMESTAMPTZ", "TIMESTAMP"),
   ("DATETIME", "DATETIME"), ("BOOLEAN", "TINYINT(1)"), ("BLOB", "BLOB"),
   ("BYTEA", "BLOB"), ("JSON", "JSON"), ("JSONB", "JSON"),
   ("UUID", "CHAR(36)")]

/-- `mapDataType` of `sql-generator/mysql.ts`: serial types collapse to
their auto-increment or plain integer form first; then length and
precision/scale handling as for PostgreSQL. -/
def mapDataType (column : Column) : String :=
  let baseType := (jsMapGet DATA_TYPE_MAP column.dataType).getD column.dataType
  if column.dataType = "SERIAL" ∨ column.dataType = "BIGSERIAL" then
    if column.isAutoIncrement then baseType
    else if column.dataType = "SERIAL" then "INT" else "BIGINT"
  else if truthyNat column.length ∧
      (column.dataType = "VARCHAR" ∨ column.dataType = "CHAR") then
    baseType ++ "(" ++ toString (column.length.getD 0) ++ ")"
  else if truthyNat column.precision ∧ truthyNat column.scale ∧
      (column.dataType = "DECIMAL" ∨ column.dataType = "NUMERIC") then
    baseType ++ "(" ++ toString (column.precision.getD 0) ++ ","
      ++ toString (column.scale.getD 0) ++ ")"
  else
    baseType

/-- A single-quote character, for MySQL comment escaping. -/
def sq : String := String.singleton (Char.ofNat 39)

/-- One column-definition line of the MySQL `generateCreateTable`,
backtick-quoted, with `AUTO_INCREMENT` for non-serial auto-increment
columns and a quote-escaped `COMMENT`. -/
def columnDef (column : Column) : String :=
  joinWith " "
    (["  `" ++ column.name ++ "`", mapDataType column]
      ++ (if ¬ column.nullable then ["NOT NULL"] else [])
      ++ (if column.isAutoIncrement ∧ ¬ column.dataType = "SERIAL" ∧
            ¬ column.dataType = "BIGSERIAL" then ["AUTO_INCREMENT"] else [])
      ++ (if truthyStr column.defaultValue then
            ["DEFAULT " ++ column.defaultValue.getD ""] else [])
      ++ (if column.isUnique ∧ ¬ column.isPrimaryKey then ["UNIQUE"] else [])
      ++ (if truthyStr column.description then
            ["COMMENT " ++ sq
              ++ (column.description.getD "").replace sq (sq ++ sq) ++ sq]
          else []))

/-- `generateCreateTable` of `sql-generator/mysql.ts`. -/
def generateCreateTable (table : TableEntity) (columns : List Column) :
    String :=
  let columnDefs := columns.map columnDef
  let pkColumns := columns.filter (fun c => c.isPrimaryKey)
  let constraints :=
    if pkColumns.length > 0 then
      ["  PRIMARY KEY ("
        ++ joinWith ", " (pkColumns.map (fun c => "`" ++ c.name ++ "`"))
        ++ ")"]
    else []
  joinLines
    ((if truthyStr table.description then
        ["-- " ++ table.description.getD ""] else [])
      ++ ["CREATE TABLE `" ++ table.name ++ "` ("]
      ++ [joinWith ",\n" (columnDefs ++ constraints)]
      ++ [") ENGINE=InnoDB DEFAULT CHARSET=utf8mb4 COLLATE=utf8mb4_unicode_ci;"])

/-- `generateAlterTableFK` of `sql-generator/mysql.ts`. -/
def generateAlterTableFK (relationship : Relationship)
    (sourceTable targetTable : TableEntity)
    (sourceColumn targetColumn : Column) : String :=
  let constraintName :=
    if truthyStr relationship.name then relationship.name.getD ""
    else "fk_" ++ sourceTable.name ++ "_" ++ targetTable.name
  joinLines
    ["ALTER TABLE `" ++ sourceTable.name ++ "`",
     "  ADD CONSTRAINT `" ++ constraintName ++ "`",
     "  FOREIGN KEY (`" ++ sourceColumn.name ++ "`)",
     "  REFERENCES `" ++ targetTable.name ++ "`(`" ++ targetColumn.name ++ "`)",
     "  ON DELETE " ++ relationship.onDelete,
     "  ON UPDATE " ++ relationship.onUpdate ++ ";"]

end mysql

namespace sqlite

/-- The SQLite `DATA_TYPE_MAP` of `sql-generator/sqlite.ts`. -/
def DATA_TYPE_MAP : List (String × String) :=
  [("INTEGER", "INTEGER"), ("BIGINT", "INTEGER"), ("SMALLINT", "INTEGER"),
   ("DECIMAL", "REAL"), ("NUMERIC", "REAL"), ("REAL", "REAL"),
   ("DOUBLE PRECISION", "REAL"), ("SERIAL", "INTEGER"),
   ("BIGSERIAL", "INTEGER"), ("VARCHAR", "TEXT"), ("CHAR", "TEXT"),
   ("TEXT", "TEXT"), ("DATE", "TEXT"), ("TIME", "TEXT"),
   ("TIMESTAMP", "TEXT"), ("TIMESTAMPTZ", "TEXT"), ("DATETIME", "TEXT"),
   ("BOOLEAN", "INTEGER"), ("BLOB", "BLOB"), ("BYTEA", "BLOB"),
   ("JSON", "TEXT"), ("JSONB", "TEXT"), ("UUID", "TEXT")]

/-- `mapDataType` of `sql-generator/sqlite.ts`: unknown types fall back to
`TEXT`; length/precision are always dropped under SQLite's type-affinity
model. -/
def mapDataType (column : Column) : String :=
  (jsMapGet DATA_TYPE_MAP column.dataType).getD "TEXT"

/-- One column-definition line of the SQLite generator: inline
`PRIMARY KEY` (with `AUTOINCREMENT`), and `NOT NULL` only for
non-primary-key columns. -/
def columnDef (column : Column) : String :=
  joinWith " "
    (["  " ++ column.name, mapDataType column]
      ++ (if column.isPrimaryKey then
            ["PRIMARY KEY"]
              ++ (if column.isAutoIncrement then ["AUTOINCREMENT"] else [])
          else [])
      ++ (if ¬ column.nullable ∧ ¬ column.isPrimaryKey then ["NOT NULL"]
          else [])
      ++ (if truthyStr column.defaultValue then
            ["DEFAULT " ++ column.defaultValue.getD ""] else [])
      ++ (if column.isUnique ∧ ¬ column.isPrimaryKey then ["UNIQUE"] else []))

/-- The inline `FOREIGN KEY` constraint clauses of
`generateCreateTableWithFK`: one clause per relationship whose source is
this table and whose target table and both columns resolve. -/
def fkConstraintLines (table : TableEntity)
    (relationships : List Relationship)
    (allTables : List (String × TableEntity))
    (allColumns : List (String × Column)) : List String :=
  relationships.filterMap fun rel =>
    if rel.sourceTableId = table.id then
      match jsMapGet allTables rel.targetTableId,
          jsMapGet allColumns rel.sourceColumnId,
          jsMapGet allColumns rel.targetColumnId with
      | some targetTable, some sourceColumn, some targetColumn =>
        some ("  FOREIGN KEY (" ++ sourceColumn.name ++ ") REFERENCES "
          ++ targetTable.name ++ "(" ++ targetColumn.name ++ ") ON DELETE "
          ++ rel.onDelete ++ " ON UPDATE " ++ rel.onUpdate)
      | _, _, _ => none
    else none

/-- `generateCreateTableWithFK` of `sql-generator/sqlite.ts`: the CREATE
TABLE statement with every applicable relationship folded in as an inline
`FOREIGN KEY` constraint clause. -/
def generateCreateTableWithFK (table : TableEntity) (columns : List Column)
    (relationships : List Relationship)
    (allTables : List (String × TableEntity))
    (allColumns : List (String × Column)) : String :=
  let columnDefs := columns.map columnDef
  let constraints := fkConstraintLines table relationships allTables allColumns
  joinLines
    ((if truthyStr table.description then
        ["-- " ++ table.description.getD ""] else [])
      ++ ["CREATE TABLE " ++ table.name ++ " ("]
      ++ [joinWith ",\n" (columnDefs ++ constraints)]
      ++ [");"])

end sqlite

/-- The `SQLDialect` enum of `types/schema.ts`. -/
inductive SQLDialect where
  | postgresql
  | mysql
  | sqlite
deriving DecidableEq

/-- The `${dialect.toUpperCase()}` of the generated header. -/
def SQLDialect.upper : SQLDialect → String
  | .postgresql => "POSTGRESQL"
  | .mysql => "MYSQL"
  | .sqlite => "SQLITE"

/-- The statement list built by `generateSQL` of `sql-generator/index.ts`
before the final join: header comments, per-table CREATE TABLE statements
(each followed by a blank separator), and — for PostgreSQL and MySQL only
— one `ALTER TABLE ... ADD CONSTRAINT` per relationship whose four
references all resolve.  The wall-clock header timestamp is the explicit
`generatedAt` parameter. -/
def generateSQLStatements (dialect : SQLDialect) (tables : List TableEntity)
    (columns : List Column) (relationships : List Relationship)
    (generatedAt : String) : List String :=
  let tableCols := fun (t : TableEntity) =>
    sortByKey (fun c => c.orderIndex)
      (columns.filter (fun c => c.tableId = t.id))
  let tablesMap := tables.map (fun t => (t.id, t))
  let columnsById := columns.map (fun c => (c.id, c))
  let headers :=
    ["-- Generated SQL for " ++ dialect.upper,
     "-- Generated at: " ++ generatedAt,
     "-- Tables: " ++ toString tables.length ++ ", Relationships: "
       ++ toString relationships.length,
     ""]
  let creates :=
    match dialect with
    | .postgresql =>
      tables.flatMap fun t => [postgres.generateCreateTable t (tableCols t), ""]
    | .mysql =>
      tables.flatMap fun t => [mysql.generateCreateTable t (tableCols t), ""]
    | .sqlite =>
      tables.flatMap fun t =>
        [sqlite.generateCreateTableWithFK t (tableCols t)
          (relationships.filter (fun r => r.sourceTableId = t.id))
          tablesMap columnsById, ""]
  let fkStatements :=
    match dialect with
    | .sqlite => []
    | _ =>
      if relationships.length > 0 then
        ["-- Foreign Key Constraints", ""]
          ++ relationships.flatMap fun rel =>
            match jsMapGet tablesMap rel.sourceTableId,
                jsMapGet tablesMap rel.targetTableId,
                jsMapGet columnsById rel.sourceColumnId,
                jsMapGet columnsById rel.targetColumnId with
            | some sourceTable, some targetTable, some sourceColumn,
                some targetColumn =>
              match dialect with
              | .mysql =>
                [mysql.generateAlterTableFK rel sourceTable targetTable
                  sourceColumn targetColumn, ""]
              | _ =>
                [postgres.generateAlterTableFK rel sourceTable targetTable
                  sourceColumn targetColumn, ""]
            | _, _, _, _ => []
      else []
  headers ++ creates ++ fkStatements

/-- `generateSQL` of `sql-generator/index.ts`, up to the final
`sql-formatter` pass: that pass is cosmetic reflowing by an external
library (and on any formatting error the unformatted text below is
returned verbatim), so the generator's output is embedded as the joined
statement list. -/
def generateSQL (dialect : SQLDialect) (tables : List TableEntity)
    (columns : List Column) (relationships : List Relationship)
    (generatedAt : String) : String :=
  joinLines (generateSQLStatements dialect tables columns relationships generatedAt)

namespace importSchema

/-- The `IMPORT_LAYOUT` constants of the import codec. -/
def startX : Int := 100

/-- `IMPORT_LAYOUT.startY`. -/
def startY : Int := 100

/-- `IMPORT_LAYOUT.horizontalGap`. -/
def horizontalGap : Int := 420

/-- `IMPORT_LAYOUT.verticalGap`. -/
def verticalGap : Int := 320

/-- `IMPORT_LAYOUT.projectOffsetX`. -/
def projectOffsetX : Int := 520

/-- `getImportGridColumns`: grid width by imported table count. -/
def getImportGridColumns (tableCount : Nat) : Nat :=
  if tableCount ≤ 1 then 1
  else if tableCount ≤ 4 then 2
  else if tableCount ≤ 9 then 3
  else 4

/-- `Math.max(...existingTables.map(t => t.position.x))`, `none` when the
destination project has no tables.  (`position` is a required field of
`TableEntity`, so the defensive `?? 0` fallback of the source never
fires.) -/
def maxExistingX (existingTables : List TableEntity) : Option Int :=
  match existingTables.map (fun t => t.position.x) with
  | [] => none
  | x :: xs => some (xs.foldl max x)

/-- `Math.min(...existingTables.map(t => t.position.y))`, defaulting to
the layout start when the destination project has no tables. -/
def minExistingY (existingTables : List TableEntity) : Int :=
  match existingTables.map (fun t => t.position.y) with
  | [] => startY
  | y :: ys => ys.foldl min y

/-- The grid anchor x: to the right of all pre-existing tables, or the
layout start when there are none. -/
def gridStartX (existingTables : List TableEntity) : Int :=
  match maxExistingX existingTables with
  | none => startX
  | some mx => mx + projectOffsetX

/-- Grid cell of the `index`-th imported table. -/
def gridPosition (gsX gsY : Int) (columnsPerRow : Nat) (idx : Nat) :
    TablePosition :=
  { x := gsX + ((idx % columnsPerRow : Nat) : Int) * horizontalGap,
    y := gsY + ((idx / columnsPerRow : Nat) : Int) * verticalGap }

/-- The table-import loop of `importToFrontend`: each source table is
created with a fresh id in its grid cell, and the old→new table-id map is
extended. -/
def importTablesLoop (projectId : String) (gen : Nat → String) (now : Nat)
    (gsX gsY : Int) (columnsPerRow : Nat) :
    List TableEntity → LocalState → List (String × String) → Nat → Nat →
    LocalState × List (String × String) × Nat
  | [], st, tmap, n, _ => (st, tmap, n)
  | tbl :: rest, st, tmap, n, idx =>
    let res := FrontendOps.createTable st
      { projectId := projectId, name := tbl.name,
        description := tbl.description,
        position := gridPosition gsX gsY columnsPerRow idx,
        color := tbl.color } (gen n) now
    importTablesLoop projectId gen now gsX gsY columnsPerRow rest res.1
      (tmap ++ [(tbl.id, res.2)]) (n + 1) (idx + 1)

/-- The column-import loop of `importToFrontend`: a source column whose
`tableId` does not resolve through the table-id map is skipped (with only
a console warning in the source); otherwise it is created under a fresh
id against the remapped table, extending the column-id map. -/
def importColumnsLoop (gen : Nat → String) (now : Nat)
    (tmap : List (String × String)) :
    List Column → LocalState → List (String × String) → Nat →
    LocalState × List (String × String) × Nat
  | [], st, cmap, n => (st, cmap, n)
  | src :: rest, st, cmap, n =>
    match jsMapGet tmap src.tableId with
    | none => importColumnsLoop gen now tmap rest st cmap n
    | some newTableId =>
      let res := FrontendOps.createColumn st
        { tableId := newTableId, name := src.name, dataType := src.dataType,
          length := src.length, precision := src.precision,
          scale := src.scale, nullable := src.nullable,
          isPrimaryKey := src.isPrimaryKey, isUnique := src.isUnique,
          isAutoIncrement := src.isAutoIncrement,
          defaultValue := src.defaultValue, description := src.description,
          orderIndex := src.orderIndex } (gen n) now
      importColumnsLoop gen now tmap rest res.1 (cmap ++ [(src.id, res.2)])
        (n + 1)

/-- The relationship-import loop of `importToFrontend`: a relationship is
skipped unless all four of its references resolve through the id maps;
resolvable ones are created with `validateDataTypes := false`, and a
creation error is swallowed (`try`/`catch`) and the loop continues. -/
def importRelsLoop (projectId : String) (gen : Nat → String) (now : Nat)
    (tmap cmap : List (String × String)) :
    List Relationship → LocalState → Nat → LocalState × Nat
  | [], st, n => (st, n)
  | rel :: rest, st, n =>
    match jsMapGet tmap rel.sourceTableId, jsMapGet tmap rel.targetTableId,
        jsMapGet cmap rel.sourceColumnId, jsMapGet cmap rel.targetColumnId with
    | some newSourceTableId, some newTargetTableId, some newSourceColumnId,
        some newTargetColumnId =>
      match FrontendOps.createRelationship st
        { projectId := projectId, name := rel.name,
          sourceTableId := newSourceTableId,
          sourceColumnId := newSourceColumnId,
          targetTableId := newTargetTableId,
          targetColumnId := newTargetColumnId,
          onDelete := rel.onDelete, onUpdate := rel.onUpdate }
        (gen n) now false with
      | (st', .ok _) => importRelsLoop projectId gen now tmap cmap rest st' (n + 1)
      | (st', .error _) => importRelsLoop projectId gen now tmap cmap rest st' n
    | _, _, _, _ => importRelsLoop projectId gen now tmap cmap rest st n

/-- `importToFrontend`: remap and merge a validated external
`SchemaExport` into the destination project of the local store, skipping
dangling columns and relationships. -/
def importToFrontend (st : LocalState) (schema : SchemaExport)
    (projectId : String) (gen : Nat → String) (now : Nat) : LocalState :=
  let existingTables := FrontendOps.getTablesByProject st projectId
  let gsX := gridStartX existingTables
  let gsY := minExistingY existingTables
  let columnsPerRow := getImportGridColumns schema.tables.length
  let resT := importTablesLoop projectId gen now gsX gsY columnsPerRow
    schema.tables st [] 0 0
  let resC := importColumnsLoop gen now resT.2.1 schema.columns resT.1 [] resT.2.2
  (importRelsLoop projectId gen now resT.2.1 resC.2.1 schema.relationships
    resC.1 resC.2.2).1

/-- The table remapping of `importToBackend`: every source table gets a
fresh id, the destination project id, its grid cell, and fresh
timestamps. -/
def importedTablesLoop (projectId : String) (gen : Nat → String) (now : Nat)
    (gsX gsY : Int) (columnsPerRow : Nat) :
    List TableEntity → List TableEntity → List (String × String) → Nat →
    Nat → List TableEntity × List (String × String) × Nat
  | [], accT, tmap, n, _ => (accT, tmap, n)
  | tbl :: rest, accT, tmap, n, idx =>
    let newId := gen n
    let imported : TableEntity :=
      { tbl with
        id := newId
        projectId := projectId
        position := gridPosition gsX gsY columnsPerRow idx
        createdAt := now
        updatedAt := now }
    importedTablesLoop projectId gen now gsX gsY columnsPerRow rest
      (accT ++ [imported]) (tmap ++ [(tbl.id, newId)]) (n + 1) (idx + 1)

/-- The column remapping of `importToBackend`: dangling columns are
skipped; the others keep their data under a fresh id and the remapped
table id.  (The `?? true`/`?? false`/`?? 0` fallbacks of the source guard
fields that are required in the `Column` type, so they are identities
here.) -/
def importedColumnsLoop (gen : Nat → String) (now : Nat)
    (tmap : List (String × String)) :
    List Column → List Column → List (String × String) → Nat →
    List Column × List (String × String) × Nat
  | [], accC, cmap, n => (accC, cmap, n)
  | src :: rest, accC, cmap, n =>
    match jsMapGet tmap src.tableId with
    | none => importedColumnsLoop gen now tmap rest accC cmap n
    | some newTableId =>
      let newId := gen n
      let imported : Column :=
        { src with
          id := newId
          tableId := newTableId
          createdAt := now
          updatedAt := now }
      importedColumnsLoop gen now tmap rest (accC ++ [imported])
        (cmap ++ [(src.id, newId)]) (n + 1)

/-- The relationship remapping of `importToBackend`: a relationship is
skipped unless all four references resolve; the others are spliced in
directly — without any data-type validation — under fresh ids. -/
def importedRelsLoop (projectId : String) (gen : Nat → String) (now : Nat)
    (tmap cmap : List (String × String)) :
    List Relationship → List Relationship → Nat → List Relationship × Nat
  | [], accR, n => (accR, n)
  | rel :: rest, accR, n =>
    match jsMapGet tmap rel.sourceTableId, jsMapGet tmap rel.targetTableId,
        jsMapGet cmap rel.sourceColumnId, jsMapGet cmap rel.targetColumnId with
    | some sourceTableId, some targetTableId, some sourceColumnId,
        some targetColumnId =>
      let imported : Relationship :=
        { rel with
          id := gen n
          projectId := projectId
          sourceTableId := sourceTableId
          targetTableId := targetTableId
          sourceColumnId := sourceColumnId
          targetColumnId := targetColumnId
          createdAt := now
          updatedAt := now }
      importedRelsLoop projectId gen now tmap cmap rest (accR ++ [imported])
        (n + 1)
    | _, _, _, _ => importedRelsLoop projectId gen now tmap cmap rest accR n

/-- `importToBackend`: fails when the destination project is unknown;
otherwise reads the existing document (synthesizing an empty one when the
schema read fails), splices in the remapped entities, and writes the
union back as a single document `PUT`. -/
def importToBackend (st : RemoteState) (schema : SchemaExport)
    (projectId : String) (gen : Nat → String) (now : Nat) :
    RemoteState × Except String Unit :=
  match BackendOps.getProject st projectId with
  | none => (st, .error "Project not found")
  | some project =>
    let existingSchema :=
      match BackendOps.getProjectSchema st projectId with
      | .ok d => d
      | .error _ =>
        { version := "1.0.0", exportedAt := now, project := project,
          tables := [], columns := [], relationships := [] }
    let gsX := gridStartX existingSchema.tables
    let gsY := minExistingY existingSchema.tables
    let columnsPerRow := getImportGridColumns schema.tables.length
    let resT := importedTablesLoop projectId gen now gsX gsY columnsPerRow
      schema.tables [] [] 0 0
    let resC := importedColumnsLoop gen now resT.2.1 schema.columns [] []
      resT.2.2
    let resR := importedRelsLoop projectId gen now resT.2.1 resC.2.1
      schema.relationships [] resC.2.2
    let mergedProject : Project :=
      { existingSchema.project with
        name := project.name
        description := project.description
        updatedAt := now }
    let merged : SchemaExport :=
      { version := "1.0.0"
        exportedAt := now
        project := mergedProject
        tables := existingSchema.tables ++ resT.1
        columns := existingSchema.columns ++ resC.1
        relationships := existingSchema.relationships ++ resR.1 }
    (BackendOps.putProjectSchema st projectId merged, .ok ())

end importSchema

/-! ### Library lemmas about the JavaScript-semantics helpers -/

theorem jsMapGet_foldl_init {α : Type} (m : List (String × α)) (k : String)
    (i : Option α) :
    m.foldl (fun acc p => if p.1 = k then some p.2 else acc) i =
      match m.foldl (fun acc p => if p.1 = k then some p.2 else acc) none with
      | some v => some v
      | none => i := by
  induction m generalizing i with
  | nil => simp
  | cons q m ih =>
    simp only [List.foldl_cons]
    rw [ih, ih (if q.1 = k then some q.2 else none)]
    by_cases hq : q.1 = k <;>
      cases hG : m.foldl (fun acc p => if p.1 = k then some p.2 else acc) none <;>
      simp [hq, hG]

theorem jsMapGet_nil {α : Type} (k : String) :
    jsMapGet ([] : List (String × α)) k = none := rfl

theorem jsMapGet_cons {α : Type} (p : String × α) (m : List (String × α))
    (k : String) :
    jsMapGet (p :: m) k =
      match jsMapGet m k with
      | some v => some v
      | none => if p.1 = k then some p.2 else none := by
  show List.foldl _ (if p.1 = k then some p.2 else none) m = _
  rw [jsMapGet_foldl_init]
  rfl

theorem jsMapGet_append {α : Type} (m m' : List (String × α)) (k : String) :
    jsMapGet (m ++ m') k =
      match jsMapGet m' k with
      | some v => some v
      | none => jsMapGet m k := by
  induction m with
  | nil => cases h : jsMapGet m' k <;> simp [jsMapGet_nil, h]
  | cons p m ih =>
    rw [List.cons_append, jsMapGet_cons, ih, jsMapGet_cons]
    cases h' : jsMapGet m' k <;> cases h : jsMapGet m k <;> simp [h, h']

theorem jsMapGet_eq_none_iff {α : Type} (m : List (String × α)) (k : String) :
    jsMapGet m k = none ↔ ∀ p ∈ m, p.1 ≠ k := by
  induction m with
  | nil => simp [jsMapGet_nil]
  | cons p m ih =>
    rw [jsMapGet_cons]
    cases h : jsMapGet m k with
    | some v =>
      simp only []
      constructor
      · intro hc; exact absurd hc (by simp)
      · intro hall
        exact absurd (ih.mpr fun q hq => hall q (List.mem_cons_of_mem _ hq))
          (by simp [h])
    | none =>
      simp only []
      constructor
      · intro hc
        intro q hq
        rcases List.mem_cons.mp hq with rfl | hq'
        · intro hk; simp [hk] at hc
        · exact (ih.mp h) q hq'
      · intro hall
        simp [hall p (List.mem_cons_self p m)]

theorem jsMapGet_isSome_iff {α : Type} (m : List (String × α)) (k : String) :
    (jsMapGet m k).isSome = true ↔ k ∈ m.map (fun p => p.1) := by
  constructor
  · intro h
    by_contra hk
    have hnone : jsMapGet m k = none := by
      rw [jsMapGet_eq_none_iff]
      intro p hp hpk
      exact hk (hpk ▸ List.mem_map_of_mem (fun q => q.1) hp)
    rw [hnone] at h
    simp at h
  · intro hk
    cases hcase : jsMapGet m k with
    | some v => simp
    | none =>
      exfalso
      rw [jsMapGet_eq_none_iff] at hcase
      rcases List.mem_map.mp hk with ⟨p, hp, hpk⟩
      exact hcase p hp hpk

theorem mem_of_jsMapGet_eq_some {α : Type} {m : List (String × α)}
    {k : String} {v : α} (h : jsMapGet m k = some v) : (k, v) ∈ m := by
  induction m with
  | nil => simp [jsMapGet_nil] at h
  | cons p m ih =>
    rw [jsMapGet_cons] at h
    cases hm : jsMapGet m k with
    | some w =>
      rw [hm] at h
      cases h
      exact List.mem_cons_of_mem _ (ih hm)
    | none =>
      rw [hm] at h
      by_cases hp : p.1 = k
      · simp only [hp, if_pos rfl] at h
        cases h
        have : p = (k, p.2) := by
          cases p; simp_all
        rw [← this]
        exact List.mem_cons_self p m
      · simp [hp] at h

theorem jsMapGet_of_mem_nodup {α : Type} {m : List (String × α)}
    {k : String} {v : α} (hnd : (m.map (fun p => p.1)).Nodup)
    (hmem : (k, v) ∈ m) : jsMapGet m k = some v := by
  induction m with
  | nil => simp at hmem
  | cons p m ih =>
    rw [List.map_cons, List.nodup_cons] at hnd
    rw [jsMapGet_cons]
    rcases List.mem_cons.mp hmem with rfl | hmem'
    · have hnone : jsMapGet m k = none := by
        rw [jsMapGet_eq_none_iff]
        intro q hq hqk
        exact hnd.1 (hqk ▸ List.mem_map_of_mem (fun r => r.1) hq)
      simp [hnone]
    · have := ih hnd.2 hmem'
      simp [this]

theorem keys_setAssoc {α : Type} (m : List (String × α)) (k : String) (v : α) :
    (setAssoc m k v).map (fun p => p.1) =
      if m.any (fun p => p.1 = k) then m.map (fun p => p.1)
      else m.map (fun p => p.1) ++ [k] := by
  unfold setAssoc
  by_cases h : m.any (fun p => p.1 = k)
  · simp only [h, if_true, List.map_map]
    apply List.map_congr_left
    intro p _
    by_cases hp : p.1 = k <;> simp [hp]
  · simp [h]

theorem nodup_keys_setAssoc {α : Type} {m : List (String × α)} (k : String)
    (v : α) (hnd : (m.map (fun p => p.1)).Nodup) :
    ((setAssoc m k v).map (fun p => p.1)).Nodup := by
  rw [keys_setAssoc]
  by_cases h : m.any (fun p => p.1 = k)
  · simpa [h]
  · rw [if_neg h]
    have hk : k ∉ m.map (fun p => p.1) := by
      intro hmem
      rcases List.mem_map.mp hmem with ⟨p, hp, hpk⟩
      exact h (List.any_eq_true.mpr ⟨p, hp, by simp [hpk]⟩)
    simp [List.nodup_append, hnd, hk]

theorem jsMapGet_map_overwrite {α : Type} (m : List (String × α)) (k : String)
    (v : α) :
    jsMapGet (m.map (fun p => if p.1 = k then (k, v) else p)) k =
      if m.any (fun p => p.1 = k) then some v else none := by
  induction m with
  | nil => simp [jsMapGet_nil]
  | cons p m ih =>
    rw [List.map_cons, jsMapGet_cons, ih]
    by_cases hp : p.1 = k <;>
      by_cases hm : m.any (fun p => p.1 = k) <;>
      simp [hp, hm, List.any_cons]

theorem jsMapGet_setAssoc_self {α : Type} (m : List (String × α)) (k : String)
    (v : α) : jsMapGet (setAssoc m k v) k = some v := by
  unfold setAssoc
  by_cases h : m.any (fun p => p.1 = k)
  · rw [if_pos h, jsMapGet_map_overwrite, if_pos h]
  · rw [if_neg h, jsMapGet_append]
    have : jsMapGet [(k, v)] k = some v := by
      rw [jsMapGet_cons]; simp [jsMapGet_nil]
    simp [this]

theorem jsMapGet_map_overwrite_ne {α : Type} (m : List (String × α))
    {k k' : String} (v : α) (h : k' ≠ k) :
    jsMapGet (m.map (fun p => if p.1 = k then (k, v) else p)) k' =
      jsMapGet m k' := by
  induction m with
  | nil => simp
  | cons p m ih =>
    rw [List.map_cons, jsMapGet_cons, jsMapGet_cons, ih]
    by_cases hp : p.1 = k
    · have hkk' : ¬ k = k' := fun hc => h hc.symm
      have hpk' : ¬ p.1 = k' := by rw [hp]; exact hkk'
      simp [hp, hkk', hpk']
    · simp [hp]

theorem jsMapGet_setAssoc_ne {α : Type} (m : List (String × α)) {k k' : String}
    (v : α) (h : k' ≠ k) : jsMapGet (setAssoc m k v) k' = jsMapGet m k' := by
  unfold setAssoc
  by_cases hm : m.any (fun p => p.1 = k)
  · rw [if_pos hm]
    exact jsMapGet_map_overwrite_ne m v h
  · rw [if_neg hm, jsMapGet_append]
    have hsingle : jsMapGet [(k, v)] k' = none := by
      rw [jsMapGet_cons]
      have : ¬ k = k' := fun hc => h hc.symm
      simp [jsMapGet_nil, this]
    cases hmk : jsMapGet m k' <;> simp [hsingle, hmk]

/-! ### Lemmas about the stable sort -/

theorem insertByKey_perm {α : Type} (key : α → Int) (a : α) (l : List α) :
    (insertByKey key a l).Perm (a :: l) := by
  induction l with
  | nil => exact List.Perm.refl _
  | cons b l ih =>
    unfold insertByKey
    by_cases h : key a ≤ key b
    · rw [if_pos h]
    · rw [if_neg h]
      exact (List.Perm.cons b ih).trans (List.Perm.swap a b l)

theorem sortByKey_perm {α : Type} (key : α → Int) (l : List α) :
    (sortByKey key l).Perm l := by
  induction l with
  | nil => exact List.Perm.refl _
  | cons a l ih =>
    exact (insertByKey_perm key a (sortByKey key l)).trans (ih.cons a)

theorem mem_sortByKey {α : Type} {key : α → Int} {l : List α} {a : α} :
    a ∈ sortByKey key l ↔ a ∈ l :=
  (sortByKey_perm key l).mem_iff

theorem insertByKey_pairwise {α : Type} {key : α → Int} {a : α} {l : List α}
    (h : l.Pairwise (fun x y => key x ≤ key y)) :
    (insertByKey key a l).Pairwise (fun x y => key x ≤ key y) := by
  induction l with
  | nil => simp [insertByKey]
  | cons b l ih =>
    unfold insertByKey
    rcases List.pairwise_cons.mp h with ⟨hb, hl⟩
    by_cases hab : key a ≤ key b
    · rw [if_pos hab]
      refine List.pairwise_cons.mpr ⟨?_, h⟩
      intro x hx
      rcases List.mem_cons.mp hx with rfl | hx'
      · exact hab
      · exact le_trans hab (hb x hx')
    · rw [if_neg hab]
      refine List.pairwise_cons.mpr ⟨?_, ih hl⟩
      intro x hx
      rcases List.mem_cons.mp ((insertByKey_perm key a l).mem_iff.mp hx) with
        rfl | h2
      · exact le_of_lt (lt_of_not_le hab)
      · exact hb x h2

theorem sortByKey_pairwise {α : Type} (key : α → Int) (l : List α) :
    (sortByKey key l).Pairwise (fun x y => key x ≤ key y) := by
  induction l with
  | nil => simp [sortByKey]
  | cons a l ih => exact insertByKey_pairwise ih

/-! ### Lemmas about list positions -/

theorem posIn_inj {a b : String} {ids : List String} (ha : a ∈ ids)
    (hb : b ∈ ids) (h : posIn a ids = posIn b ids) : a = b := by
  induction ids with
  | nil => simp at ha
  | cons x l ih =>
    by_cases hxa : x = a <;> by_cases hxb : x = b
    · exact hxa ▸ hxb
    · exfalso
      have : posIn a (x :: l) = 0 := by simp [posIn, hxa]
      have hb' : posIn b (x :: l) = posIn b l + 1 := by simp [posIn, hxb]
      omega
    · exfalso
      have : posIn b (x :: l) = 0 := by simp [posIn, hxb]
      have ha' : posIn a (x :: l) = posIn a l + 1 := by simp [posIn, hxa]
      omega
    · have ha' : a ∈ l := by
        rcases List.mem_cons.mp ha with rfl | h' <;> simp_all
      have hb' : b ∈ l := by
        rcases List.mem_cons.mp hb with rfl | h' <;> simp_all
      apply ih ha' hb'
      have h1 : posIn a (x :: l) = posIn a l + 1 := by simp [posIn, hxa]
      have h2 : posIn b (x :: l) = posIn b l + 1 := by simp [posIn, hxb]
      omega

theorem lastIdxFrom_nodup (k : Nat) (id : String) {ids : List String}
    (h : ids.Nodup) :
    lastIdxFrom k id ids =
      if id ∈ ids then some (k + posIn id ids) else none := by
  induction ids generalizing k with
  | nil => simp [lastIdxFrom]
  | cons x l ih =>
    rcases List.nodup_cons.mp h with ⟨hx, hl⟩
    unfold lastIdxFrom
    rw [ih (k + 1) hl]
    by_cases hmem : id ∈ l
    · have hxid : ¬ x = id := fun hc => hx (hc ▸ hmem)
      simp only [if_pos hmem]
      have : id ∈ x :: l := List.mem_cons_of_mem _ hmem
      simp only [if_pos this]
      have : posIn id (x :: l) = posIn id l + 1 := by simp [posIn, hxid]
      rw [this]
      congr 1
      omega
    · simp only [if_neg hmem]
      by_cases hxid : x = id
      · have : id ∈ x :: l := by simp [hxid]
        simp [this, posIn, hxid]
      · have : id ∉ x :: l := by
          intro hc
          rcases List.mem_cons.mp hc with rfl | hc'
          · exact hxid rfl
          · exact hmem hc'
        simp [this, hxid]

/-! ### Structural lemmas about the local store operations -/

theorem columns_touchProject (st : LocalState) (id : String) (now : Nat) :
    (FrontendOps.touchProject st id now).columns = st.columns := rfl

theorem columns_updateTable (st : LocalState) (id : String)
    (patch : TablePatch) (now : Nat) :
    (FrontendOps.updateTable st id patch now).1.columns = st.columns := by
  unfold FrontendOps.updateTable
  cases st.schemaTables.find? (fun t => t.id = id) <;> rfl

theorem relationships_updateTable (st : LocalState) (id : String)
    (patch : TablePatch) (now : Nat) :
    (FrontendOps.updateTable st id patch now).1.relationships =
      st.relationships := by
  unfold FrontendOps.updateTable
  cases st.schemaTables.find? (fun t => t.id = id) <;> rfl

theorem schemaTables_ids_updateTable (st : LocalState) (id : String)
    (patch : TablePatch) (now : Nat) :
    (FrontendOps.updateTable st id patch now).1.schemaTables.map
        (fun t => t.id) = st.schemaTables.map (fun t => t.id) := by
  unfold FrontendOps.updateTable
  cases st.schemaTables.find? (fun t => t.id = id) with
  | none => rfl
  | some table =>
    simp only [FrontendOps.touchProject, List.map_map]
    apply List.map_congr_left
    intro t _
    by_cases ht : t.id = id <;> simp [ht, TablePatch.apply]

theorem columns_createColumn (st : LocalState) (data : ColumnInput)
    (freshId : String) (now : Nat) :
    (FrontendOps.createColumn st data freshId now).1.columns =
      st.columns ++
        [{ id := freshId, tableId := data.tableId, name := data.name,
           dataType := data.dataType, length := data.length,
           precision := data.precision, scale := data.scale,
           nullable := data.nullable, isPrimaryKey := data.isPrimaryKey,
           isUnique := data.isUnique, isAutoIncrement := data.isAutoIncrement,
           defaultValue := data.defaultValue, description := data.description,
           orderIndex := data.orderIndex, createdAt := now,
           updatedAt := now }] := by
  unfold FrontendOps.createColumn
  dsimp only
  split
  · rfl
  · rw [columns_updateTable]

/-! ### Structural lemmas about the remote store operations -/

theorem findTableById_aux {tid : String} {d : SchemaExport} {t : TableEntity} :
    ∀ {docs : List SchemaExport},
      docs.findSome? (fun d0 =>
          (d0.tables.find? (fun t0 => t0.id = tid)).map (fun t0 => (d0, t0))) =
        some (d, t) →
      d ∈ docs ∧ t ∈ d.tables ∧ t.id = tid := by
  intro docs
  induction docs with
  | nil => intro h; simp [List.findSome?] at h
  | cons d0 docs ih =>
    intro h
    rw [List.findSome?_cons] at h
    cases hfind : d0.tables.find? (fun t0 => t0.id = tid) with
    | some t0 =>
      rw [hfind] at h
      simp only [Option.map_some'] at h
      cases h
      refine ⟨List.mem_cons_self _ _, List.mem_of_find?_eq_some hfind, ?_⟩
      have := List.find?_some hfind
      simpa using this
    | none =>
      rw [hfind] at h
      simp only [Option.map_none'] at h
      rcases ih h with ⟨h1, h2, h3⟩
      exact ⟨List.mem_cons_of_mem _ h1, h2, h3⟩

theorem findTableById_spec {st : RemoteState} {tid : String}
    {d : SchemaExport} {t : TableEntity}
    (h : BackendOps.findTableById st tid = some (d, t)) :
    d ∈ st.docs ∧ t ∈ d.tables ∧ t.id = tid :=
  findTableById_aux h

theorem findColumnById_aux {cid : String} {d : SchemaExport} {c : Column} :
    ∀ {docs : List SchemaExport},
      docs.findSome? (fun d0 =>
          (d0.columns.find? (fun c0 => c0.id = cid)).map (fun c0 => (d0, c0))) =
        some (d, c) →
      d ∈ docs ∧ c ∈ d.columns ∧ c.id = cid := by
  intro docs
  induction docs with
  | nil => intro h; simp [List.findSome?] at h
  | cons d0 docs ih =>
    intro h
    rw [List.findSome?_cons] at h
    cases hfind : d0.columns.find? (fun c0 => c0.id = cid) with
    | some c0 =>
      rw [hfind] at h
      simp only [Option.map_some'] at h
      cases h
      refine ⟨List.mem_cons_self _ _, List.mem_of_find?_eq_some hfind, ?_⟩
      have := List.find?_some hfind
      simpa using this
    | none =>
      rw [hfind] at h
      simp only [Option.map_none'] at h
      rcases ih h with ⟨h1, h2, h3⟩
      exact ⟨List.mem_cons_of_mem _ h1, h2, h3⟩

theorem findColumnById_spec {st : RemoteState} {cid : String}
    {d : SchemaExport} {c : Column}
    (h : BackendOps.findColumnById st cid = some (d, c)) :
    d ∈ st.docs ∧ c ∈ d.columns ∧ c.id = cid :=
  findColumnById_aux h

theorem putProjectSchema_docs_of_mem {st : RemoteState} {k : String}
    (schemaNew : SchemaExport) {d : SchemaExport} (hd : d ∈ st.docs)
    (hk : d.project.id = k) :
    (BackendOps.putProjectSchema st k schemaNew).docs =
      st.docs.map (fun d0 => if d0.project.id = k then schemaNew else d0) := by
  unfold BackendOps.putProjectSchema
  rw [if_pos (List.any_eq_true.mpr ⟨d, hd, by simp [hk]⟩)]

theorem mem_putProjectSchema_of_mem {st : RemoteState} {k : String}
    (schemaNew : SchemaExport) {d : SchemaExport} (hd : d ∈ st.docs)
    (hk : d.project.id = k) :
    schemaNew ∈ (BackendOps.putProjectSchema st k schemaNew).docs := by
  rw [putProjectSchema_docs_of_mem schemaNew hd hk]
  have := List.mem_map_of_mem
    (fun d0 => if d0.project.id = k then schemaNew else d0) hd
  simpa [hk] using this

/-! ### Shared concrete fixtures for witnesses and counterexamples -/

/-- A concrete project. -/
def pFix : Project := { id := "p1", name := "P", createdAt := 0, updatedAt := 0 }

/-- A concrete table `t1` ("users") of project `p1`. -/
def tFix : TableEntity :=
  { id := "t1", projectId := "p1", name := "users",
    position := { x := 0, y := 0 }, createdAt := 0, updatedAt := 0 }

/-- A concrete table `t2` ("orders") of project `p1`. -/
def tFix2 : TableEntity :=
  { id := "t2", projectId := "p1", name := "orders",
    position := { x := 1, y := 0 }, createdAt := 0, updatedAt := 0 }

/-- A concrete column `c1` of table `t1`. -/
def cFix : Column :=
  { id := "c1", tableId := "t1", name := "id", dataType := "INTEGER",
    nullable := false, isPrimaryKey := true, isUnique := false,
    isAutoIncrement := false, orderIndex := 0, createdAt := 0, updatedAt := 0 }

/-- A concrete column `c2` of table `t2`, with `orderIndex` 5. -/
def cFix2 : Column :=
  { id := "c2", tableId := "t2", name := "user_id", dataType := "INTEGER",
    nullable := true, isPrimaryKey := false, isUnique := false,
    isAutoIncrement := false, orderIndex := 5, createdAt := 0, updatedAt := 0 }

/-- A concrete local-store state holding `p1`, its two tables and their
columns. -/
def stFix : LocalState :=
  { projects := [pFix], schemaTables := [tFix, tFix2],
    columns := [cFix, cFix2], relationships := [] }

/-- The same graph as `stFix`, materialized as the remote store's single
project document. -/
def docFix : SchemaExport :=
  { version := "1.0.0", exportedAt := 0, project := pFix,
    tables := [tFix, tFix2], columns := [cFix, cFix2], relationships := [] }

/-- A concrete remote-store state holding only `docFix`. -/
def rstFix : RemoteState := { docs := [docFix] }

/-- A concrete `VARCHAR` column `c3` of table `t1`, for type-mismatch
scenarios. -/
def cFix3 : Column :=
  { id := "c3", tableId := "t1", name := "email", dataType := "VARCHAR",
    length := some 255, nullable := true, isPrimaryKey := false,
    isUnique := false, isAutoIncrement := false, orderIndex := 1,
    createdAt := 0, updatedAt := 0 }

/-- A local state whose columns `c2` (INTEGER) and `c3` (VARCHAR) have
differing data types. -/
def stFix5 : LocalState :=
  { projects := [pFix], schemaTables := [tFix, tFix2],
    columns := [cFix, cFix2, cFix3], relationships := [] }

/-- The remote document matching `stFix5`. -/
def docFix5 : SchemaExport :=
  { version := "1.0.0", exportedAt := 0, project := pFix,
    tables := [tFix, tFix2], columns := [cFix, cFix2, cFix3],
    relationships := [] }

/-- The remote state holding only `docFix5`. -/
def rstFix5 : RemoteState := { docs := [docFix5] }

/-- A concrete relationship input from `c2` (INTEGER) to `c3` (VARCHAR):
its column data types differ. -/
def relInputFix : RelationshipInput :=
  { projectId := "p1", sourceTableId := "t2", sourceColumnId := "c2",
    targetTableId := "t1", targetColumnId := "c3", onDelete := "CASCADE",
    onUpdate := "CASCADE" }

/-! ### Lemmas about column reordering -/

theorem applyReorderFrom_eq :
    ∀ (ids : List String) (cols : List Column) (k : Nat), ids.Nodup →
      FrontendOps.applyReorderFrom cols k ids =
        cols.map (fun c =>
          if c.id ∈ ids then
            { c with orderIndex := ((k + posIn c.id ids : Nat) : Int) }
          else c) := by
  intro ids
  induction ids with
  | nil =>
    intro cols k _
    simp [FrontendOps.applyReorderFrom]
  | cons cid rest ih =>
    intro cols k h
    rcases List.nodup_cons.mp h with ⟨hcid, hrest⟩
    unfold FrontendOps.applyReorderFrom
    rw [ih _ _ hrest, List.map_map]
    apply List.map_congr_left
    intro c _
    simp only [Function.comp_apply]
    by_cases hc : c.id = cid
    · rw [if_pos hc]
      dsimp only
      have hnotin : ¬ c.id ∈ rest := by rw [hc]; exact hcid
      rw [if_neg hnotin,
        if_pos (show c.id ∈ cid :: rest by rw [hc]; exact List.mem_cons_self _ _)]
      have hpos : posIn c.id (cid :: rest) = 0 := by
        have hcc : cid = c.id := hc.symm
        simp [posIn, hcc]
      rw [hpos]
      simp
    · rw [if_neg hc]
      by_cases hmem : c.id ∈ rest
      · rw [if_pos hmem, if_pos (List.mem_cons_of_mem _ hmem)]
        have hcid' : ¬ cid = c.id := fun hcc => hc hcc.symm
        have hpos : posIn c.id (cid :: rest) = posIn c.id rest + 1 := by
          simp [posIn, hcid']
        rw [hpos]
        have hnat : (k + 1) + posIn c.id rest = k + (posIn c.id rest + 1) := by
          omega
        rw [hnat]
      · rw [if_neg hmem, if_neg ?_]
        intro hcc
        rcases List.mem_cons.mp hcc with h1 | h2
        · exact hc h1
        · exact hmem h2

theorem findTableById_put_aux {tid : String} {d : SchemaExport}
    {t : TableEntity} (dT : SchemaExport) (tT : TableEntity)
    (hT : dT.tables.find? (fun t0 => t0.id = tid) = some tT) :
    ∀ (docs : List SchemaExport),
      docs.findSome? (fun d0 =>
          (d0.tables.find? (fun t0 => t0.id = tid)).map (fun t0 => (d0, t0))) =
        some (d, t) →
      (docs.map (fun d0 => d0.project.id)).Nodup →
      (docs.map (fun d0 =>
          if d0.project.id = d.project.id then dT else d0)).findSome?
        (fun d0 =>
          (d0.tables.find? (fun t0 => t0.id = tid)).map (fun t0 => (d0, t0))) =
        some (dT, tT) := by
  intro docs
  induction docs with
  | nil => intro h _; simp [List.findSome?] at h
  | cons d0 docs ih =>
    intro h hnd
    rw [List.map_cons] at hnd
    rcases List.nodup_cons.mp hnd with ⟨hd0, hndrest⟩
    rw [List.findSome?_cons] at h
    rw [List.map_cons, List.findSome?_cons]
    cases hfind : d0.tables.find? (fun t0 => t0.id = tid) with
    | some t0 =>
      rw [hfind] at h
      simp only [Option.map_some'] at h
      cases h
      rw [if_pos rfl, hT]
      simp
    | none =>
      rw [hfind] at h
      simp only [Option.map_none'] at h
      have hdmem : d ∈ docs := (findTableById_aux h).1
      have hne : ¬ d0.project.id = d.project.id := by
        intro hc
        exact hd0 (hc ▸ List.mem_map_of_mem (fun d1 => d1.project.id) hdmem)
      rw [if_neg hne, hfind]
      simp only [Option.map_none']
      exact ih h hndrest

/-- After a `putProjectSchema` that replaces the located document by a
version still containing the table, `findTableById` resolves to the
replacement (unique project ids are required, since the write replaces by
project key). -/
theorem findTableById_put {st : RemoteState} {tid : String}
    {d : SchemaExport} {t : TableEntity}
    (hfind : BackendOps.findTableById st tid = some (d, t))
    (hkeys : (st.docs.map (fun d0 => d0.project.id)).Nodup)
    (dT : SchemaExport) (tT : TableEntity)
    (hT : dT.tables.find? (fun t0 => t0.id = tid) = some tT) :
    BackendOps.findTableById
        (BackendOps.putProjectSchema st d.project.id dT) tid =
      some (dT, tT) := by
  have hdocs := putProjectSchema_docs_of_mem dT (findTableById_spec hfind).1
    (rfl : d.project.id = d.project.id)
  show ((BackendOps.putProjectSchema st d.project.id dT).docs).findSome? _ =
    _
  rw [hdocs]
  exact findTableById_put_aux dT tT hT st.docs hfind hkeys

/-! ### Claim C1 -/

/-- C1, counterexample: a `createColumn` call on the local store with
`isPrimaryKey = true` and `nullable = true` stores the column with
`nullable = true` — neither store realization forces `nullable` to
`false`; the coercion the claim describes lives in the table-editor UI
(`updateColumnField`), not in either store. -/
theorem C1_counterexample :
    ((FrontendOps.createColumn stFix
        { tableId := "t1", name := "flag", dataType := "BOOLEAN",
          nullable := true, isPrimaryKey := true, isUnique := false,
          isAutoIncrement := false, orderIndex := 2 }
        "c9" 5).1.columns.map (fun c => (c.id, c.isPrimaryKey, c.nullable))) =
      [("c1", true, false), ("c2", false, true), ("c9", true, true)] := by
  decide

/-- C1, amended: both store realizations persist exactly the
caller-supplied `nullable`, even when the same call sets
`isPrimaryKey = true` — `createColumn` stores the input verbatim and
`updateColumn` spreads the partial verbatim, on the local store and the
remote store alike. -/
theorem C1_stores_keep_caller_nullable
    (st : LocalState) (rst : RemoteState) (data : ColumnInput)
    (patch : ColumnPatch) (cid uid : String) (now : Nat) (b : Bool)
    (d : SchemaExport) (t : TableEntity) (dc : SchemaExport) (c1 : Column)
    (hpk : data.isPrimaryKey = true)
    (hpatchPk : patch.isPrimaryKey = some true)
    (hpatchNull : patch.nullable = some b)
    (hremoteTable : BackendOps.findTableById rst data.tableId = some (d, t))
    (hremoteCol : BackendOps.findColumnById rst uid = some (dc, c1)) :
    (∃ c, (FrontendOps.createColumn st data cid now).1.columns =
        st.columns ++ [c] ∧ c.id = cid ∧ c.isPrimaryKey = true ∧
        c.nullable = data.nullable)
    ∧ (∀ c' ∈ (FrontendOps.updateColumn st uid patch now).1.columns,
        c'.id = uid → c'.isPrimaryKey = true ∧ c'.nullable = b)
    ∧ (∃ doc' ∈ (BackendOps.createColumn rst data cid now).1.docs,
        ∃ c ∈ doc'.columns, c.id = cid ∧ c.isPrimaryKey = true ∧
          c.nullable = data.nullable)
    ∧ (∃ doc' ∈ (BackendOps.updateColumn rst uid patch now).1.docs,
        (∃ c' ∈ doc'.columns, c'.id = uid) ∧
        ∀ c' ∈ doc'.columns, c'.id = uid →
          c'.isPrimaryKey = true ∧ c'.nullable = b) := by
  refine ⟨?_, ?_, ?_, ?_⟩
  · refine ⟨_, columns_createColumn st data cid now, rfl, ?_, rfl⟩
    simpa using hpk
  · intro c' hc' hid
    unfold FrontendOps.updateColumn at hc'
    cases hfind : st.columns.find? (fun c => c.id = uid) with
    | none =>
      rw [hfind] at hc'
      exact absurd hid (by simpa using List.find?_eq_none.mp hfind c' hc')
    | some c0 =>
      rw [hfind] at hc'
      rw [columns_updateTable] at hc'
      rcases List.mem_map.mp hc' with ⟨c, hc, rfl⟩
      by_cases hcid : c.id = uid
      · simp [hcid, ColumnPatch.apply, hpatchNull, hpatchPk]
      · rw [if_neg hcid] at hid
        exact absurd hid hcid
  · rcases findTableById_spec hremoteTable with ⟨hd, _, _⟩
    unfold BackendOps.createColumn
    rw [hremoteTable]
    dsimp only
    refine ⟨_, mem_putProjectSchema_of_mem _ hd rfl, ?_⟩
    refine ⟨_, List.mem_append_right _ (List.mem_singleton_self _), rfl, ?_, rfl⟩
    simpa using hpk
  · rcases findColumnById_spec hremoteCol with ⟨hd, hc1, hc1id⟩
    unfold BackendOps.updateColumn
    rw [hremoteCol]
    dsimp only
    refine ⟨_, mem_putProjectSchema_of_mem _ hd rfl, ?_, ?_⟩
    · refine ⟨_, List.mem_map_of_mem _ hc1, ?_⟩
      simp [hc1id, ColumnPatch.apply]
    · intro c' hc' hid
      rcases List.mem_map.mp hc' with ⟨c, hc, rfl⟩
      by_cases hcid : c.id = uid
      · simp [hcid, ColumnPatch.apply, hpatchNull, hpatchPk]
      · rw [if_neg hcid] at hid
        exact absurd hid hcid

/-- C1, witness: the amended theorem applied at a concrete state where a
primary-key column is created/updated with `nullable = true` on both
realizations. -/
theorem C1_stores_keep_caller_nullable_witness :
    (∃ c, (FrontendOps.createColumn stFix
        { tableId := "t1", name := "flag", dataType := "BOOLEAN",
          nullable := true, isPrimaryKey := true, isUnique := false,
          isAutoIncrement := false, orderIndex := 2 } "c9" 5).1.columns =
        stFix.columns ++ [c] ∧ c.id = "c9" ∧ c.isPrimaryKey = true ∧
        c.nullable = true)
    ∧ (∀ c' ∈ (FrontendOps.updateColumn stFix "c2"
        { nullable := some true, isPrimaryKey := some true } 5).1.columns,
        c'.id = "c2" → c'.isPrimaryKey = true ∧ c'.nullable = true)
    ∧ (∃ doc' ∈ (BackendOps.createColumn rstFix
        { tableId := "t1", name := "flag", dataType := "BOOLEAN",
          nullable := true, isPrimaryKey := true, isUnique := false,
          isAutoIncrement := false, orderIndex := 2 } "c9" 5).1.docs,
        ∃ c ∈ doc'.columns, c.id = "c9" ∧ c.isPrimaryKey = true ∧
          c.nullable = true)
    ∧ (∃ doc' ∈ (BackendOps.updateColumn rstFix "c2"
        { nullable := some true, isPrimaryKey := some true } 5).1.docs,
        (∃ c' ∈ doc'.columns, c'.id = "c2") ∧
        ∀ c' ∈ doc'.columns, c'.id = "c2" →
          c'.isPrimaryKey = true ∧ c'.nullable = true) :=
  C1_stores_keep_caller_nullable stFix rstFix
    { tableId := "t1", name := "flag", dataType := "BOOLEAN",
      nullable := true, isPrimaryKey := true, isUnique := false,
      isAutoIncrement := false, orderIndex := 2 }
    { nullable := some true, isPrimaryKey := some true }
    "c9" "c2" 5 true docFix tFix docFix cFix2
    rfl rfl rfl (by decide) (by decide)

/-- The document produced by the remote `reorderColumns` before its
write-back: listed columns of the named table renumbered, the table
touched, `exportedAt` stamped. -/
def reorderedDoc (d : SchemaExport) (tableId : String) (ids : List String)
    (now : Nat) : SchemaExport :=
  { d with
    columns := d.columns.map fun c =>
      if ¬ c.tableId = tableId then c
      else
        match lastIdxFrom 0 c.id ids with
        | none => c
        | some j => { c with orderIndex := (j : Int), updatedAt := now }
    tables := d.tables.map fun t0 =>
      if t0.id = tableId then { t0 with updatedAt := now } else t0
    exportedAt := now }

theorem reorderColumns_backend_eq {rst : RemoteState} {tableId : String}
    (ids : List String) (now : Nat) {d : SchemaExport} {t : TableEntity}
    (hfind : BackendOps.findTableById rst tableId = some (d, t)) :
    BackendOps.reorderColumns rst tableId ids now =
      (BackendOps.putProjectSchema rst d.project.id
        (reorderedDoc d tableId ids now), Except.ok ()) := by
  unfold BackendOps.reorderColumns reorderedDoc
  rw [hfind]

theorem pairwise_posIn_of_sorted {l : List Column} {ids : List String}
    (hsorted : l.Pairwise (fun a b => a.orderIndex ≤ b.orderIndex))
    (hnd : (l.map (fun c => c.id)).Nodup)
    (hstar : ∀ c ∈ l, c.id ∈ ids →
      c.orderIndex = ((posIn c.id ids : Nat) : Int)) :
    (l.filter (fun c => decide (c.id ∈ ids))).Pairwise
      (fun a b => posIn a.id ids < posIn b.id ids) := by
  have hP1 : (l.filter (fun c => decide (c.id ∈ ids))).Pairwise
      (fun a b : Column => a.orderIndex ≤ b.orderIndex) :=
    List.Pairwise.sublist (List.filter_sublist l) hsorted
  have hndf : ((l.filter (fun c => decide (c.id ∈ ids))).map
      (fun c => c.id)).Nodup :=
    List.Nodup.sublist (List.Sublist.map _ (List.filter_sublist l)) hnd
  have hP2 : (l.filter (fun c => decide (c.id ∈ ids))).Pairwise
      (fun a b => a.id ≠ b.id) := List.pairwise_map.mp hndf
  refine (hP1.and hP2).imp_of_mem ?_
  intro a b ha hb hab
  rcases hab with ⟨hle, hne⟩
  have hain : a.id ∈ ids := of_decide_eq_true (List.mem_filter.mp ha).2
  have hbin : b.id ∈ ids := of_decide_eq_true (List.mem_filter.mp hb).2
  have ha' := hstar a (List.mem_of_mem_filter ha) hain
  have hb' := hstar b (List.mem_of_mem_filter hb) hbin
  rw [ha', hb'] at hle
  have hlen : posIn a.id ids ≤ posIn b.id ids := by exact_mod_cast hle
  have hneq : posIn a.id ids ≠ posIn b.id ids := fun hc =>
    hne (posIn_inj hain hbin hc)
  exact lt_of_le_of_ne hlen hneq

theorem reorderColumns_frontend_columns (st : LocalState) (tableId : String)
    {ids : List String} (now : Nat) (hids : ids.Nodup) :
    (FrontendOps.reorderColumns st tableId ids now).1.columns =
      st.columns.map (fun c =>
        if c.id ∈ ids then
          { c with orderIndex := ((posIn c.id ids : Nat) : Int) }
        else c) := by
  unfold FrontendOps.reorderColumns
  rw [columns_updateTable]
  dsimp only
  rw [applyReorderFrom_eq ids st.columns 0 hids]
  apply List.map_congr_left
  intro c _
  by_cases hc : c.id ∈ ids <;> simp [hc]

/-- Concrete columns `cA`/`cB`/`cC` of table `t1` with order 0/1/2. -/
def cA : Column :=
  { id := "cA", tableId := "t1", name := "a", dataType := "TEXT",
    nullable := true, isPrimaryKey := false, isUnique := false,
    isAutoIncrement := false, orderIndex := 0, createdAt := 0, updatedAt := 0 }

/-- See `cA`. -/
def cB : Column :=
  { id := "cB", tableId := "t1", name := "b", dataType := "TEXT",
    nullable := true, isPrimaryKey := false, isUnique := false,
    isAutoIncrement := false, orderIndex := 1, createdAt := 0, updatedAt := 0 }

/-- See `cA`. -/
def cC : Column :=
  { id := "cC", tableId := "t1", name := "c", dataType := "TEXT",
    nullable := true, isPrimaryKey := false, isUnique := false,
    isAutoIncrement := false, orderIndex := 2, createdAt := 0, updatedAt := 0 }

/-- A local state with three ordered columns in `t1`. -/
def stFix6 : LocalState :=
  { projects := [pFix], schemaTables := [tFix, tFix2],
    columns := [cA, cB, cC], relationships := [] }

/-- The remote document matching `stFix6`. -/
def docFix6 : SchemaExport :=
  { version := "1.0.0", exportedAt := 0, project := pFix,
    tables := [tFix, tFix2], columns := [cA, cB, cC], relationships := [] }

/-- The remote state holding only `docFix6`. -/
def rstFix6 : RemoteState := { docs := [docFix6] }

/-! ### Claim C10 -/

/-- C10: the local `reorderColumns` writes `orderIndex :=`
position-in-list to **every** column whose id appears in the list — even a
column belonging to a table other than the named one, since
`db.columns.update(columnId, { orderIndex: index })` performs no ownership
check — whereas the remote `reorderColumns` leaves every column whose
`tableId` differs from the named table unchanged (and every other
project's document untouched). -/
theorem C10_reorder_ownership (st : LocalState) (rst : RemoteState)
    (tableId : String) (ids : List String) (now : Nat)
    (hids : ids.Nodup) (d : SchemaExport) (t : TableEntity)
    (hfind : BackendOps.findTableById rst tableId = some (d, t)) :
    (∀ c ∈ st.columns, c.id ∈ ids →
      ({ c with orderIndex := ((posIn c.id ids : Nat) : Int) } ∈
        (FrontendOps.reorderColumns st tableId ids now).1.columns))
    ∧ (∀ c ∈ d.columns, ¬ c.tableId = tableId →
        ∃ doc' ∈ (BackendOps.reorderColumns rst tableId ids now).1.docs,
          c ∈ doc'.columns)
    ∧ (∀ d' ∈ rst.docs, ¬ d'.project.id = d.project.id →
        d' ∈ (BackendOps.reorderColumns rst tableId ids now).1.docs) := by
  rcases findTableById_spec hfind with ⟨hdmem, htmem, htid⟩
  refine ⟨?_, ?_, ?_⟩
  · intro c hc hcin
    unfold FrontendOps.reorderColumns
    rw [columns_updateTable]
    dsimp only
    rw [applyReorderFrom_eq ids st.columns 0 hids]
    have := List.mem_map_of_mem
      (fun c => if c.id ∈ ids then
        { c with orderIndex := ((0 + posIn c.id ids : Nat) : Int) } else c) hc
    dsimp only at this
    rw [if_pos hcin] at this
    simpa using this
  · intro c hc hct
    unfold BackendOps.reorderColumns
    rw [hfind]
    dsimp only
    refine ⟨_, mem_putProjectSchema_of_mem _ hdmem rfl, ?_⟩
    have := List.mem_map_of_mem
      (fun c => if ¬ c.tableId = tableId then c
        else match lastIdxFrom 0 c.id ids with
          | none => c
          | some j => { c with orderIndex := (j : Int), updatedAt := now }) hc
    dsimp only at this
    rw [if_pos hct] at this
    exact this
  · intro d' hd' hne
    unfold BackendOps.reorderColumns
    rw [hfind]
    dsimp only
    rw [putProjectSchema_docs_of_mem _ hdmem rfl]
    exact List.mem_map.mpr ⟨d', hd', by simp only [if_neg hne]⟩

/-- C10, witness: reordering table `t1` with the foreign column id `c2`
(a column of `t2`): the local store rewrites `c2.orderIndex` from 5 to 0,
the remote store leaves `c2` unchanged. -/
theorem C10_reorder_ownership_witness :
    ({ cFix2 with orderIndex := 0 } ∈
      (FrontendOps.reorderColumns stFix "t1" ["c2"] 7).1.columns)
    ∧ (∃ doc' ∈ (BackendOps.reorderColumns rstFix "t1" ["c2"] 7).1.docs,
        cFix2 ∈ doc'.columns) := by
  have h := C10_reorder_ownership stFix rstFix "t1" ["c2"] 7 (by decide)
    docFix tFix rfl
  exact ⟨h.1 cFix2 (by decide) (by decide), h.2.1 cFix2 (by decide) (by decide)⟩

/-! ### Claim C6 -/

/-- C6: after `reorderColumns(tableId, ids)` (on either realization, with
the table present, a duplicate-free id list and duplicate-free column
ids), every column of that table listed in `ids` carries
`orderIndex = ` its position in the list, columns of the table absent from
the list are kept verbatim (prior `orderIndex` included), and the
subsequent `getColumnsByTable(tableId)` returns exactly the table's
columns (a permutation of them), sorted ascending by `orderIndex`, so
that its restriction to the listed ids is strictly ordered by position in
the input list. -/
theorem C6_reorder_then_get (st : LocalState) (rst : RemoteState)
    (tableId : String) (ids : List String) (now : Nat) (tbl : TableEntity)
    (d : SchemaExport) (t : TableEntity)
    (htbl : st.schemaTables.find? (fun t0 => t0.id = tableId) = some tbl)
    (hids : ids.Nodup)
    (hstcols : (st.columns.map (fun c => c.id)).Nodup)
    (hfind : BackendOps.findTableById rst tableId = some (d, t))
    (hkeys : (rst.docs.map (fun d0 => d0.project.id)).Nodup)
    (hdcols : (d.columns.map (fun c => c.id)).Nodup) :
    ((FrontendOps.reorderColumns st tableId ids now).2 = Except.ok ())
    ∧ (∀ c ∈ st.columns, c.tableId = tableId → c.id ∈ ids →
        { c with orderIndex := ((posIn c.id ids : Nat) : Int) } ∈
          FrontendOps.getColumnsByTable
            (FrontendOps.reorderColumns st tableId ids now).1 tableId)
    ∧ (∀ c ∈ st.columns, c.tableId = tableId → c.id ∉ ids →
        c ∈ FrontendOps.getColumnsByTable
          (FrontendOps.reorderColumns st tableId ids now).1 tableId)
    ∧ (FrontendOps.getColumnsByTable
        (FrontendOps.reorderColumns st tableId ids now).1 tableId).Perm
        ((FrontendOps.reorderColumns st tableId ids now).1.columns.filter
          (fun c => c.tableId = tableId))
    ∧ (FrontendOps.getColumnsByTable
        (FrontendOps.reorderColumns st tableId ids now).1 tableId).Pairwise
        (fun a b => a.orderIndex ≤ b.orderIndex)
    ∧ ((FrontendOps.getColumnsByTable
        (FrontendOps.reorderColumns st tableId ids now).1 tableId).filter
          (fun c => decide (c.id ∈ ids))).Pairwise
        (fun a b => posIn a.id ids < posIn b.id ids)
    ∧ ((BackendOps.reorderColumns rst tableId ids now).2 = Except.ok ())
    ∧ (∀ c ∈ d.columns, c.tableId = tableId → c.id ∈ ids →
        { c with orderIndex := ((posIn c.id ids : Nat) : Int),
                 updatedAt := now } ∈
          BackendOps.getColumnsByTable
            (BackendOps.reorderColumns rst tableId ids now).1 tableId)
    ∧ (∀ c ∈ d.columns, c.tableId = tableId → c.id ∉ ids →
        c ∈ BackendOps.getColumnsByTable
          (BackendOps.reorderColumns rst tableId ids now).1 tableId)
    ∧ (BackendOps.getColumnsByTable
        (BackendOps.reorderColumns rst tableId ids now).1 tableId).Pairwise
        (fun a b => a.orderIndex ≤ b.orderIndex)
    ∧ ((BackendOps.getColumnsByTable
        (BackendOps.reorderColumns rst tableId ids now).1 tableId).filter
          (fun c => decide (c.id ∈ ids))).Pairwise
        (fun a b => posIn a.id ids < posIn b.id ids) := by
  rcases findTableById_spec hfind with ⟨hdmem, htmem, htid⟩
  -- local post-state columns
  have hcols := reorderColumns_frontend_columns st tableId now hids
  have hmapid :
      (FrontendOps.reorderColumns st tableId ids now).1.columns.map
          (fun c => c.id) = st.columns.map (fun c => c.id) := by
    rw [hcols, List.map_map]
    apply List.map_congr_left
    intro c _
    by_cases hc : c.id ∈ ids <;> simp [hc]
  -- the local query, unfolded
  have hgetL : FrontendOps.getColumnsByTable
      (FrontendOps.reorderColumns st tableId ids now).1 tableId =
      sortByKey (fun c => c.orderIndex)
        ((FrontendOps.reorderColumns st tableId ids now).1.columns.filter
          (fun c => c.tableId = tableId)) := rfl
  -- every stored column listed in ids carries the position index (local)
  have hstarL : ∀ c' ∈ (FrontendOps.reorderColumns st tableId ids now).1.columns,
      c'.id ∈ ids → c'.orderIndex = ((posIn c'.id ids : Nat) : Int) := by
    intro c' hc' hin
    rw [hcols] at hc'
    rcases List.mem_map.mp hc' with ⟨c, hc, rfl⟩
    by_cases hcid : c.id ∈ ids
    · simp [hcid]
    · simp only [if_neg hcid] at hin ⊢
      exact absurd hin hcid
  -- remote post-state
  have heq := reorderColumns_backend_eq ids now hfind
  have hres2R : (BackendOps.reorderColumns rst tableId ids now).2 =
      Except.ok () := by rw [heq]
  -- the remote table lookup survives the write-back
  have hcompP : ((fun t0 : TableEntity => decide (t0.id = tableId)) ∘
      (fun t0 => if t0.id = tableId then { t0 with updatedAt := now }
        else t0)) = (fun t0 : TableEntity => decide (t0.id = tableId)) := by
    funext t0
    by_cases h : t0.id = tableId <;> simp [h]
  have hsomeT : ∃ tS, d.tables.find? (fun t0 => t0.id = tableId) = some tS := by
    have hex : ∃ x ∈ d.tables,
        (fun t0 : TableEntity => decide (t0.id = tableId)) x = true :=
      ⟨t, htmem, decide_eq_true htid⟩
    exact Option.isSome_iff_exists.mp (List.find?_isSome.mpr hex)
  rcases hsomeT with ⟨tS, htS⟩
  have hfindT : (reorderedDoc d tableId ids now).tables.find?
      (fun t0 => t0.id = tableId) =
      some (if tS.id = tableId then { tS with updatedAt := now } else tS) := by
    show (d.tables.map _).find? _ = _
    rw [List.find?_map, hcompP, htS]
    rfl
  have hfindR : BackendOps.findTableById
      (BackendOps.reorderColumns rst tableId ids now).1 tableId =
      some (reorderedDoc d tableId ids now,
        if tS.id = tableId then { tS with updatedAt := now } else tS) := by
    rw [heq]
    exact findTableById_put hfind hkeys _ _ hfindT
  have hgetR : BackendOps.getColumnsByTable
      (BackendOps.reorderColumns rst tableId ids now).1 tableId =
      sortByKey (fun c => c.orderIndex)
        ((reorderedDoc d tableId ids now).columns.filter
          (fun c => c.tableId = tableId)) := by
    unfold BackendOps.getColumnsByTable
    rw [hfindR]
  -- the remote rewrite, as a pointwise map under a duplicate-free id list
  have hdTcols : (reorderedDoc d tableId ids now).columns =
      d.columns.map (fun c =>
        if c.tableId = tableId ∧ c.id ∈ ids then
          { c with orderIndex := ((posIn c.id ids : Nat) : Int),
                   updatedAt := now }
        else c) := by
    show d.columns.map _ = _
    apply List.map_congr_left
    intro c _
    by_cases hct : c.tableId = tableId
    · rw [if_neg (not_not_intro hct), lastIdxFrom_nodup 0 c.id hids]
      by_cases hcin : c.id ∈ ids
      · rw [if_pos hcin, if_pos ⟨hct, hcin⟩]
        simp
      · rw [if_neg hcin, if_neg (fun h => hcin h.2)]
    · rw [if_pos hct, if_neg (fun h => hct h.1)]
  -- the remote documents' column ids are unchanged
  have hmapidR : (reorderedDoc d tableId ids now).columns.map
      (fun c => c.id) = d.columns.map (fun c => c.id) := by
    rw [hdTcols, List.map_map]
    apply List.map_congr_left
    intro c _
    by_cases hc : c.tableId = tableId ∧ c.id ∈ ids <;> simp [hc]
  -- every remote stored column of the table listed in ids carries the index
  have hstarR : ∀ c' ∈ (reorderedDoc d tableId ids now).columns,
      c'.tableId = tableId → c'.id ∈ ids →
      c'.orderIndex = ((posIn c'.id ids : Nat) : Int) := by
    intro c' hc' hct hin
    rw [hdTcols] at hc'
    rcases List.mem_map.mp hc' with ⟨c, hc, rfl⟩
    by_cases hcond : c.tableId = tableId ∧ c.id ∈ ids
    · simp [hcond]
    · rw [if_neg hcond] at hct hin ⊢
      exact absurd ⟨hct, hin⟩ hcond
  refine ⟨?_, ?_, ?_, ?_, ?_, ?_, hres2R, ?_, ?_, ?_, ?_⟩
  · unfold FrontendOps.reorderColumns FrontendOps.updateTable
    dsimp only
    rw [htbl]
  · intro c hc hct hin
    rw [hgetL, mem_sortByKey, List.mem_filter]
    constructor
    · rw [hcols]
      have := List.mem_map_of_mem (fun c =>
        if c.id ∈ ids then
          { c with orderIndex := ((posIn c.id ids : Nat) : Int) }
        else c) hc
      dsimp only at this
      rw [if_pos hin] at this
      exact this
    · simpa using hct
  · intro c hc hct hin
    rw [hgetL, mem_sortByKey, List.mem_filter]
    constructor
    · rw [hcols]
      have := List.mem_map_of_mem (fun c =>
        if c.id ∈ ids then
          { c with orderIndex := ((posIn c.id ids : Nat) : Int) }
        else c) hc
      dsimp only at this
      rw [if_neg hin] at this
      exact this
    · simpa using hct
  · rw [hgetL]
    exact sortByKey_perm _ _
  · rw [hgetL]
    exact sortByKey_pairwise _ _
  · rw [hgetL]
    refine pairwise_posIn_of_sorted (sortByKey_pairwise _ _) ?_ ?_
    · have hpermmap := List.Perm.map (fun c : Column => c.id)
        (sortByKey_perm (fun c : Column => c.orderIndex)
          ((FrontendOps.reorderColumns st tableId ids now).1.columns.filter
            (fun c => decide (c.tableId = tableId))))
      refine hpermmap.nodup_iff.mpr ?_
      refine List.Nodup.sublist (List.Sublist.map _ (List.filter_sublist _)) ?_
      rw [hmapid]
      exact hstcols
    · intro c hcmem hcin
      exact hstarL c
        (List.mem_of_mem_filter (mem_sortByKey.mp hcmem)) hcin
  · intro c hc hct hin
    rw [hgetR, mem_sortByKey, List.mem_filter]
    constructor
    · rw [hdTcols]
      have hmem := List.mem_map_of_mem (fun c =>
        if c.tableId = tableId ∧ c.id ∈ ids then
          { c with orderIndex := ((posIn c.id ids : Nat) : Int),
                   updatedAt := now }
        else c) hc
      dsimp only at hmem
      rw [if_pos ⟨hct, hin⟩] at hmem
      exact hmem
    · simpa using hct
  · intro c hc hct hin
    rw [hgetR, mem_sortByKey, List.mem_filter]
    constructor
    · rw [hdTcols]
      have hmem := List.mem_map_of_mem (fun c =>
        if c.tableId = tableId ∧ c.id ∈ ids then
          { c with orderIndex := ((posIn c.id ids : Nat) : Int),
                   updatedAt := now }
        else c) hc
      dsimp only at hmem
      rw [if_neg (fun h => hin h.2)] at hmem
      exact hmem
    · simpa using hct
  · rw [hgetR]
    exact sortByKey_pairwise _ _
  · rw [hgetR]
    refine pairwise_posIn_of_sorted (sortByKey_pairwise _ _) ?_ ?_
    · have hpermmap := List.Perm.map (fun c : Column => c.id)
        (sortByKey_perm (fun c : Column => c.orderIndex)
          ((reorderedDoc d tableId ids now).columns.filter
            (fun c => decide (c.tableId = tableId))))
      refine hpermmap.nodup_iff.mpr ?_
      refine List.Nodup.sublist (List.Sublist.map _ (List.filter_sublist _)) ?_
      rw [hmapidR]
      exact hdcols
    · intro c hcmem hcin
      have hcf := mem_sortByKey.mp hcmem
      have hct : c.tableId = tableId := by
        have := (List.mem_filter.mp hcf).2
        simpa using this
      exact hstarR c (List.mem_of_mem_filter hcf) hct hcin

/-- C6, witness: the theorem applied to `reorderColumns("t1",
["cB", "cA"])` on a table with columns `cA`, `cB`, `cC`: the listed
columns take positions 0 and 1, `cC` keeps its prior index, and the query
result restricted to the listed ids is ordered `cB` before `cA`. -/
theorem C6_reorder_then_get_witness :
    ((FrontendOps.reorderColumns stFix6 "t1" ["cB", "cA"] 7).2 =
      Except.ok ())
    ∧ ({ cB with orderIndex := 0 } ∈
        FrontendOps.getColumnsByTable
          (FrontendOps.reorderColumns stFix6 "t1" ["cB", "cA"] 7).1 "t1")
    ∧ ({ cA with orderIndex := 1 } ∈
        FrontendOps.getColumnsByTable
          (FrontendOps.reorderColumns stFix6 "t1" ["cB", "cA"] 7).1 "t1")
    ∧ (cC ∈ FrontendOps.getColumnsByTable
        (FrontendOps.reorderColumns stFix6 "t1" ["cB", "cA"] 7).1 "t1")
    ∧ ((FrontendOps.getColumnsByTable
        (FrontendOps.reorderColumns stFix6 "t1" ["cB", "cA"] 7).1 "t1").filter
          (fun c => decide (c.id ∈ ["cB", "cA"]))).Pairwise
        (fun a b => posIn a.id ["cB", "cA"] < posIn b.id ["cB", "cA"])
    ∧ ((BackendOps.reorderColumns rstFix6 "t1" ["cB", "cA"] 7).2 =
        Except.ok ())
    ∧ ({ cB with orderIndex := 0, updatedAt := 7 } ∈
        BackendOps.getColumnsByTable
          (BackendOps.reorderColumns rstFix6 "t1" ["cB", "cA"] 7).1 "t1")
    ∧ (cC ∈ BackendOps.getColumnsByTable
        (BackendOps.reorderColumns rstFix6 "t1" ["cB", "cA"] 7).1 "t1")
    ∧ ((BackendOps.getColumnsByTable
        (BackendOps.reorderColumns rstFix6 "t1" ["cB", "cA"] 7).1 "t1").filter
          (fun c => decide (c.id ∈ ["cB", "cA"]))).Pairwise
        (fun a b => posIn a.id ["cB", "cA"] < posIn b.id ["cB", "cA"]) := by
  have h := C6_reorder_then_get stFix6 rstFix6 "t1" ["cB", "cA"] 7 tFix
    docFix6 tFix rfl (by decide) (by decide) rfl (by decide) (by decide)
  exact ⟨h.1, h.2.1 cB (by decide) (by decide) (by decide),
    h.2.1 cA (by decide) (by decide) (by decide),
    h.2.2.1 cC (by decide) (by decide) (by decide),
    h.2.2.2.2.2.1, h.2.2.2.2.2.2.1,
    h.2.2.2.2.2.2.2.1 cB (by decide) (by decide) (by decide),
    h.2.2.2.2.2.2.2.2.1 cC (by decide) (by decide) (by decide),
    h.2.2.2.2.2.2.2.2.2.2⟩

/-! ### Claim C5 -/

/-- C5: on both realizations, `createRelationship` fails with
`Source or target column not found` whenever either referenced column does
not resolve (the local store resolves against its global `columns` table,
the remote store within the project's own document); when both resolve
with differing `dataType`, it fails with `Column data types must match`
exactly when `validateDataTypes` is `true` (the `?? true` default); and
when `validateDataTypes` is `false` or the types agree, it succeeds and
appends the relationship. -/
theorem C5_createRelationship_validation
    (st : LocalState) (rst : RemoteState) (data : RelationshipInput)
    (rid : String) (now : Nat) (validate : Bool) (d : SchemaExport)
    (hdoc : BackendOps.getProjectSchema rst data.projectId = Except.ok d) :
    ((st.columns.find? (fun c => c.id = data.sourceColumnId) = none ∨
        st.columns.find? (fun c => c.id = data.targetColumnId) = none) →
      FrontendOps.createRelationship st data rid now validate =
        (st, .error "Source or target column not found"))
    ∧ (∀ sc tc,
        st.columns.find? (fun c => c.id = data.sourceColumnId) = some sc →
        st.columns.find? (fun c => c.id = data.targetColumnId) = some tc →
        sc.dataType ≠ tc.dataType → validate = true →
        FrontendOps.createRelationship st data rid now validate =
          (st, .error "Column data types must match"))
    ∧ (∀ sc tc,
        st.columns.find? (fun c => c.id = data.sourceColumnId) = some sc →
        st.columns.find? (fun c => c.id = data.targetColumnId) = some tc →
        (validate = false ∨ sc.dataType = tc.dataType) →
        ∃ r, (FrontendOps.createRelationship st data rid now validate).2 =
            .ok rid ∧
          (FrontendOps.createRelationship st data rid now validate).1.relationships =
            st.relationships ++ [r] ∧
          r.id = rid ∧ r.sourceColumnId = data.sourceColumnId ∧
          r.targetColumnId = data.targetColumnId)
    ∧ ((d.columns.find? (fun c => c.id = data.sourceColumnId) = none ∨
        d.columns.find? (fun c => c.id = data.targetColumnId) = none) →
      BackendOps.createRelationship rst data rid now validate =
        (rst, .error "Source or target column not found"))
    ∧ (∀ sc tc,
        d.columns.find? (fun c => c.id = data.sourceColumnId) = some sc →
        d.columns.find? (fun c => c.id = data.targetColumnId) = some tc →
        sc.dataType ≠ tc.dataType → validate = true →
        BackendOps.createRelationship rst data rid now validate =
          (rst, .error "Column data types must match"))
    ∧ (∀ sc tc,
        d.columns.find? (fun c => c.id = data.sourceColumnId) = some sc →
        d.columns.find? (fun c => c.id = data.targetColumnId) = some tc →
        (validate = false ∨ sc.dataType = tc.dataType) →
        ∃ r, (BackendOps.createRelationship rst data rid now validate).2 =
            .ok rid ∧
          (∃ doc' ∈ (BackendOps.createRelationship rst data rid now validate).1.docs,
            doc'.relationships = d.relationships ++ [r]) ∧
          r.id = rid ∧ r.sourceColumnId = data.sourceColumnId ∧
          r.targetColumnId = data.targetColumnId) := by
  have hdocFind :
      rst.docs.find? (fun d0 => d0.project.id = data.projectId) = some d := by
    unfold BackendOps.getProjectSchema at hdoc
    cases hf : rst.docs.find? (fun d0 => d0.project.id = data.projectId) with
    | some d0 => rw [hf] at hdoc; cases hdoc; rfl
    | none => rw [hf] at hdoc; cases hdoc
  have hdmem : d ∈ rst.docs := List.mem_of_find?_eq_some hdocFind
  have hdkey : d.project.id = data.projectId := by
    have := List.find?_some hdocFind
    simpa using this
  refine ⟨?_, ?_, ?_, ?_, ?_, ?_⟩
  · intro hmiss
    unfold FrontendOps.createRelationship
    rcases hmiss with hnone | hnone
    · rw [hnone]
    · rw [hnone]
      cases st.columns.find? (fun c => c.id = data.sourceColumnId) <;> rfl
  · intro sc tc hsc htc hne hv
    unfold FrontendOps.createRelationship
    rw [hsc, htc]
    dsimp only
    rw [if_pos ⟨hv, hne⟩]
  · intro sc tc hsc htc hok
    unfold FrontendOps.createRelationship
    rw [hsc, htc]
    dsimp only
    rw [if_neg ?_]
    · exact ⟨_, rfl, rfl, rfl, rfl, rfl⟩
    · rintro ⟨hv, hne⟩
      rcases hok with hv' | hty
      · rw [hv'] at hv; cases hv
      · exact hne hty
  · intro hmiss
    unfold BackendOps.createRelationship BackendOps.getProjectSchema
    rw [hdocFind]
    dsimp only
    rcases hmiss with hnone | hnone
    · rw [hnone]
    · rw [hnone]
      cases d.columns.find? (fun c => c.id = data.sourceColumnId) <;> rfl
  · intro sc tc hsc htc hne hv
    unfold BackendOps.createRelationship BackendOps.getProjectSchema
    rw [hdocFind]
    dsimp only
    rw [hsc, htc]
    dsimp only
    rw [if_pos ⟨hv, hne⟩]
  · intro sc tc hsc htc hok
    unfold BackendOps.createRelationship BackendOps.getProjectSchema
    rw [hdocFind]
    dsimp only
    rw [hsc, htc]
    dsimp only
    rw [if_neg ?_]
    · refine ⟨_, rfl, ⟨_, mem_putProjectSchema_of_mem _ hdmem hdkey, rfl⟩,
        rfl, rfl, rfl⟩
    · rintro ⟨hv, hne⟩
      rcases hok with hv' | hty
      · rw [hv'] at hv; cases hv
      · exact hne hty

/-- C5, witness: at a concrete state, the mismatched `c2 → c3` call fails
with the type-mismatch error under the default validation on both
realizations, and the identical call with `validateDataTypes = false`
succeeds. -/
theorem C5_createRelationship_validation_witness :
    FrontendOps.createRelationship stFix5 relInputFix "r9" 7 true =
      (stFix5, .error "Column data types must match")
    ∧ BackendOps.createRelationship rstFix5 relInputFix "r9" 7 true =
      (rstFix5, .error "Column data types must match")
    ∧ (FrontendOps.createRelationship stFix5 relInputFix "r9" 7 false).2 =
      .ok "r9"
    ∧ (BackendOps.createRelationship rstFix5 relInputFix "r9" 7 false).2 =
      .ok "r9" := by
  have htrue := C5_createRelationship_validation stFix5 rstFix5 relInputFix
    "r9" 7 true docFix5 rfl
  have hfalse := C5_createRelationship_validation stFix5 rstFix5 relInputFix
    "r9" 7 false docFix5 rfl
  refine ⟨?_, ?_, ?_, ?_⟩
  · exact htrue.2.1 cFix2 cFix3 (by decide) (by decide) (by decide) rfl
  · exact htrue.2.2.2.2.1 cFix2 cFix3 (by decide) (by decide) (by decide) rfl
  · rcases hfalse.2.2.1 cFix2 cFix3 (by decide) (by decide) (Or.inl rfl) with
      ⟨r, h1, _⟩
    exact h1
  · rcases hfalse.2.2.2.2.2 cFix2 cFix3 (by decide) (by decide) (Or.inl rfl)
      with ⟨r, h1, _⟩
    exact h1

/-! ### Lemmas about batched table moves -/

/-- The position supplied by the last entry for an id in a batch of
moves (`none` when the id has no entry). -/
def lastPosOf : List FrontendOps.Move → String → Option TablePosition
  | [], _ => none
  | m :: rest, id =>
    match lastPosOf rest id with
    | some p => some p
    | none => if m.id = id then some m.position else none

theorem lastPosOf_eq_none {moves : List FrontendOps.Move} {id : String}
    (h : lastPosOf moves id = none) : ∀ mv ∈ moves, ¬ mv.id = id := by
  induction moves with
  | nil => intro mv hmv; simp at hmv
  | cons m rest ih =>
    intro mv hmv
    unfold lastPosOf at h
    cases hrest : lastPosOf rest id with
    | some p => rw [hrest] at h; cases h
    | none =>
      rw [hrest] at h
      rcases List.mem_cons.mp hmv with rfl | hmv'
      · intro hc
        rw [if_pos hc] at h
        cases h
      · exact ih hrest mv hmv'

theorem updateTable_untouched {st : LocalState} {mid : String}
    {patch : TablePatch} {now : Nat} {id : String} (hne : ¬ mid = id) :
    ∀ t' ∈ (FrontendOps.updateTable st mid patch now).1.schemaTables,
      t'.id = id → t' ∈ st.schemaTables := by
  intro t' ht' hid
  unfold FrontendOps.updateTable at ht'
  cases hfind : st.schemaTables.find? (fun t0 => t0.id = mid) with
  | none => rw [hfind] at ht'; exact ht'
  | some tb =>
    rw [hfind] at ht'
    dsimp only [FrontendOps.touchProject] at ht'
    rcases List.mem_map.mp ht' with ⟨t0, ht0, rfl⟩
    by_cases h0 : t0.id = mid
    · exfalso
      rw [if_pos h0] at hid
      have hid'' : t0.id = id := hid
      exact hne (h0.symm.trans hid'')
    · rw [if_neg h0]
      exact ht0

theorem moveTables_frontend_untouched :
    ∀ (moves : List FrontendOps.Move) (st : LocalState) (now : Nat)
      (id : String), (∀ mv ∈ moves, ¬ mv.id = id) →
      ∀ t' ∈ (FrontendOps.moveTables st now moves).1.schemaTables,
        t'.id = id → t' ∈ st.schemaTables := by
  intro moves
  induction moves with
  | nil => intro st now id _ t' ht' _; exact ht'
  | cons m rest ih =>
    intro st now id hall t' ht' hid
    unfold FrontendOps.moveTables at ht'
    have hm : ¬ m.id = id := hall m (List.mem_cons_self _ _)
    cases hmv : FrontendOps.moveTable st m.id m.position now with
    | mk st1 out =>
      rw [hmv] at ht'
      cases out with
      | ok u =>
        have h1 := ih st1 now id
          (fun mv hmv' => hall mv (List.mem_cons_of_mem _ hmv')) t' ht' hid
        have h2 : ∀ t'' ∈ st1.schemaTables, t''.id = id →
            t'' ∈ st.schemaTables := by
          intro t'' ht'' hid''
          have := @updateTable_untouched st m.id
            { position := some m.position } now id hm t''
          rw [show (FrontendOps.updateTable st m.id
            { position := some m.position } now).1 = st1 from by
              rw [show FrontendOps.updateTable st m.id
                { position := some m.position } now = (st1, .ok u) from hmv]]
            at this
          exact this ht'' hid''
        exact h2 t' h1 hid
      | error e =>
        have h2 := @updateTable_untouched st m.id
          { position := some m.position } now id hm t'
        rw [show (FrontendOps.updateTable st m.id
          { position := some m.position } now).1 = st1 from by
            rw [show FrontendOps.updateTable st m.id
              { position := some m.position } now = (st1, .error e) from hmv]]
          at h2
        exact h2 ht' hid

theorem moveTables_frontend_lastWins :
    ∀ (moves : List FrontendOps.Move) (st : LocalState) (now : Nat),
      (∀ m ∈ moves, ∃ t0 ∈ st.schemaTables, t0.id = m.id) →
      ((FrontendOps.moveTables st now moves).2 = Except.ok ()) ∧
      ∀ id p, lastPosOf moves id = some p →
        ∀ t' ∈ (FrontendOps.moveTables st now moves).1.schemaTables,
          t'.id = id → t'.position = p := by
  intro moves
  induction moves with
  | nil =>
    intro st now _
    refine ⟨rfl, ?_⟩
    intro id p hcontra
    cases hcontra
  | cons m rest ih =>
    intro st now hex
    rcases hex m (List.mem_cons_self _ _) with ⟨t0, ht0, ht0id⟩
    have hfound : ∃ tb, st.schemaTables.find? (fun t1 => t1.id = m.id) =
        some tb := by
      have hx : ∃ x ∈ st.schemaTables,
          (fun t1 : TableEntity => decide (t1.id = m.id)) x = true :=
        ⟨t0, ht0, decide_eq_true ht0id⟩
      exact Option.isSome_iff_exists.mp (List.find?_isSome.mpr hx)
    rcases hfound with ⟨tb, htb⟩
    have hstep : FrontendOps.moveTable st m.id m.position now =
        ((FrontendOps.updateTable st m.id { position := some m.position }
          now).1, Except.ok ()) := by
      unfold FrontendOps.moveTable FrontendOps.updateTable
      rw [htb]
    have hunfold : FrontendOps.moveTables st now (m :: rest) =
        FrontendOps.moveTables
          (FrontendOps.updateTable st m.id { position := some m.position }
            now).1 now rest := by
      show (match FrontendOps.moveTable st m.id m.position now with
        | (st', Except.ok _) => FrontendOps.moveTables st' now rest
        | (st', Except.error e) => (st', Except.error e)) = _
      rw [hstep]
    have hexrest : ∀ m' ∈ rest, ∃ t1 ∈ (FrontendOps.updateTable st m.id
        { position := some m.position } now).1.schemaTables,
        t1.id = m'.id := by
      intro m' hm'
      rcases hex m' (List.mem_cons_of_mem _ hm') with ⟨t1, ht1, ht1id⟩
      have hmapeq := schemaTables_ids_updateTable st m.id
        { position := some m.position } now
      have : m'.id ∈ (FrontendOps.updateTable st m.id
          { position := some m.position } now).1.schemaTables.map
          (fun t2 => t2.id) := by
        rw [hmapeq]
        exact ht1id ▸ List.mem_map_of_mem (fun t2 => t2.id) ht1
      rcases List.mem_map.mp this with ⟨t2, ht2, ht2id⟩
      exact ⟨t2, ht2, ht2id⟩
    rcases ih _ now hexrest with ⟨ihok, ihpos⟩
    refine ⟨by rw [hunfold]; exact ihok, ?_⟩
    intro id p hlast t' ht' hid
    rw [hunfold] at ht'
    unfold lastPosOf at hlast
    cases hrest : lastPosOf rest id with
    | some p' =>
      rw [hrest] at hlast
      have hpp : p' = p := by injection hlast
      rw [← hpp]
      exact ihpos id p' hrest t' ht' hid
    | none =>
      rw [hrest] at hlast
      by_cases hm : m.id = id
      · rw [if_pos hm] at hlast
        cases hlast
        have hback := moveTables_frontend_untouched rest _ now id
          (lastPosOf_eq_none hrest) t' ht' hid
        -- t' survives untouched from the state right after the first move
        unfold FrontendOps.updateTable at hback
        rw [htb] at hback
        dsimp only [FrontendOps.touchProject] at hback
        rcases List.mem_map.mp hback with ⟨t1, _, rfl⟩
        by_cases h1 : t1.id = m.id
        · rw [if_pos h1]
          rfl
        · exfalso
          rw [if_neg h1] at hid
          exact h1 (hid.trans hm.symm)
      · rw [if_neg hm] at hlast
        cases hlast

theorem dedupLastWins_foldl (id : String) :
    ∀ (moves : List FrontendOps.Move) (acc : List (String × TablePosition)),
      jsMapGet (moves.foldl (fun m mv => setAssoc m mv.id mv.position) acc)
          id =
        match lastPosOf moves id with
        | some p => some p
        | none => jsMapGet acc id := by
  intro moves
  induction moves with
  | nil => intro acc; cases h : lastPosOf [] id with
    | some p => cases h
    | none => rfl
  | cons m rest ih =>
    intro acc
    rw [List.foldl_cons, ih]
    cases hrest : lastPosOf rest id with
    | some p =>
      have hcons : lastPosOf (m :: rest) id = some p := by
        unfold lastPosOf
        rw [hrest]
      rw [hcons]
    | none =>
      have hcons : lastPosOf (m :: rest) id =
          if m.id = id then some m.position else none := by
        unfold lastPosOf
        rw [hrest]
      rw [hcons]
      by_cases hm : m.id = id
      · rw [if_pos hm, hm, jsMapGet_setAssoc_self]
      · rw [if_neg hm]
        exact jsMapGet_setAssoc_ne acc m.position (fun hc => hm hc.symm)

theorem jsMapGet_dedupLastWins (moves : List FrontendOps.Move) (id : String) :
    jsMapGet (BackendOps.dedupLastWins moves) id = lastPosOf moves id := by
  unfold BackendOps.dedupLastWins
  rw [dedupLastWins_foldl id moves []]
  cases h : lastPosOf moves id <;> simp [jsMapGet_nil]

theorem nodup_keys_foldl_setAssoc {α β : Type} (key : β → String)
    (val : β → α) :
    ∀ (entries : List β) (acc : List (String × α)),
      (acc.map (fun p => p.1)).Nodup →
      ((entries.foldl (fun m e => setAssoc m (key e) (val e)) acc).map
        (fun p => p.1)).Nodup := by
  intro entries
  induction entries with
  | nil => intro acc h; exact h
  | cons e rest ih =>
    intro acc h
    rw [List.foldl_cons]
    exact ih _ (nodup_keys_setAssoc (key e) (val e) h)

theorem nodup_keys_dedupLastWins (moves : List FrontendOps.Move) :
    ((BackendOps.dedupLastWins moves).map (fun p => p.1)).Nodup :=
  nodup_keys_foldl_setAssoc (fun mv => mv.id) (fun mv => mv.position) moves []
    (by simp)

theorem jsMapGet_cons_ne {α : Type} (p : String × α) (m : List (String × α))
    {k : String} (h : ¬ p.1 = k) : jsMapGet (p :: m) k = jsMapGet m k := by
  rw [jsMapGet_cons]
  cases hm : jsMapGet m k with
  | some v => rfl
  | none => rw [if_neg h]

theorem jsMapGet_cons_of_none {α : Type} (p : String × α)
    {m : List (String × α)} {k : String} (h : jsMapGet m k = none) :
    jsMapGet (p :: m) k = if p.1 = k then some p.2 else none := by
  rw [jsMapGet_cons, h]

theorem lastPosOf_mem {moves : List FrontendOps.Move} {id : String}
    {p : TablePosition} (h : lastPosOf moves id = some p) :
    ∃ mv ∈ moves, mv.id = id ∧ mv.position = p := by
  induction moves with
  | nil => cases h
  | cons m rest ih =>
    unfold lastPosOf at h
    cases hrest : lastPosOf rest id with
    | some q =>
      rw [hrest] at h
      have hq : q = p := by injection h
      rcases ih (hq ▸ hrest) with ⟨mv, hmv, hmvp⟩
      exact ⟨mv, List.mem_cons_of_mem _ hmv, hmvp⟩
    | none =>
      rw [hrest] at h
      by_cases hm : m.id = id
      · rw [if_pos hm] at h
        have hp : m.position = p := by injection h
        exact ⟨m, List.mem_cons_self _ _, hm, hp⟩
      · rw [if_neg hm] at h
        cases h

/-- The per-table rewrite of one remote `moveTables` document write: a
table listed in its project's coalesced moves gets the batched position
and a fresh timestamp. -/
def moveTbl (now : Nat) (pmoves : List (String × TablePosition))
    (t : TableEntity) : TableEntity :=
  match jsMapGet pmoves t.id with
  | none => t
  | some position => { t with position := position, updatedAt := now }

/-- One remote `moveTables` document write: apply the project's coalesced
positions to every table of the document and stamp `exportedAt`. -/
def moveDoc (now : Nat) (pmoves : List (String × TablePosition))
    (d : SchemaExport) : SchemaExport :=
  { d with tables := d.tables.map (moveTbl now pmoves), exportedAt := now }

/-- The net effect of the whole remote `moveTables` write loop on a
document: rewritten by its project's group when one exists, untouched
otherwise. -/
def moveDocF (groups : List (String × List (String × TablePosition)))
    (now : Nat) (d : SchemaExport) : SchemaExport :=
  match jsMapGet groups d.project.id with
  | none => d
  | some pmoves => moveDoc now pmoves d

/-- The net effect of the whole remote `moveTables` write loop on one
table of document `d`. -/
def moveTblF (groups : List (String × List (String × TablePosition)))
    (now : Nat) (d : SchemaExport) (t : TableEntity) : TableEntity :=
  match jsMapGet groups d.project.id with
  | none => t
  | some pmoves => moveTbl now pmoves t

/-- One step of the `byProject` grouping fold of the remote
`moveTables`. -/
def groupStep (st : RemoteState)
    (acc : List (String × List (String × TablePosition)))
    (p : String × TablePosition) :
    List (String × List (String × TablePosition)) :=
  match BackendOps.findTableById st p.1 with
  | none => acc
  | some (schema, _) =>
    setAssoc acc schema.project.id
      ((jsMapGet acc schema.project.id).getD [] ++ [p])

theorem groupMovesByProject_eq_foldl (st : RemoteState)
    (latest : List (String × TablePosition)) :
    BackendOps.groupMovesByProject st latest =
      latest.foldl (groupStep st) [] := rfl

theorem nodup_keys_groupsFold (st : RemoteState) :
    ∀ (latest : List (String × TablePosition))
      (acc : List (String × List (String × TablePosition))),
      (acc.map (fun g => g.1)).Nodup →
      ((latest.foldl (groupStep st) acc).map (fun g => g.1)).Nodup := by
  intro latest
  induction latest with
  | nil => intro acc h; exact h
  | cons q rest ih =>
    intro acc h
    rw [List.foldl_cons]
    apply ih
    unfold groupStep
    cases hf : BackendOps.findTableById st q.1 with
    | none => exact h
    | some pr =>
      obtain ⟨schema, t⟩ := pr
      exact nodup_keys_setAssoc _ _ h

theorem keys_groupsFold_have_docs (st : RemoteState) :
    ∀ (latest : List (String × TablePosition))
      (acc : List (String × List (String × TablePosition))),
      (∀ k ∈ acc.map (fun g => g.1), ∃ d ∈ st.docs, d.project.id = k) →
      ∀ k ∈ (latest.foldl (groupStep st) acc).map (fun g => g.1),
        ∃ d ∈ st.docs, d.project.id = k := by
  intro latest
  induction latest with
  | nil => intro acc h; exact h
  | cons q rest ih =>
    intro acc h
    rw [List.foldl_cons]
    apply ih
    unfold groupStep
    cases hf : BackendOps.findTableById st q.1 with
    | none => exact h
    | some pr =>
      obtain ⟨schema, t⟩ := pr
      intro k hk
      rw [keys_setAssoc] at hk
      rcases findTableById_spec hf with ⟨hschema, _, _⟩
      by_cases hany : acc.any (fun g => g.1 = schema.project.id)
      · rw [if_pos hany] at hk
        exact h k hk
      · rw [if_neg hany] at hk
        rcases List.mem_append.mp hk with hk | hk
        · exact h k hk
        · have hkk : k = schema.project.id := by
            rcases List.mem_singleton.mp hk with rfl
            rfl
          exact ⟨schema, hschema, hkk.symm⟩

theorem groupsFold_preserve (st : RemoteState) (id : String)
    (pos : TablePosition) :
    ∀ (latest : List (String × TablePosition))
      (acc : List (String × List (String × TablePosition))),
      (∀ q ∈ latest, ¬ q.1 = id) →
      ∀ K pm, jsMapGet acc K = some pm → jsMapGet pm id = some pos →
      ∃ pm2, jsMapGet (latest.foldl (groupStep st) acc) K = some pm2 ∧
        jsMapGet pm2 id = some pos := by
  intro latest
  induction latest with
  | nil =>
    intro acc _ K pm h1 h2
    exact ⟨pm, h1, h2⟩
  | cons q rest ih =>
    intro acc hall K pm h1 h2
    rw [List.foldl_cons]
    have hq : ¬ q.1 = id := hall q (List.mem_cons_self _ _)
    have hrest : ∀ q1 ∈ rest, ¬ q1.1 = id :=
      fun q1 hq1 => hall q1 (List.mem_cons_of_mem _ hq1)
    cases hf : BackendOps.findTableById st q.1 with
    | none =>
      have hstep : groupStep st acc q = acc := by
        unfold groupStep
        rw [hf]
      rw [hstep]
      exact ih acc hrest K pm h1 h2
    | some pr =>
      obtain ⟨schema, t⟩ := pr
      have hstep : groupStep st acc q = setAssoc acc schema.project.id
          ((jsMapGet acc schema.project.id).getD [] ++ [q]) := by
        unfold groupStep
        rw [hf]
      rw [hstep]
      by_cases hK : schema.project.id = K
      · rw [hK]
        apply ih _ hrest K _ (jsMapGet_setAssoc_self _ _ _)
        rw [h1]
        show jsMapGet (pm ++ [q]) id = some pos
        rw [jsMapGet_append]
        have hq1 : jsMapGet [q] id = none := by
          rw [jsMapGet_cons_of_none q (jsMapGet_nil id), if_neg hq]
        rw [hq1, h2]
      · apply ih _ hrest K pm _ h2
        rw [jsMapGet_setAssoc_ne _ _ (fun hc => hK hc.symm)]
        exact h1

theorem groupsFold_content (st : RemoteState) :
    ∀ (latest : List (String × TablePosition))
      (acc : List (String × List (String × TablePosition))),
      (latest.map (fun q => q.1)).Nodup →
      ∀ id pos schema t, jsMapGet latest id = some pos →
        BackendOps.findTableById st id = some (schema, t) →
        ∃ pm, jsMapGet (latest.foldl (groupStep st) acc) schema.project.id =
            some pm ∧ jsMapGet pm id = some pos := by
  intro latest
  induction latest with
  | nil =>
    intro acc _ id pos schema t hget _
    rw [jsMapGet_nil] at hget
    cases hget
  | cons q rest ih =>
    intro acc hnd id pos schema t hget hf
    rw [List.map_cons, List.nodup_cons] at hnd
    rw [List.foldl_cons]
    by_cases hq : q.1 = id
    · have hrestnone : jsMapGet rest id = none := by
        rw [jsMapGet_eq_none_iff]
        intro p hp hpk
        exact hnd.1 (hq ▸ hpk ▸ List.mem_map_of_mem (fun g => g.1) hp)
      rw [jsMapGet_cons_of_none q hrestnone, if_pos hq] at hget
      have hpos : q.2 = pos := by injection hget
      have hnotin : ∀ q1 ∈ rest, ¬ q1.1 = id := by
        intro q1 hq1 hc
        exact hnd.1 (hq ▸ hc ▸ List.mem_map_of_mem (fun g => g.1) hq1)
      have hstep : groupStep st acc q = setAssoc acc schema.project.id
          ((jsMapGet acc schema.project.id).getD [] ++ [q]) := by
        unfold groupStep
        rw [hq, hf]
      rw [hstep]
      apply groupsFold_preserve st id pos rest _ hnotin _ _
        (jsMapGet_setAssoc_self _ _ _)
      rw [jsMapGet_append]
      have hq1 : jsMapGet [q] id = some pos := by
        rw [jsMapGet_cons_of_none q (jsMapGet_nil id), if_pos hq, hpos]
      rw [hq1]
    · rw [jsMapGet_cons_ne q rest hq] at hget
      exact ih _ hnd.2 id pos schema t hget hf

theorem applyProjectMoves_spec (now : Nat) :
    ∀ (groups : List (String × List (String × TablePosition)))
      (st : RemoteState),
      (st.docs.map (fun d => d.project.id)).Nodup →
      (groups.map (fun g => g.1)).Nodup →
      (∀ g ∈ groups, ∃ d ∈ st.docs, d.project.id = g.1) →
      (BackendOps.applyProjectMoves st now groups).2 = Except.ok () ∧
      (BackendOps.applyProjectMoves st now groups).1.docs =
        st.docs.map (moveDocF groups now) := by
  intro groups
  induction groups with
  | nil =>
    intro st _ _ _
    refine ⟨rfl, ?_⟩
    show st.docs = st.docs.map (moveDocF [] now)
    have h1 : st.docs.map (moveDocF [] now) = st.docs.map (fun d => d) :=
      List.map_congr_left (fun d _ => rfl)
    rw [h1, List.map_id']
  | cons g rest ih =>
    obtain ⟨pid, pmoves⟩ := g
    intro st hdocs hgnd hcov
    rw [List.map_cons, List.nodup_cons] at hgnd
    rcases hcov (pid, pmoves) (List.mem_cons_self _ _) with ⟨d0, hd0, hd0k⟩
    have hfind : ∃ df, st.docs.find? (fun d => d.project.id = pid) =
        some df := by
      have hx : ∃ x ∈ st.docs,
          (fun d : SchemaExport => decide (d.project.id = pid)) x = true :=
        ⟨d0, hd0, decide_eq_true hd0k⟩
      exact Option.isSome_iff_exists.mp (List.find?_isSome.mpr hx)
    rcases hfind with ⟨df, hdf⟩
    have hdfmem : df ∈ st.docs := List.mem_of_find?_eq_some hdf
    have hdfk : df.project.id = pid := by
      have hp := List.find?_some hdf
      exact of_decide_eq_true hp
    have hget : BackendOps.getProjectSchema st pid = Except.ok df := by
      unfold BackendOps.getProjectSchema
      rw [hdf]
    have hone : BackendOps.applyProjectMoves st now ((pid, pmoves) :: rest) =
        BackendOps.applyProjectMoves
          (BackendOps.putProjectSchema st pid (moveDoc now pmoves df)) now
          rest := by
      show (match BackendOps.getProjectSchema st pid with
            | Except.error e => (st, Except.error e)
            | Except.ok schema =>
              BackendOps.applyProjectMoves
                (BackendOps.putProjectSchema st pid
                  (moveDoc now pmoves schema)) now rest) =
          BackendOps.applyProjectMoves
            (BackendOps.putProjectSchema st pid (moveDoc now pmoves df)) now
            rest
      rw [hget]
    have hput :
        (BackendOps.putProjectSchema st pid (moveDoc now pmoves df)).docs =
          st.docs.map
            (fun d => if d.project.id = pid then moveDoc now pmoves d
              else d) := by
      rw [putProjectSchema_docs_of_mem (moveDoc now pmoves df) hd0 hd0k]
      apply List.map_congr_left
      intro d hd
      by_cases hdk : d.project.id = pid
      · rw [if_pos hdk, if_pos hdk]
        have hdd : d = df := List.inj_on_of_nodup_map hdocs hd hdfmem
          (by rw [hdk, hdfk])
        rw [hdd]
      · rw [if_neg hdk, if_neg hdk]
    have hkeys2 :
        (BackendOps.putProjectSchema st pid
          (moveDoc now pmoves df)).docs.map (fun d => d.project.id) =
          st.docs.map (fun d => d.project.id) := by
      rw [hput, List.map_map]
      apply List.map_congr_left
      intro d _
      show (if d.project.id = pid then moveDoc now pmoves d
        else d).project.id = d.project.id
      by_cases hdk : d.project.id = pid
      · rw [if_pos hdk]
        rfl
      · rw [if_neg hdk]
    have hcov2 : ∀ g ∈ rest,
        ∃ d ∈ (BackendOps.putProjectSchema st pid
          (moveDoc now pmoves df)).docs, d.project.id = g.1 := by
      intro g hg
      rcases hcov g (List.mem_cons_of_mem _ hg) with ⟨d, hd, hdk2⟩
      refine ⟨if d.project.id = pid then moveDoc now pmoves d else d, ?_, ?_⟩
      · rw [hput]
        exact List.mem_map_of_mem _ hd
      · by_cases hdk : d.project.id = pid
        · rw [if_pos hdk]
          show d.project.id = g.1
          exact hdk2
        · rw [if_neg hdk]
          exact hdk2
    rcases ih (BackendOps.putProjectSchema st pid (moveDoc now pmoves df))
      (by rw [hkeys2]; exact hdocs) hgnd.2 hcov2 with ⟨ihok, ihdocs⟩
    rw [hone]
    refine ⟨ihok, ?_⟩
    rw [ihdocs, hput, List.map_map]
    apply List.map_congr_left
    intro d hd
    show moveDocF rest now
        (if d.project.id = pid then moveDoc now pmoves d else d) =
      moveDocF ((pid, pmoves) :: rest) now d
    have hnorest : jsMapGet rest pid = none := by
      rw [jsMapGet_eq_none_iff]
      intro g hg hgk
      exact hgnd.1 (hgk ▸ List.mem_map_of_mem (fun g => g.1) hg)
    by_cases hdk : d.project.id = pid
    · rw [if_pos hdk]
      have hL : moveDocF rest now (moveDoc now pmoves d) =
          moveDoc now pmoves d := by
        unfold moveDocF
        have hz : jsMapGet rest (moveDoc now pmoves d).project.id = none := by
          show jsMapGet rest d.project.id = none
          rw [hdk]
          exact hnorest
        rw [hz]
      have hR : moveDocF ((pid, pmoves) :: rest) now d =
          moveDoc now pmoves d := by
        unfold moveDocF
        have hcons : jsMapGet ((pid, pmoves) :: rest) d.project.id =
            some pmoves := by
          rw [hdk, jsMapGet_cons_of_none (pid, pmoves) hnorest, if_pos rfl]
        rw [hcons]
      rw [hL, hR]
    · rw [if_neg hdk]
      unfold moveDocF
      have hcons : jsMapGet ((pid, pmoves) :: rest) d.project.id =
          jsMapGet rest d.project.id :=
        jsMapGet_cons_ne _ _ (fun hc => hdk hc.symm)
      rw [hcons]

theorem moveTblF_id (groups : List (String × List (String × TablePosition)))
    (now : Nat) (d : SchemaExport) (t : TableEntity) :
    (moveTblF groups now d t).id = t.id := by
  unfold moveTblF
  cases hg : jsMapGet groups d.project.id with
  | none => rfl
  | some pm =>
    show (moveTbl now pm t).id = t.id
    unfold moveTbl
    cases hp : jsMapGet pm t.id with
    | none => rfl
    | some pos => rfl

theorem moveDocF_tables
    (groups : List (String × List (String × TablePosition))) (now : Nat)
    (d : SchemaExport) :
    (moveDocF groups now d).tables =
      d.tables.map (fun t => moveTblF groups now d t) := by
  cases hg : jsMapGet groups d.project.id with
  | none =>
    have h1 : moveDocF groups now d = d := by
      unfold moveDocF
      rw [hg]
    have h3 : d.tables.map (fun t => moveTblF groups now d t) =
        d.tables.map (fun t => t) := by
      apply List.map_congr_left
      intro t _
      show moveTblF groups now d t = t
      unfold moveTblF
      rw [hg]
    rw [h1, h3, List.map_id']
  | some pm =>
    have h1 : moveDocF groups now d = moveDoc now pm d := by
      unfold moveDocF
      rw [hg]
    have h3 : d.tables.map (fun t => moveTblF groups now d t) =
        d.tables.map (moveTbl now pm) := by
      apply List.map_congr_left
      intro t _
      show moveTblF groups now d t = moveTbl now pm t
      unfold moveTblF
      rw [hg]
    rw [h1, h3]
    rfl

theorem findTableById_moveDocF
    (groups : List (String × List (String × TablePosition))) (now : Nat) :
    ∀ (docs : List SchemaExport) (id : String),
      (docs.map (moveDocF groups now)).findSome? (fun d =>
          (d.tables.find? (fun t => t.id = id)).map (fun t => (d, t))) =
        (docs.findSome? (fun d =>
            (d.tables.find? (fun t => t.id = id)).map
              (fun t => (d, t)))).map
          (fun r => (moveDocF groups now r.1,
            moveTblF groups now r.1 r.2)) := by
  intro docs
  induction docs with
  | nil => intro id; rfl
  | cons d ds ih =>
    intro id
    rw [List.map_cons, List.findSome?_cons, List.findSome?_cons]
    have hhead : ((moveDocF groups now d).tables.find?
        (fun t => t.id = id)).map (fun t => (moveDocF groups now d, t)) =
      (d.tables.find? (fun t => t.id = id)).map
        (fun t => (moveDocF groups now d, moveTblF groups now d t)) := by
      rw [moveDocF_tables, List.find?_map]
      have hpred : ((fun t : TableEntity => decide (t.id = id)) ∘
          (fun t => moveTblF groups now d t)) =
            fun t : TableEntity => decide (t.id = id) := by
        funext t
        show decide ((moveTblF groups now d t).id = id) = decide (t.id = id)
        rw [moveTblF_id]
      rw [hpred]
      cases hfind : d.tables.find? (fun t => t.id = id) with
      | none => rfl
      | some t => rfl
    rw [hhead]
    cases hfind : d.tables.find? (fun t => t.id = id) with
    | none => exact ih id
    | some t => rfl

/-! ### Claim C7 -/

/-- C7: a `moveTables` batch holding several entries for the same table id
is coalesced last-write-wins on both realizations: provided every batched
id names an existing table (in the local store's table list, resp. in some
remote document) and the remote store keeps one document per project, the
call succeeds on both stores, every local table carrying a batched id ends
at the position of the batch's last entry for that id, and the remote
lookup of a batched id finds a table at that same last position. -/
theorem C7_moveTables_lastWins
    (moves : List FrontendOps.Move) (st : LocalState) (rst : RemoteState)
    (now : Nat)
    (hex : ∀ m ∈ moves, ∃ t0 ∈ st.schemaTables, t0.id = m.id)
    (hkeys : (rst.docs.map (fun d => d.project.id)).Nodup)
    (hres : ∀ m ∈ moves,
      (BackendOps.findTableById rst m.id).isSome = true) :
    ((FrontendOps.moveTables st now moves).2 = Except.ok ()) ∧
    ((BackendOps.moveTables rst moves now).2 = Except.ok ()) ∧
    ∀ id p, lastPosOf moves id = some p →
      (∀ t1 ∈ (FrontendOps.moveTables st now moves).1.schemaTables,
        t1.id = id → t1.position = p) ∧
      (∃ d1 t1, BackendOps.findTableById
          (BackendOps.moveTables rst moves now).1 id = some (d1, t1) ∧
        t1.position = p) := by
  rcases moveTables_frontend_lastWins moves st now hex with ⟨hfok, hfpos⟩
  by_cases hE : (BackendOps.dedupLastWins moves).isEmpty = true
  · have hmt : BackendOps.moveTables rst moves now =
        (rst, Except.ok ()) := by
      show (if (BackendOps.dedupLastWins moves).isEmpty = true
          then (rst, Except.ok ())
          else BackendOps.applyProjectMoves rst now
            (BackendOps.groupMovesByProject rst
              (BackendOps.dedupLastWins moves))) = (rst, Except.ok ())
      rw [if_pos hE]
    refine ⟨hfok, by rw [hmt], ?_⟩
    intro id p hlast
    exfalso
    have hrest : jsMapGet (BackendOps.dedupLastWins moves) id = some p := by
      rw [jsMapGet_dedupLastWins]
      exact hlast
    have hnil : BackendOps.dedupLastWins moves = [] := by
      cases hl : BackendOps.dedupLastWins moves with
      | nil => rfl
      | cons a l =>
        rw [hl] at hE
        cases hE
    rw [hnil, jsMapGet_nil] at hrest
    cases hrest
  · have hlat : BackendOps.moveTables rst moves now =
        BackendOps.applyProjectMoves rst now
          (BackendOps.groupMovesByProject rst
            (BackendOps.dedupLastWins moves)) := by
      show (if (BackendOps.dedupLastWins moves).isEmpty = true
          then (rst, Except.ok ())
          else BackendOps.applyProjectMoves rst now
            (BackendOps.groupMovesByProject rst
              (BackendOps.dedupLastWins moves))) =
        BackendOps.applyProjectMoves rst now
          (BackendOps.groupMovesByProject rst
            (BackendOps.dedupLastWins moves))
      rw [if_neg hE]
    rw [groupMovesByProject_eq_foldl] at hlat
    have hgnd : (((BackendOps.dedupLastWins moves).foldl (groupStep rst)
        []).map (fun g => g.1)).Nodup :=
      nodup_keys_groupsFold rst _ [] (by simp)
    have hgcov : ∀ g ∈ (BackendOps.dedupLastWins moves).foldl
        (groupStep rst) [], ∃ d ∈ rst.docs, d.project.id = g.1 := by
      intro g hg
      exact keys_groupsFold_have_docs rst _ [] (by simp) g.1
        (List.mem_map_of_mem (fun g => g.1) hg)
    rcases applyProjectMoves_spec now
      ((BackendOps.dedupLastWins moves).foldl (groupStep rst) []) rst hkeys
      hgnd hgcov with ⟨hok, hdocs⟩
    refine ⟨hfok, by rw [hlat]; exact hok, ?_⟩
    intro id p hlast
    refine ⟨hfpos id p hlast, ?_⟩
    rcases lastPosOf_mem hlast with ⟨mv, hmv, hmvid, _⟩
    have hsome := hres mv hmv
    rw [hmvid] at hsome
    rcases Option.isSome_iff_exists.mp hsome with ⟨pr, hpr⟩
    obtain ⟨schema, t⟩ := pr
    have hjl : jsMapGet (BackendOps.dedupLastWins moves) id = some p := by
      rw [jsMapGet_dedupLastWins]
      exact hlast
    rcases groupsFold_content rst (BackendOps.dedupLastWins moves) []
      (nodup_keys_dedupLastWins moves) id p schema t hjl hpr with
      ⟨pm, hgpm, hpmid⟩
    have hfinal : BackendOps.findTableById
        (BackendOps.moveTables rst moves now).1 id =
        some (moveDocF ((BackendOps.dedupLastWins moves).foldl
            (groupStep rst) []) now schema,
          moveTblF ((BackendOps.dedupLastWins moves).foldl
            (groupStep rst) []) now schema t) := by
      unfold BackendOps.findTableById
      rw [hlat, hdocs, findTableById_moveDocF]
      have hpr2 : rst.docs.findSome? (fun d =>
          (d.tables.find? (fun t1 => t1.id = id)).map
            (fun t1 => (d, t1))) = some (schema, t) := hpr
      rw [hpr2]
      rfl
    refine ⟨_, _, hfinal, ?_⟩
    have hid : t.id = id := (findTableById_spec hpr).2.2
    show (moveTblF ((BackendOps.dedupLastWins moves).foldl (groupStep rst)
        []) now schema t).position = p
    unfold moveTblF
    rw [hgpm]
    show (moveTbl now pm t).position = p
    unfold moveTbl
    rw [hid, hpmid]

/-- A batch moving table `t1` twice: first to (7, 8), then to (31, 42). -/
def mvFix : List FrontendOps.Move :=
  [{ id := "t1", position := { x := 7, y := 8 } },
    { id := "t1", position := { x := 31, y := 42 } }]

theorem C7_moveTables_lastWins_witness :
    (∀ m ∈ mvFix, ∃ t0 ∈ stFix.schemaTables, t0.id = m.id) ∧
    ((FrontendOps.moveTables stFix 9 mvFix).2 = Except.ok ()) ∧
    ((BackendOps.moveTables rstFix mvFix 9).2 = Except.ok ()) ∧
    (∀ t1 ∈ (FrontendOps.moveTables stFix 9 mvFix).1.schemaTables,
      t1.id = "t1" → t1.position = { x := 31, y := 42 }) ∧
    (∃ d1 t1, BackendOps.findTableById
        (BackendOps.moveTables rstFix mvFix 9).1 "t1" = some (d1, t1) ∧
      t1.position = { x := 31, y := 42 }) := by
  have h := C7_moveTables_lastWins mvFix stFix rstFix 9 (by decide)
    (by decide) (by decide)
  have h2 := h.2.2 "t1" { x := 31, y := 42 } (by decide)
  exact ⟨by decide, h.1, h.2.1, h2.1, h2.2⟩

/-! ### Claim C3 -/

/-- C3: the two store realizations are **not** behaviorally equivalent.
On the equivalent states `stFix`/`rstFix` (the same two-table graph, with
column `c2` owned by table `t2` at `orderIndex` 5), the call
`reorderColumns("t1", ["c2"])` succeeds on both, but the local realization
sets `c2.orderIndex` to 0 (its per-column update has no ownership check)
while the remote realization leaves `c2` at 5 (it rewrites only columns
with the given `tableId`): the resulting entity graphs differ in a field
that is neither a fresh id nor a timestamp. -/
theorem C3_reorder_divergence :
    ((FrontendOps.reorderColumns stFix "t1" ["c2"] 5).2 = Except.ok ()) ∧
    ((BackendOps.reorderColumns rstFix "t1" ["c2"] 5).2 = Except.ok ()) ∧
    ((FrontendOps.reorderColumns stFix "t1" ["c2"] 5).1.columns.map
        (fun c => (c.id, c.orderIndex)) = [("c1", 0), ("c2", 0)]) ∧
    ((BackendOps.reorderColumns rstFix "t1" ["c2"] 5).1.docs.map
        (fun d => d.columns.map (fun c => (c.id, c.orderIndex))) =
      [[("c1", 0), ("c2", 5)]]) :=
  ⟨rfl, rfl, by decide, by decide⟩

/-! ### Claim C4 -/

/-- Boolean list-prefix test (character lists). -/
def listIsPre : List Char → List Char → Bool
  | [], _ => true
  | _ :: _, [] => false
  | a :: as, b :: bs => a == b && listIsPre as bs

/-- Whether a generated statement is an `ALTER TABLE` statement: its text
starts with `ALTER TABLE`. -/
def startsWithAlter (s : String) : Bool :=
  listIsPre ("ALTER TABLE" : String).data s.data

/-- Whether all four references of a relationship resolve through the
generator's table/column maps (`sourceTable && targetTable &&
sourceColumn && targetColumn`). -/
def fkResolvable (tablesMap : List (String × TableEntity))
    (columnsById : List (String × Column)) (rel : Relationship) : Bool :=
  (jsMapGet tablesMap rel.sourceTableId).isSome &&
    ((jsMapGet tablesMap rel.targetTableId).isSome &&
      ((jsMapGet columnsById rel.sourceColumnId).isSome &&
        (jsMapGet columnsById rel.targetColumnId).isSome))

theorem listIsPre_self_append :
    ∀ (p rest : List Char), listIsPre p (p ++ rest) = true := by
  intro p
  induction p with
  | nil => intro rest; rfl
  | cons a as ih =>
    intro rest
    show (a == a && listIsPre as (as ++ rest)) = true
    rw [beq_self_eq_true, ih rest]
    rfl

theorem listIsPre_ne_first {a b : Char} (as bs : List Char)
    (h : ¬ a = b) : listIsPre (a :: as) (b :: bs) = false := by
  show (a == b && listIsPre as bs) = false
  rw [beq_eq_false_iff_ne.mpr h]
  rfl

theorem joinLines_data (s : String) (rest : List String) :
    ∃ tail, (joinLines (s :: rest)).data = s.data ++ tail := by
  cases rest with
  | nil => exact ⟨[], (List.append_nil _).symm⟩
  | cons s2 r2 =>
    refine ⟨("\n" : String).data ++ (joinLines (s2 :: r2)).data, ?_⟩
    show ((s ++ "\n") ++ joinLines (s2 :: r2)).data = _
    rw [String.data_append, String.data_append, List.append_assoc]

theorem data_cons_of_append (p s : String) (c : Char) (cs : List Char)
    (hp : p.data = c :: cs) : (p ++ s).data = c :: (cs ++ s.data) := by
  rw [String.data_append, hp]
  rfl

theorem startsWithAlter_of_head (h : String) (rest : List String)
    (hh : ∃ tail, h.data = ("ALTER TABLE" : String).data ++ tail) :
    startsWithAlter (joinLines (h :: rest)) = true := by
  unfold startsWithAlter
  rcases joinLines_data h rest with ⟨tail2, htail⟩
  rcases hh with ⟨tail, hht⟩
  rw [htail, hht, List.append_assoc]
  exact listIsPre_self_append _ _

theorem startsWithAlter_joinLines_cons {s : String} (rest : List String)
    {c : Char} {cs : List Char} (hs : s.data = c :: cs)
    (hc : ¬ ('A' = c)) : startsWithAlter (joinLines (s :: rest)) = false := by
  unfold startsWithAlter
  rcases joinLines_data s rest with ⟨tail, htail⟩
  rw [htail, hs]
  have hA : ("ALTER TABLE" : String).data =
      'A' :: ("LTER TABLE" : String).data := by decide
  rw [hA, List.cons_append]
  exact listIsPre_ne_first _ _ hc

theorem startsWithAlter_empty : startsWithAlter "" = false := by decide

theorem startsWithAlter_of_data_cons {s : String} {c : Char}
    {cs : List Char} (h : s.data = c :: cs) (hc : ¬ ('A' = c)) :
    startsWithAlter s = false := by
  unfold startsWithAlter
  rw [h]
  have hA : ("ALTER TABLE" : String).data =
      'A' :: ("LTER TABLE" : String).data := by decide
  rw [hA]
  exact listIsPre_ne_first _ _ hc

theorem startsWithAlter_pgFK (rel : Relationship) (st1 tt : TableEntity)
    (sc tc : Column) :
    startsWithAlter (postgres.generateAlterTableFK rel st1 tt sc tc) =
      true := by
  have hh : ∃ tail, ("ALTER TABLE " ++ st1.name).data =
      ("ALTER TABLE" : String).data ++ tail := by
    refine ⟨[' '] ++ st1.name.data, ?_⟩
    have hsp : ("ALTER TABLE " : String).data =
        ("ALTER TABLE" : String).data ++ [' '] := by decide
    rw [String.data_append, hsp]
    simp only [List.append_assoc]
  exact startsWithAlter_of_head ("ALTER TABLE " ++ st1.name)
    ["  ADD CONSTRAINT " ++ (if truthyStr rel.name then rel.name.getD ""
        else "fk_" ++ st1.name ++ "_" ++ tt.name),
     "  FOREIGN KEY (" ++ sc.name ++ ")",
     "  REFERENCES " ++ tt.name ++ "(" ++ tc.name ++ ")",
     "  ON DELETE " ++ rel.onDelete,
     "  ON UPDATE " ++ rel.onUpdate ++ ";"] hh

theorem startsWithAlter_mysqlFK (rel : Relationship) (st1 tt : TableEntity)
    (sc tc : Column) :
    startsWithAlter (mysql.generateAlterTableFK rel st1 tt sc tc) =
      true := by
  have hh : ∃ tail, ("ALTER TABLE `" ++ st1.name ++ "`").data =
      ("ALTER TABLE" : String).data ++ tail := by
    refine ⟨[' ', Char.ofNat 96] ++ st1.name.data ++ ("`" : String).data,
      ?_⟩
    have hsp : ("ALTER TABLE `" : String).data =
        ("ALTER TABLE" : String).data ++ [' ', Char.ofNat 96] := by decide
    rw [String.data_append, String.data_append, hsp]
    simp only [List.append_assoc]
  exact startsWithAlter_of_head ("ALTER TABLE `" ++ st1.name ++ "`")
    ["  ADD CONSTRAINT `" ++ (if truthyStr rel.name then rel.name.getD ""
        else "fk_" ++ st1.name ++ "_" ++ tt.name) ++ "`",
     "  FOREIGN KEY (`" ++ sc.name ++ "`)",
     "  REFERENCES `" ++ tt.name ++ "`(`" ++ tc.name ++ "`)",
     "  ON DELETE " ++ rel.onDelete,
     "  ON UPDATE " ++ rel.onUpdate ++ ";"] hh

theorem startsWithAlter_joinLines_if (P : Prop) [Decidable P]
    (d s j z : String) {c : Char} {cs : List Char}
    (hs : s.data = c :: cs) (hc : ¬ ('A' = c)) :
    startsWithAlter (joinLines
      ((((if P then ["-- " ++ d] else []) ++ [s]) ++ [j]) ++ [z])) =
      false := by
  by_cases hP : P
  · rw [if_pos hP]
    show startsWithAlter (joinLines (("-- " ++ d) :: s :: j :: z :: [])) =
      false
    exact startsWithAlter_joinLines_cons _
      (data_cons_of_append "-- " d '-' ("- " : String).data (by decide))
      (by decide)
  · rw [if_neg hP]
    show startsWithAlter (joinLines (s :: j :: z :: [])) = false
    exact startsWithAlter_joinLines_cons _ hs hc

theorem startsWithAlter_pgCreate (t : TableEntity) (cols : List Column) :
    startsWithAlter (postgres.generateCreateTable t cols) = false := by
  have h1 : ("CREATE TABLE " : String).data =
      'C' :: ("REATE TABLE " : String).data := by decide
  have h2 := data_cons_of_append "CREATE TABLE " t.name 'C'
    ("REATE TABLE " : String).data h1
  have h3 := data_cons_of_append ("CREATE TABLE " ++ t.name) " (" 'C' _ h2
  exact startsWithAlter_joinLines_if (truthyStr t.description)
    (t.description.getD "") ("CREATE TABLE " ++ t.name ++ " (")
    (joinWith ",\n" (cols.map postgres.columnDef ++
      (if (cols.filter (fun c => c.isPrimaryKey)).length > 0 then
        ["  PRIMARY KEY ("
          ++ joinWith ", "
            ((cols.filter (fun c => c.isPrimaryKey)).map (fun c => c.name))
          ++ ")"]
      else []))) ");" h3 (by decide)

theorem startsWithAlter_mysqlCreate (t : TableEntity)
    (cols : List Column) :
    startsWithAlter (mysql.generateCreateTable t cols) = false := by
  have h1 : ("CREATE TABLE `" : String).data =
      'C' :: ("REATE TABLE `" : String).data := by decide
  have h2 := data_cons_of_append "CREATE TABLE `" t.name 'C'
    ("REATE TABLE `" : String).data h1
  have h3 := data_cons_of_append ("CREATE TABLE `" ++ t.name) "` (" 'C' _ h2
  exact startsWithAlter_joinLines_if (truthyStr t.description)
    (t.description.getD "") ("CREATE TABLE `" ++ t.name ++ "` (")
    (joinWith ",\n" (cols.map mysql.columnDef ++
      (if (cols.filter (fun c => c.isPrimaryKey)).length > 0 then
        ["  PRIMARY KEY ("
          ++ joinWith ", "
            ((cols.filter (fun c => c.isPrimaryKey)).map
              (fun c => "`" ++ c.name ++ "`"))
          ++ ")"]
      else [])))
    ") ENGINE=InnoDB DEFAULT CHARSET=utf8mb4 COLLATE=utf8mb4_unicode_ci;"
    h3 (by decide)

theorem startsWithAlter_sqliteCreate (t : TableEntity)
    (cols : List Column) (rels : List Relationship)
    (allTables : List (String × TableEntity))
    (allColumns : List (String × Column)) :
    startsWithAlter
      (sqlite.generateCreateTableWithFK t cols rels allTables allColumns) =
      false := by
  have h1 : ("CREATE TABLE " : String).data =
      'C' :: ("REATE TABLE " : String).data := by decide
  have h2 := data_cons_of_append "CREATE TABLE " t.name 'C'
    ("REATE TABLE " : String).data h1
  have h3 := data_cons_of_append ("CREATE TABLE " ++ t.name) " (" 'C' _ h2
  exact startsWithAlter_joinLines_if (truthyStr t.description)
    (t.description.getD "") ("CREATE TABLE " ++ t.name ++ " (")
    (joinWith ",\n" (cols.map sqlite.columnDef ++
      sqlite.fkConstraintLines t rels allTables allColumns)) ");"
    h3 (by decide)

/-- The per-table `CREATE TABLE` block of `generateSQL` (each statement
followed by its blank separator). -/
def sqlCreates (dialect : SQLDialect) (tables : List TableEntity)
    (columns : List Column) (relationships : List Relationship) :
    List String :=
  match dialect with
  | .postgresql => tables.flatMap fun t =>
      [postgres.generateCreateTable t (sortByKey (fun c => c.orderIndex)
        (columns.filter (fun c => c.tableId = t.id))), ""]
  | .mysql => tables.flatMap fun t =>
      [mysql.generateCreateTable t (sortByKey (fun c => c.orderIndex)
        (columns.filter (fun c => c.tableId = t.id))), ""]
  | .sqlite => tables.flatMap fun t =>
      [sqlite.generateCreateTableWithFK t (sortByKey (fun c => c.orderIndex)
          (columns.filter (fun c => c.tableId = t.id)))
        (relationships.filter (fun r => r.sourceTableId = t.id))
        (tables.map (fun t => (t.id, t))) (columns.map (fun c => (c.id, c))),
        ""]

/-- The statements pushed by `generateSQL` for one relationship of the
foreign-key block: the `ALTER TABLE` statement and its blank separator
when all four references resolve, nothing otherwise. -/
def fkEmit (dialect : SQLDialect) (tablesMap : List (String × TableEntity))
    (columnsById : List (String × Column)) (rel : Relationship) :
    List String :=
  match jsMapGet tablesMap rel.sourceTableId,
      jsMapGet tablesMap rel.targetTableId,
      jsMapGet columnsById rel.sourceColumnId,
      jsMapGet columnsById rel.targetColumnId with
  | some sourceTable, some targetTable, some sourceColumn,
      some targetColumn =>
    match dialect with
    | .mysql =>
      [mysql.generateAlterTableFK rel sourceTable targetTable
        sourceColumn targetColumn, ""]
    | _ =>
      [postgres.generateAlterTableFK rel sourceTable targetTable
        sourceColumn targetColumn, ""]
  | _, _, _, _ => []

/-- The whole foreign-key block of `generateSQL`. -/
def sqlFk (dialect : SQLDialect) (tables : List TableEntity)
    (columns : List Column) (relationships : List Relationship) :
    List String :=
  match dialect with
  | .sqlite => []
  | _ =>
    if relationships.length > 0 then
      ["-- Foreign Key Constraints", ""]
        ++ relationships.flatMap
          (fkEmit dialect (tables.map (fun t => (t.id, t)))
            (columns.map (fun c => (c.id, c))))
    else []

theorem generateSQLStatements_eq (dialect : SQLDialect)
    (tables : List TableEntity) (columns : List Column)
    (relationships : List Relationship) (generatedAt : String) :
    generateSQLStatements dialect tables columns relationships generatedAt =
      (["-- Generated SQL for " ++ dialect.upper,
        "-- Generated at: " ++ generatedAt,
        "-- Tables: " ++ toString tables.length ++ ", Relationships: "
          ++ toString relationships.length, ""]
        ++ sqlCreates dialect tables columns relationships)
        ++ sqlFk dialect tables columns relationships := rfl

theorem countP_pair_zero (s : String) (h : startsWithAlter s = false) :
    List.countP startsWithAlter [s, ""] = 0 := by
  rw [List.countP_cons, List.countP_cons, List.countP_nil, h,
    startsWithAlter_empty]
  rfl

theorem countP_flatMap_pairs_zero (f : TableEntity → String)
    (hf : ∀ t, startsWithAlter (f t) = false) :
    ∀ ts : List TableEntity,
      List.countP startsWithAlter (ts.flatMap (fun t => [f t, ""])) = 0 := by
  intro ts
  induction ts with
  | nil => rfl
  | cons t ts ih =>
    rw [List.flatMap_cons, List.countP_append, ih,
      countP_pair_zero (f t) (hf t)]

theorem countP_fkEmit (dialect : SQLDialect)
    (TM : List (String × TableEntity)) (CM : List (String × Column))
    (rel : Relationship) :
    List.countP startsWithAlter (fkEmit dialect TM CM rel) =
      if fkResolvable TM CM rel then 1 else 0 := by
  unfold fkEmit fkResolvable
  cases h1 : jsMapGet TM rel.sourceTableId with
  | none => rfl
  | some a =>
    cases h2 : jsMapGet TM rel.targetTableId with
    | none => rfl
    | some b =>
      cases h3 : jsMapGet CM rel.sourceColumnId with
      | none => rfl
      | some c =>
        cases h4 : jsMapGet CM rel.targetColumnId with
        | none => rfl
        | some d =>
          cases dialect with
          | mysql =>
            show List.countP startsWithAlter
              [mysql.generateAlterTableFK rel a b c d, ""] = 1
            rw [List.countP_cons, List.countP_cons, List.countP_nil,
              startsWithAlter_mysqlFK, startsWithAlter_empty]
            rfl
          | postgresql =>
            show List.countP startsWithAlter
              [postgres.generateAlterTableFK rel a b c d, ""] = 1
            rw [List.countP_cons, List.countP_cons, List.countP_nil,
              startsWithAlter_pgFK, startsWithAlter_empty]
            rfl
          | sqlite =>
            show List.countP startsWithAlter
              [postgres.generateAlterTableFK rel a b c d, ""] = 1
            rw [List.countP_cons, List.countP_cons, List.countP_nil,
              startsWithAlter_pgFK, startsWithAlter_empty]
            rfl

theorem countP_flatMap_fkEmit (dialect : SQLDialect)
    (TM : List (String × TableEntity)) (CM : List (String × Column)) :
    ∀ rels : List Relationship,
      List.countP startsWithAlter
          (rels.flatMap (fkEmit dialect TM CM)) =
        rels.countP (fkResolvable TM CM) := by
  intro rels
  induction rels with
  | nil => rfl
  | cons r rs ih =>
    rw [List.flatMap_cons, List.countP_append, ih, List.countP_cons,
      countP_fkEmit, Nat.add_comm]

/-- The three target-side lookups of one inline SQLite foreign-key
clause. -/
def fkLookups (TM : List (String × TableEntity))
    (CM : List (String × Column)) (rel : Relationship) :
    Option (TableEntity × Column × Column) :=
  match jsMapGet TM rel.targetTableId, jsMapGet CM rel.sourceColumnId,
      jsMapGet CM rel.targetColumnId with
  | some tt, some sc, some tc => some (tt, sc, tc)
  | _, _, _ => none

/-- Whether a relationship contributes an inline `FOREIGN KEY` clause to
a SQLite `CREATE TABLE` for table `t`. -/
def fkClauseApplicable (t : TableEntity)
    (TM : List (String × TableEntity)) (CM : List (String × Column))
    (rel : Relationship) : Bool :=
  rel.sourceTableId == t.id &&
    ((jsMapGet TM rel.targetTableId).isSome &&
      ((jsMapGet CM rel.sourceColumnId).isSome &&
        (jsMapGet CM rel.targetColumnId).isSome))

/-- The text of one inline SQLite foreign-key clause. -/
def fkClause (rel : Relationship) (tt : TableEntity)
    (sc tc : Column) : String :=
  "  FOREIGN KEY (" ++ sc.name ++ ") REFERENCES " ++ tt.name ++ "("
    ++ tc.name ++ ") ON DELETE " ++ rel.onDelete ++ " ON UPDATE "
    ++ rel.onUpdate

theorem fkLookups_isSome (TM : List (String × TableEntity))
    (CM : List (String × Column)) (rel : Relationship) :
    (fkLookups TM CM rel).isSome =
      ((jsMapGet TM rel.targetTableId).isSome &&
        ((jsMapGet CM rel.sourceColumnId).isSome &&
          (jsMapGet CM rel.targetColumnId).isSome)) := by
  unfold fkLookups
  cases h1 : jsMapGet TM rel.targetTableId with
  | none => rfl
  | some tt =>
    cases h2 : jsMapGet CM rel.sourceColumnId with
    | none => rfl
    | some sc =>
      cases h3 : jsMapGet CM rel.targetColumnId with
      | none => rfl
      | some tc => rfl

theorem fkConstraintLines_cons (t : TableEntity)
    (TM : List (String × TableEntity)) (CM : List (String × Column))
    (r : Relationship) (rs : List Relationship) :
    sqlite.fkConstraintLines t (r :: rs) TM CM =
      (if r.sourceTableId = t.id then
        match fkLookups TM CM r with
        | some (tt, sc, tc) => [fkClause r tt sc tc]
        | none => []
      else []) ++ sqlite.fkConstraintLines t rs TM CM := by
  unfold sqlite.fkConstraintLines fkLookups fkClause
  rw [List.filterMap_cons]
  by_cases hsrc : r.sourceTableId = t.id
  · rw [if_pos hsrc, if_pos hsrc]
    cases h1 : jsMapGet TM r.targetTableId with
    | none => rfl
    | some tt =>
      cases h2 : jsMapGet CM r.sourceColumnId with
      | none => rfl
      | some sc =>
        cases h3 : jsMapGet CM r.targetColumnId with
        | none => rfl
        | some tc => rfl
  · rw [if_neg hsrc, if_neg hsrc]
    rfl

theorem fkConstraintLines_length (t : TableEntity)
    (TM : List (String × TableEntity)) (CM : List (String × Column)) :
    ∀ rels : List Relationship,
      (sqlite.fkConstraintLines t rels TM CM).length =
        rels.countP (fkClauseApplicable t TM CM) := by
  intro rels
  induction rels with
  | nil => rfl
  | cons r rs ih =>
    rw [fkConstraintLines_cons, List.length_append, ih, List.countP_cons,
      Nat.add_comm]
    congr 1
    by_cases hsrc : r.sourceTableId = t.id
    · rw [if_pos hsrc]
      have happ : fkClauseApplicable t TM CM r =
          (fkLookups TM CM r).isSome := by
        unfold fkClauseApplicable
        rw [fkLookups_isSome]
        have hbeq : (r.sourceTableId == t.id) = true :=
          beq_iff_eq.mpr hsrc
        rw [hbeq, Bool.true_and]
      rw [happ]
      cases hlk : fkLookups TM CM r with
      | none => rfl
      | some trip =>
        obtain ⟨tt, sc, tc⟩ := trip
        rfl
    · rw [if_neg hsrc]
      have hbeq : (r.sourceTableId == t.id) = false :=
        beq_eq_false_iff_ne.mpr hsrc
      unfold fkClauseApplicable
      rw [hbeq, Bool.false_and]
      rfl

theorem countP_headers_zero (dialect : SQLDialect)
    (tables : List TableEntity) (relationships : List Relationship)
    (generatedAt : String) :
    List.countP startsWithAlter
      ["-- Generated SQL for " ++ dialect.upper,
       "-- Generated at: " ++ generatedAt,
       "-- Tables: " ++ toString tables.length ++ ", Relationships: "
         ++ toString relationships.length, ""] = 0 := by
  have f1 : startsWithAlter ("-- Generated SQL for " ++ dialect.upper) =
      false :=
    startsWithAlter_of_data_cons
      (data_cons_of_append "-- Generated SQL for " dialect.upper '-'
        ("- Generated SQL for " : String).data (by decide)) (by decide)
  have f2 : startsWithAlter ("-- Generated at: " ++ generatedAt) = false :=
    startsWithAlter_of_data_cons
      (data_cons_of_append "-- Generated at: " generatedAt '-'
        ("- Generated at: " : String).data (by decide)) (by decide)
  have h31 := data_cons_of_append "-- Tables: " (toString tables.length)
    '-' ("- Tables: " : String).data (by decide)
  have h32 := data_cons_of_append
    ("-- Tables: " ++ toString tables.length) ", Relationships: " '-' _ h31
  have h33 := data_cons_of_append
    (("-- Tables: " ++ toString tables.length) ++ ", Relationships: ")
    (toString relationships.length) '-' _ h32
  have f3 : startsWithAlter ("-- Tables: " ++ toString tables.length
      ++ ", Relationships: " ++ toString relationships.length) = false :=
    startsWithAlter_of_data_cons h33 (by decide)
  rw [List.countP_cons, List.countP_cons, List.countP_cons,
    List.countP_cons, List.countP_nil, f1, f2, f3, startsWithAlter_empty]
  rfl

set_option maxHeartbeats 1600000 in
theorem countP_sqlCreates_zero (dialect : SQLDialect)
    (tables : List TableEntity) (columns : List Column)
    (relationships : List Relationship) :
    List.countP startsWithAlter
      (sqlCreates dialect tables columns relationships) = 0 := by
  cases dialect with
  | postgresql =>
    exact countP_flatMap_pairs_zero
      (fun t => postgres.generateCreateTable t
        (sortByKey (fun c => c.orderIndex)
          (columns.filter (fun c => c.tableId = t.id))))
      (fun t => startsWithAlter_pgCreate t _) tables
  | mysql =>
    exact countP_flatMap_pairs_zero
      (fun t => mysql.generateCreateTable t
        (sortByKey (fun c => c.orderIndex)
          (columns.filter (fun c => c.tableId = t.id))))
      (fun t => startsWithAlter_mysqlCreate t _) tables
  | sqlite =>
    show List.countP startsWithAlter
      (tables.flatMap (fun t =>
        [(fun t1 => sqlite.generateCreateTableWithFK t1
          (sortByKey (fun c => c.orderIndex)
            (columns.filter (fun c => c.tableId = t1.id)))
          (relationships.filter (fun r => r.sourceTableId = t1.id))
          (tables.map (fun t2 => (t2.id, t2)))
          (columns.map (fun c => (c.id, c)))) t, ""])) = 0
    exact countP_flatMap_pairs_zero
      (fun t1 => sqlite.generateCreateTableWithFK t1
        (sortByKey (fun c => c.orderIndex)
          (columns.filter (fun c => c.tableId = t1.id)))
        (relationships.filter (fun r => r.sourceTableId = t1.id))
        (tables.map (fun t2 => (t2.id, t2)))
        (columns.map (fun c => (c.id, c))))
      (fun t1 => startsWithAlter_sqliteCreate t1
        (sortByKey (fun c => c.orderIndex)
          (columns.filter (fun c => c.tableId = t1.id)))
        (relationships.filter (fun r => r.sourceTableId = t1.id))
        (tables.map (fun t2 => (t2.id, t2)))
        (columns.map (fun c => (c.id, c)))) tables

theorem countP_sqlFk_pg (tables : List TableEntity)
    (columns : List Column) (relationships : List Relationship) :
    List.countP startsWithAlter
      (sqlFk SQLDialect.postgresql tables columns relationships) =
      relationships.countP (fkResolvable (tables.map (fun t => (t.id, t)))
        (columns.map (fun c => (c.id, c)))) := by
  show List.countP startsWithAlter
    (if relationships.length > 0 then
      ["-- Foreign Key Constraints", ""] ++ relationships.flatMap
        (fkEmit SQLDialect.postgresql (tables.map (fun t => (t.id, t)))
          (columns.map (fun c => (c.id, c))))
    else []) = _
  by_cases hlen : relationships.length > 0
  · rw [if_pos hlen, List.countP_append, countP_flatMap_fkEmit]
    have h0 : List.countP startsWithAlter
        ["-- Foreign Key Constraints", ""] = 0 := by decide
    rw [h0, Nat.zero_add]
  · rw [if_neg hlen]
    have hnil : relationships = [] :=
      List.length_eq_zero.mp (Nat.eq_zero_of_not_pos hlen)
    rw [hnil]
    rfl

theorem countP_sqlFk_mysql (tables : List TableEntity)
    (columns : List Column) (relationships : List Relationship) :
    List.countP startsWithAlter
      (sqlFk SQLDialect.mysql tables columns relationships) =
      relationships.countP (fkResolvable (tables.map (fun t => (t.id, t)))
        (columns.map (fun c => (c.id, c)))) := by
  show List.countP startsWithAlter
    (if relationships.length > 0 then
      ["-- Foreign Key Constraints", ""] ++ relationships.flatMap
        (fkEmit SQLDialect.mysql (tables.map (fun t => (t.id, t)))
          (columns.map (fun c => (c.id, c))))
    else []) = _
  by_cases hlen : relationships.length > 0
  · rw [if_pos hlen, List.countP_append, countP_flatMap_fkEmit]
    have h0 : List.countP startsWithAlter
        ["-- Foreign Key Constraints", ""] = 0 := by decide
    rw [h0, Nat.zero_add]
  · rw [if_neg hlen]
    have hnil : relationships = [] :=
      List.length_eq_zero.mp (Nat.eq_zero_of_not_pos hlen)
    rw [hnil]
    rfl

/-- A relationship whose target table and target column ids resolve
nowhere. -/
def relDangling : Relationship :=
  { id := "r1", projectId := "p1", sourceTableId := "t1",
    sourceColumnId := "c1", targetTableId := "tX", targetColumnId := "cX",
    onDelete := "CASCADE", onUpdate := "CASCADE", createdAt := 0,
    updatedAt := 0 }

set_option maxHeartbeats 2000000 in
/-- C4 counterexample: with one relationship in the input whose target
references do not resolve, the PostgreSQL and MySQL outputs contain zero
`ALTER TABLE` statements, not one per relationship. -/
theorem C4_counterexample :
    [relDangling].length = 1 ∧
    List.countP startsWithAlter
      (generateSQLStatements SQLDialect.postgresql [tFix] [cFix]
        [relDangling] "T") = 0 ∧
    List.countP startsWithAlter
      (generateSQLStatements SQLDialect.mysql [tFix] [cFix]
        [relDangling] "T") = 0 :=
  ⟨rfl, by decide, by decide⟩

/-- C4: `generateSQL` with the SQLite dialect emits no `ALTER TABLE`
statement at all; with the PostgreSQL or MySQL dialect it emits exactly
one `ALTER TABLE ... ADD CONSTRAINT` statement per relationship **whose
four references all resolve** through the table/column maps (a dangling
relationship is skipped silently); and under SQLite each such applicable
relationship is folded into its source table's CREATE TABLE as exactly
one inline `FOREIGN KEY` clause. -/
theorem C4_alter_statements (tables : List TableEntity)
    (columns : List Column) (relationships : List Relationship)
    (generatedAt : String) :
    (List.countP startsWithAlter (generateSQLStatements SQLDialect.sqlite
        tables columns relationships generatedAt) = 0) ∧
    (List.countP startsWithAlter
        (generateSQLStatements SQLDialect.postgresql tables columns
          relationships generatedAt) =
      relationships.countP (fkResolvable (tables.map (fun t => (t.id, t)))
        (columns.map (fun c => (c.id, c))))) ∧
    (List.countP startsWithAlter
        (generateSQLStatements SQLDialect.mysql tables columns
          relationships generatedAt) =
      relationships.countP (fkResolvable (tables.map (fun t => (t.id, t)))
        (columns.map (fun c => (c.id, c))))) ∧
    (∀ t, (sqlite.fkConstraintLines t
        (relationships.filter (fun r => r.sourceTableId = t.id))
        (tables.map (fun t => (t.id, t)))
        (columns.map (fun c => (c.id, c)))).length =
      relationships.countP (fkClauseApplicable t
        (tables.map (fun t => (t.id, t)))
        (columns.map (fun c => (c.id, c))))) := by
  refine ⟨?_, ?_, ?_, ?_⟩
  · rw [generateSQLStatements_eq, List.countP_append, List.countP_append,
      countP_headers_zero, countP_sqlCreates_zero]
    rfl
  · rw [generateSQLStatements_eq, List.countP_append, List.countP_append,
      countP_headers_zero, countP_sqlCreates_zero, countP_sqlFk_pg]
    omega
  · rw [generateSQLStatements_eq, List.countP_append, List.countP_append,
      countP_headers_zero, countP_sqlCreates_zero, countP_sqlFk_mysql]
    omega
  · intro t
    rw [fkConstraintLines_length, List.countP_filter]
    apply List.countP_congr
    intro r _
    by_cases hsrc : r.sourceTableId = t.id
    · rw [decide_eq_true hsrc, Bool.and_true]
    · have hbeq : (r.sourceTableId == t.id) = false :=
        beq_eq_false_iff_ne.mpr hsrc
      unfold fkClauseApplicable
      rw [hbeq, Bool.false_and, Bool.false_and]

/-! ### Claim C8 -/

/-- Whether all four references of an imported relationship resolve
through the old-to-new table/column id maps. -/
def relMapped (tmap cmap : List (String × String))
    (rel : Relationship) : Bool :=
  (jsMapGet tmap rel.sourceTableId).isSome &&
    ((jsMapGet tmap rel.targetTableId).isSome &&
      ((jsMapGet cmap rel.sourceColumnId).isSome &&
        (jsMapGet cmap rel.targetColumnId).isSome))

theorem importColumnsLoop_cons_none (gen : Nat → String) (now : Nat)
    (tmap : List (String × String)) (src : Column) (rest : List Column)
    (st : LocalState) (cmap : List (String × String)) (n : Nat)
    (hm : jsMapGet tmap src.tableId = none) :
    importSchema.importColumnsLoop gen now tmap (src :: rest) st cmap n =
      importSchema.importColumnsLoop gen now tmap rest st cmap n := by
  show (match jsMapGet tmap src.tableId with
    | none => importSchema.importColumnsLoop gen now tmap rest st cmap n
    | some newTableId =>
      importSchema.importColumnsLoop gen now tmap rest
        (FrontendOps.createColumn st
          { tableId := newTableId, name := src.name,
            dataType := src.dataType, length := src.length,
            precision := src.precision, scale := src.scale,
            nullable := src.nullable, isPrimaryKey := src.isPrimaryKey,
            isUnique := src.isUnique,
            isAutoIncrement := src.isAutoIncrement,
            defaultValue := src.defaultValue,
            description := src.description,
            orderIndex := src.orderIndex } (gen n) now).1
        (cmap ++ [(src.id, (FrontendOps.createColumn st
          { tableId := newTableId, name := src.name,
            dataType := src.dataType, length := src.length,
            precision := src.precision, scale := src.scale,
            nullable := src.nullable, isPrimaryKey := src.isPrimaryKey,
            isUnique := src.isUnique,
            isAutoIncrement := src.isAutoIncrement,
            defaultValue := src.defaultValue,
            description := src.description,
            orderIndex := src.orderIndex } (gen n) now).2)]) (n + 1)) =
    importSchema.importColumnsLoop gen now tmap rest st cmap n
  rw [hm]

theorem importColumnsLoop_cons_some (gen : Nat → String) (now : Nat)
    (tmap : List (String × String)) (src : Column) (rest : List Column)
    (st : LocalState) (cmap : List (String × String)) (n : Nat)
    (newId : String) (hm : jsMapGet tmap src.tableId = some newId) :
    importSchema.importColumnsLoop gen now tmap (src :: rest) st cmap n =
      importSchema.importColumnsLoop gen now tmap rest
        (FrontendOps.createColumn st
          { tableId := newId, name := src.name,
            dataType := src.dataType, length := src.length,
            precision := src.precision, scale := src.scale,
            nullable := src.nullable, isPrimaryKey := src.isPrimaryKey,
            isUnique := src.isUnique, isAutoIncrement := src.isAutoIncrement,
            defaultValue := src.defaultValue, description := src.description,
            orderIndex := src.orderIndex } (gen n) now).1
        (cmap ++ [(src.id, (FrontendOps.createColumn st
          { tableId := newId, name := src.name,
            dataType := src.dataType, length := src.length,
            precision := src.precision, scale := src.scale,
            nullable := src.nullable, isPrimaryKey := src.isPrimaryKey,
            isUnique := src.isUnique, isAutoIncrement := src.isAutoIncrement,
            defaultValue := src.defaultValue, description := src.description,
            orderIndex := src.orderIndex } (gen n) now).2)]) (n + 1) := by
  show (match jsMapGet tmap src.tableId with
    | none => importSchema.importColumnsLoop gen now tmap rest st cmap n
    | some newTableId =>
      importSchema.importColumnsLoop gen now tmap rest
        (FrontendOps.createColumn st
          { tableId := newTableId, name := src.name,
            dataType := src.dataType, length := src.length,
            precision := src.precision, scale := src.scale,
            nullable := src.nullable, isPrimaryKey := src.isPrimaryKey,
            isUnique := src.isUnique,
            isAutoIncrement := src.isAutoIncrement,
            defaultValue := src.defaultValue,
            description := src.description,
            orderIndex := src.orderIndex } (gen n) now).1
        (cmap ++ [(src.id, (FrontendOps.createColumn st
          { tableId := newTableId, name := src.name,
            dataType := src.dataType, length := src.length,
            precision := src.precision, scale := src.scale,
            nullable := src.nullable, isPrimaryKey := src.isPrimaryKey,
            isUnique := src.isUnique,
            isAutoIncrement := src.isAutoIncrement,
            defaultValue := src.defaultValue,
            description := src.description,
            orderIndex := src.orderIndex } (gen n) now).2)]) (n + 1)) = _
  rw [hm]

theorem importColumnsLoop_count (gen : Nat → String) (now : Nat)
    (tmap : List (String × String)) :
    ∀ (srcs : List Column) (st : LocalState)
      (cmap : List (String × String)) (n : Nat),
      (importSchema.importColumnsLoop gen now tmap srcs st cmap
        n).1.columns.length =
        st.columns.length +
          srcs.countP (fun c => (jsMapGet tmap c.tableId).isSome) := by
  intro srcs
  induction srcs with
  | nil => intro st cmap n; rfl
  | cons src rest ih =>
    intro st cmap n
    rw [List.countP_cons]
    cases hm : jsMapGet tmap src.tableId with
    | none =>
      rw [importColumnsLoop_cons_none gen now tmap src rest st cmap n hm,
        ih]
      rfl
    | some v =>
      rw [importColumnsLoop_cons_some gen now tmap src rest st cmap n v hm,
        ih, columns_createColumn, List.length_append,
        List.length_singleton, Option.isSome_some, if_pos rfl]
      omega

theorem importedColumnsLoop_cons_none (gen : Nat → String) (now : Nat)
    (tmap : List (String × String)) (src : Column) (rest : List Column)
    (accC : List Column) (cmap : List (String × String)) (n : Nat)
    (hm : jsMapGet tmap src.tableId = none) :
    importSchema.importedColumnsLoop gen now tmap (src :: rest) accC cmap
        n =
      importSchema.importedColumnsLoop gen now tmap rest accC cmap n := by
  show (match jsMapGet tmap src.tableId with
    | none => importSchema.importedColumnsLoop gen now tmap rest accC cmap n
    | some newTableId =>
      importSchema.importedColumnsLoop gen now tmap rest
        (accC ++ [{ src with
                    id := gen n
                    tableId := newTableId
                    createdAt := now
                    updatedAt := now }])
        (cmap ++ [(src.id, gen n)]) (n + 1)) =
    importSchema.importedColumnsLoop gen now tmap rest accC cmap n
  rw [hm]

theorem importedColumnsLoop_cons_some (gen : Nat → String) (now : Nat)
    (tmap : List (String × String)) (src : Column) (rest : List Column)
    (accC : List Column) (cmap : List (String × String)) (n : Nat)
    (newId : String) (hm : jsMapGet tmap src.tableId = some newId) :
    importSchema.importedColumnsLoop gen now tmap (src :: rest) accC cmap
        n =
      importSchema.importedColumnsLoop gen now tmap rest
        (accC ++ [{ src with
                    id := gen n
                    tableId := newId
                    createdAt := now
                    updatedAt := now }])
        (cmap ++ [(src.id, gen n)]) (n + 1) := by
  show (match jsMapGet tmap src.tableId with
    | none => importSchema.importedColumnsLoop gen now tmap rest accC cmap n
    | some newTableId =>
      importSchema.importedColumnsLoop gen now tmap rest
        (accC ++ [{ src with
                    id := gen n
                    tableId := newTableId
                    createdAt := now
                    updatedAt := now }])
        (cmap ++ [(src.id, gen n)]) (n + 1)) = _
  rw [hm]

theorem importedColumnsLoop_count (gen : Nat → String) (now : Nat)
    (tmap : List (String × String)) :
    ∀ (srcs : List Column) (accC : List Column)
      (cmap : List (String × String)) (n : Nat),
      (importSchema.importedColumnsLoop gen now tmap srcs accC cmap
        n).1.length =
        accC.length +
          srcs.countP (fun c => (jsMapGet tmap c.tableId).isSome) := by
  intro srcs
  induction srcs with
  | nil => intro accC cmap n; rfl
  | cons src rest ih =>
    intro accC cmap n
    rw [List.countP_cons]
    cases hm : jsMapGet tmap src.tableId with
    | none =>
      rw [importedColumnsLoop_cons_none gen now tmap src rest accC cmap n
        hm, ih]
      rfl
    | some v =>
      rw [importedColumnsLoop_cons_some gen now tmap src rest accC cmap n
        v hm, ih, List.length_append, List.length_singleton,
        Option.isSome_some, if_pos rfl]
      omega

theorem createRelationship_false_ok (st : LocalState)
    (data : RelationshipInput) (fid : String) (now : Nat) {xS xT : Column}
    (hS : st.columns.find? (fun c0 => c0.id = data.sourceColumnId) =
      some xS)
    (hT : st.columns.find? (fun c0 => c0.id = data.targetColumnId) =
      some xT) :
    FrontendOps.createRelationship st data fid now false =
      (FrontendOps.touchProject
        { st with relationships := st.relationships ++
          [{ id := fid, projectId := data.projectId, name := data.name,
             sourceTableId := data.sourceTableId,
             sourceColumnId := data.sourceColumnId,
             targetTableId := data.targetTableId,
             targetColumnId := data.targetColumnId,
             onDelete := data.onDelete, onUpdate := data.onUpdate,
             createdAt := now, updatedAt := now }] } data.projectId now,
        Except.ok fid) := by
  unfold FrontendOps.createRelationship
  rw [hS, hT]
  rfl

theorem importRelsLoop_cons_skip (pid : String) (gen : Nat → String)
    (now : Nat) (tmap cmap : List (String × String)) (rel : Relationship)
    (rest : List Relationship) (st : LocalState) (n : Nat)
    (h : relMapped tmap cmap rel = false) :
    importSchema.importRelsLoop pid gen now tmap cmap (rel :: rest) st n =
      importSchema.importRelsLoop pid gen now tmap cmap rest st n := by
  show (match jsMapGet tmap rel.sourceTableId,
      jsMapGet tmap rel.targetTableId, jsMapGet cmap rel.sourceColumnId,
      jsMapGet cmap rel.targetColumnId with
    | some newSourceTableId, some newTargetTableId, some newSourceColumnId,
        some newTargetColumnId =>
      match FrontendOps.createRelationship st
        { projectId := pid, name := rel.name,
          sourceTableId := newSourceTableId,
          sourceColumnId := newSourceColumnId,
          targetTableId := newTargetTableId,
          targetColumnId := newTargetColumnId,
          onDelete := rel.onDelete, onUpdate := rel.onUpdate }
        (gen n) now false with
      | (st1, Except.ok u) =>
        importSchema.importRelsLoop pid gen now tmap cmap rest st1 (n + 1)
      | (st1, Except.error e) =>
        importSchema.importRelsLoop pid gen now tmap cmap rest st1 n
    | _, _, _, _ =>
      importSchema.importRelsLoop pid gen now tmap cmap rest st n) =
    importSchema.importRelsLoop pid gen now tmap cmap rest st n
  unfold relMapped at h
  cases h1 : jsMapGet tmap rel.sourceTableId with
  | none => rfl
  | some a =>
    cases h2 : jsMapGet tmap rel.targetTableId with
    | none => rfl
    | some b =>
      cases h3 : jsMapGet cmap rel.sourceColumnId with
      | none => rfl
      | some c =>
        cases h4 : jsMapGet cmap rel.targetColumnId with
        | none => rfl
        | some d =>
          rw [h1, h2, h3, h4] at h
          simp at h

theorem importRelsLoop_cons_take (pid : String) (gen : Nat → String)
    (now : Nat) (tmap cmap : List (String × String)) (rel : Relationship)
    (rest : List Relationship) (st : LocalState) (n : Nat)
    (a b c d : String) {xS xT : Column}
    (h1 : jsMapGet tmap rel.sourceTableId = some a)
    (h2 : jsMapGet tmap rel.targetTableId = some b)
    (h3 : jsMapGet cmap rel.sourceColumnId = some c)
    (h4 : jsMapGet cmap rel.targetColumnId = some d)
    (hS : st.columns.find? (fun c0 => c0.id = c) = some xS)
    (hT : st.columns.find? (fun c0 => c0.id = d) = some xT) :
    importSchema.importRelsLoop pid gen now tmap cmap (rel :: rest) st n =
      importSchema.importRelsLoop pid gen now tmap cmap rest
        (FrontendOps.touchProject
          { st with relationships := st.relationships ++
            [{ id := gen n, projectId := pid, name := rel.name,
               sourceTableId := a, sourceColumnId := c,
               targetTableId := b, targetColumnId := d,
               onDelete := rel.onDelete, onUpdate := rel.onUpdate,
               createdAt := now, updatedAt := now }] } pid now)
        (n + 1) := by
  show (match jsMapGet tmap rel.sourceTableId,
      jsMapGet tmap rel.targetTableId, jsMapGet cmap rel.sourceColumnId,
      jsMapGet cmap rel.targetColumnId with
    | some newSourceTableId, some newTargetTableId, some newSourceColumnId,
        some newTargetColumnId =>
      match FrontendOps.createRelationship st
        { projectId := pid, name := rel.name,
          sourceTableId := newSourceTableId,
          sourceColumnId := newSourceColumnId,
          targetTableId := newTargetTableId,
          targetColumnId := newTargetColumnId,
          onDelete := rel.onDelete, onUpdate := rel.onUpdate }
        (gen n) now false with
      | (st1, Except.ok u) =>
        importSchema.importRelsLoop pid gen now tmap cmap rest st1 (n + 1)
      | (st1, Except.error e) =>
        importSchema.importRelsLoop pid gen now tmap cmap rest st1 n
    | _, _, _, _ =>
      importSchema.importRelsLoop pid gen now tmap cmap rest st n) = _
  rw [h1, h2, h3, h4]
  show (match FrontendOps.createRelationship st
      { projectId := pid, name := rel.name, sourceTableId := a,
        sourceColumnId := c, targetTableId := b, targetColumnId := d,
        onDelete := rel.onDelete, onUpdate := rel.onUpdate }
      (gen n) now false with
    | (st1, Except.ok u) =>
      importSchema.importRelsLoop pid gen now tmap cmap rest st1 (n + 1)
    | (st1, Except.error e) =>
      importSchema.importRelsLoop pid gen now tmap cmap rest st1 n) = _
  have hcr := createRelationship_false_ok st
    { projectId := pid, name := rel.name, sourceTableId := a,
      sourceColumnId := c, targetTableId := b, targetColumnId := d,
      onDelete := rel.onDelete, onUpdate := rel.onUpdate } (gen n) now
    hS hT
  rw [hcr]

theorem importRelsLoop_count (pid : String) (gen : Nat → String)
    (now : Nat) (tmap cmap : List (String × String)) :
    ∀ (rels : List Relationship) (st : LocalState) (n : Nat),
      (∀ p ∈ cmap, ∃ c0 ∈ st.columns, c0.id = p.2) →
      (importSchema.importRelsLoop pid gen now tmap cmap rels st
        n).1.relationships.length =
        st.relationships.length + rels.countP (relMapped tmap cmap) := by
  intro rels
  induction rels with
  | nil => intro st n _; rfl
  | cons rel rest ih =>
    intro st n hcm
    rw [List.countP_cons]
    by_cases hm : relMapped tmap cmap rel = true
    · have hm' := hm
      unfold relMapped at hm'
      rw [Bool.and_eq_true, Bool.and_eq_true, Bool.and_eq_true] at hm'
      rcases hm' with ⟨hm1, hm2, hm3, hm4⟩
      rcases Option.isSome_iff_exists.mp hm1 with ⟨a, ha⟩
      rcases Option.isSome_iff_exists.mp hm2 with ⟨b, hb⟩
      rcases Option.isSome_iff_exists.mp hm3 with ⟨c, hc⟩
      rcases Option.isSome_iff_exists.mp hm4 with ⟨d, hd⟩
      rcases hcm _ (mem_of_jsMapGet_eq_some hc) with ⟨colS, hcolS, hcolSid⟩
      rcases hcm _ (mem_of_jsMapGet_eq_some hd) with ⟨colT, hcolT, hcolTid⟩
      have hfS : ∃ xS, st.columns.find? (fun c0 => c0.id = c) = some xS :=
        Option.isSome_iff_exists.mp (List.find?_isSome.mpr
          ⟨colS, hcolS, decide_eq_true hcolSid⟩)
      have hfT : ∃ xT, st.columns.find? (fun c0 => c0.id = d) = some xT :=
        Option.isSome_iff_exists.mp (List.find?_isSome.mpr
          ⟨colT, hcolT, decide_eq_true hcolTid⟩)
      rcases hfS with ⟨xS, hxS⟩
      rcases hfT with ⟨xT, hxT⟩
      rw [importRelsLoop_cons_take pid gen now tmap cmap rel rest st n
        a b c d ha hb hc hd hxS hxT, ih, if_pos hm]
      · simp only [FrontendOps.touchProject, List.length_append,
          List.length_singleton]
        omega
      · intro p hp
        rcases hcm p hp with ⟨c0, hc0, hc0id⟩
        exact ⟨c0, hc0, hc0id⟩
    · have hm0 : relMapped tmap cmap rel = false := by
        cases hbv : relMapped tmap cmap rel with
        | false => rfl
        | true => exact absurd hbv hm
      rw [importRelsLoop_cons_skip pid gen now tmap cmap rel rest st n
        hm0, ih st n hcm, if_neg hm]
      omega

theorem importedRelsLoop_cons_skip (pid : String) (gen : Nat → String)
    (now : Nat) (tmap cmap : List (String × String)) (rel : Relationship)
    (rest : List Relationship) (accR : List Relationship) (n : Nat)
    (h : relMapped tmap cmap rel = false) :
    importSchema.importedRelsLoop pid gen now tmap cmap (rel :: rest) accR
        n =
      importSchema.importedRelsLoop pid gen now tmap cmap rest accR n := by
  show (match jsMapGet tmap rel.sourceTableId,
      jsMapGet tmap rel.targetTableId, jsMapGet cmap rel.sourceColumnId,
      jsMapGet cmap rel.targetColumnId with
    | some sourceTableId, some targetTableId, some sourceColumnId,
        some targetColumnId =>
      importSchema.importedRelsLoop pid gen now tmap cmap rest
        (accR ++ [{ rel with
                    id := gen n
                    projectId := pid
                    sourceTableId := sourceTableId
                    targetTableId := targetTableId
                    sourceColumnId := sourceColumnId
                    targetColumnId := targetColumnId
                    createdAt := now
                    updatedAt := now }]) (n + 1)
    | _, _, _, _ =>
      importSchema.importedRelsLoop pid gen now tmap cmap rest accR n) =
    importSchema.importedRelsLoop pid gen now tmap cmap rest accR n
  unfold relMapped at h
  cases h1 : jsMapGet tmap rel.sourceTableId with
  | none => rfl
  | some a =>
    cases h2 : jsMapGet tmap rel.targetTableId with
    | none => rfl
    | some b =>
      cases h3 : jsMapGet cmap rel.sourceColumnId with
      | none => rfl
      | some c =>
        cases h4 : jsMapGet cmap rel.targetColumnId with
        | none => rfl
        | some d =>
          rw [h1, h2, h3, h4] at h
          simp at h

theorem importedRelsLoop_cons_take (pid : String) (gen : Nat → String)
    (now : Nat) (tmap cmap : List (String × String)) (rel : Relationship)
    (rest : List Relationship) (accR : List Relationship) (n : Nat)
    (a b c d : String)
    (h1 : jsMapGet tmap rel.sourceTableId = some a)
    (h2 : jsMapGet tmap rel.targetTableId = some b)
    (h3 : jsMapGet cmap rel.sourceColumnId = some c)
    (h4 : jsMapGet cmap rel.targetColumnId = some d) :
    importSchema.importedRelsLoop pid gen now tmap cmap (rel :: rest) accR
        n =
      importSchema.importedRelsLoop pid gen now tmap cmap rest
        (accR ++ [{ rel with
                    id := gen n
                    projectId := pid
                    sourceTableId := a
                    targetTableId := b
                    sourceColumnId := c
                    targetColumnId := d
                    createdAt := now
                    updatedAt := now }]) (n + 1) := by
  show (match jsMapGet tmap rel.sourceTableId,
      jsMapGet tmap rel.targetTableId, jsMapGet cmap rel.sourceColumnId,
      jsMapGet cmap rel.targetColumnId with
    | some sourceTableId, some targetTableId, some sourceColumnId,
        some targetColumnId =>
      importSchema.importedRelsLoop pid gen now tmap cmap rest
        (accR ++ [{ rel with
                    id := gen n
                    projectId := pid
                    sourceTableId := sourceTableId
                    targetTableId := targetTableId
                    sourceColumnId := sourceColumnId
                    targetColumnId := targetColumnId
                    createdAt := now
                    updatedAt := now }]) (n + 1)
    | _, _, _, _ =>
      importSchema.importedRelsLoop pid gen now tmap cmap rest accR n) = _
  rw [h1, h2, h3, h4]

theorem importedRelsLoop_count (pid : String) (gen : Nat → String)
    (now : Nat) (tmap cmap : List (String × String)) :
    ∀ (rels : List Relationship) (accR : List Relationship) (n : Nat),
      (importSchema.importedRelsLoop pid gen now tmap cmap rels accR
        n).1.length =
        accR.length + rels.countP (relMapped tmap cmap) := by
  intro rels
  induction rels with
  | nil => intro accR n; rfl
  | cons rel rest ih =>
    intro accR n
    rw [List.countP_cons]
    by_cases hm : relMapped tmap cmap rel = true
    · have hm' := hm
      unfold relMapped at hm'
      rw [Bool.and_eq_true, Bool.and_eq_true, Bool.and_eq_true] at hm'
      rcases hm' with ⟨hm1, hm2, hm3, hm4⟩
      rcases Option.isSome_iff_exists.mp hm1 with ⟨a, ha⟩
      rcases Option.isSome_iff_exists.mp hm2 with ⟨b, hb⟩
      rcases Option.isSome_iff_exists.mp hm3 with ⟨c, hc⟩
      rcases Option.isSome_iff_exists.mp hm4 with ⟨d, hd⟩
      rw [importedRelsLoop_cons_take pid gen now tmap cmap rel rest accR n
        a b c d ha hb hc hd, ih, List.length_append,
        List.length_singleton, if_pos hm]
      omega
    · have hm0 : relMapped tmap cmap rel = false := by
        cases hbv : relMapped tmap cmap rel with
        | false => rfl
        | true => exact absurd hbv hm
      rw [importedRelsLoop_cons_skip pid gen now tmap cmap rel rest accR n
        hm0, ih, if_neg hm]
      omega

/-- C8: during import, a source column whose `tableId` does not resolve
through the old-to-new table-id map is never created — on both
realizations the destination's column count grows by exactly the number
of source columns whose `tableId` resolves — and a relationship is
imported exactly when all four of its references (source/target table,
source/target column) resolve through the id maps.  No data-type
condition appears anywhere: the local loop calls `createRelationship`
with `validateDataTypes := false` (so only column existence matters, as
the hypothesis states), and the remote loop splices the remapped
relationship in with no validation at all. -/
theorem C8_import_skips (gen : Nat → String) (now : Nat)
    (tmap cmap : List (String × String)) (pid : String) :
    (∀ (srcs : List Column) (st : LocalState)
      (cmap0 : List (String × String)) (n : Nat),
      (importSchema.importColumnsLoop gen now tmap srcs st cmap0
        n).1.columns.length =
        st.columns.length +
          srcs.countP (fun c => (jsMapGet tmap c.tableId).isSome)) ∧
    (∀ (srcs : List Column) (accC : List Column)
      (cmap0 : List (String × String)) (n : Nat),
      (importSchema.importedColumnsLoop gen now tmap srcs accC cmap0
        n).1.length =
        accC.length +
          srcs.countP (fun c => (jsMapGet tmap c.tableId).isSome)) ∧
    (∀ (rels : List Relationship) (st : LocalState) (n : Nat),
      (∀ p ∈ cmap, ∃ c0 ∈ st.columns, c0.id = p.2) →
      (importSchema.importRelsLoop pid gen now tmap cmap rels st
        n).1.relationships.length =
        st.relationships.length + rels.countP (relMapped tmap cmap)) ∧
    (∀ (rels : List Relationship) (accR : List Relationship) (n : Nat),
      (importSchema.importedRelsLoop pid gen now tmap cmap rels accR
        n).1.length =
        accR.length + rels.countP (relMapped tmap cmap)) :=
  ⟨importColumnsLoop_count gen now tmap,
   importedColumnsLoop_count gen now tmap,
   importRelsLoop_count pid gen now tmap cmap,
   importedRelsLoop_count pid gen now tmap cmap⟩

/-- A concrete fresh-id generator for witnesses. -/
def genW : Nat → String := fun n => "new" ++ toString n

/-- A witness table-id map resolving `t1` and `t2` only. -/
def tmapW : List (String × String) := [("t1", "t1"), ("t2", "t2")]

/-- A witness column-id map resolving `c2` and `c3` only. -/
def cmapW : List (String × String) := [("c2", "c2"), ("c3", "c3")]

/-- A source column whose `tableId` resolves nowhere. -/
def cDangling : Column :=
  { id := "c9", tableId := "tZ", name := "zzz", dataType := "TEXT",
    nullable := true, isPrimaryKey := false, isUnique := false,
    isAutoIncrement := false, orderIndex := 0, createdAt := 0,
    updatedAt := 0 }

/-- A fully resolvable imported relationship between columns of differing
data types (`c2` is INTEGER, `c3` is VARCHAR). -/
def relMismatch : Relationship :=
  { id := "r0", projectId := "p1", sourceTableId := "t2",
    sourceColumnId := "c2", targetTableId := "t1", targetColumnId := "c3",
    onDelete := "CASCADE", onUpdate := "CASCADE", createdAt := 0,
    updatedAt := 0 }

theorem C8_import_skips_witness :
    (∀ p ∈ cmapW, ∃ c0 ∈ stFix5.columns, c0.id = p.2) ∧
    (importSchema.importColumnsLoop genW 7 tmapW [cFix, cDangling] stFix5
      [] 0).1.columns.length = 4 ∧
    (importSchema.importedColumnsLoop genW 7 tmapW [cFix, cDangling] []
      [] 0).1.length = 1 ∧
    (importSchema.importRelsLoop "p1" genW 7 tmapW cmapW
      [relMismatch, relDangling] stFix5 0).1.relationships.length = 1 ∧
    (importSchema.importedRelsLoop "p1" genW 7 tmapW cmapW
      [relMismatch, relDangling] [] 0).1.length = 1 := by
  have h := C8_import_skips genW 7 tmapW cmapW "p1"
  refine ⟨by decide, ?_, ?_, ?_, ?_⟩
  · exact (h.1 [cFix, cDangling] stFix5 [] 0).trans (by decide)
  · exact (h.2.1 [cFix, cDangling] [] [] 0).trans (by decide)
  · exact (h.2.2.1 [relMismatch, relDangling] stFix5 0 (by decide)).trans
      (by decide)
  · exact (h.2.2.2 [relMismatch, relDangling] [] 0).trans (by decide)

/-! ### Claim C2 -/

/-- A local state reached from the empty store by public operations only:
one project, three tables, a column in `t1` and one in `t3`, and a
relationship created with `sourceTableId = "t2"` but
`sourceColumnId = "c1"` (a column of `t1`) — `createRelationship`
accepts it, since it never checks that the supplied table ids match the
columns' owning tables. -/
def stC2 : LocalState :=
  (FrontendOps.createRelationship
    ((FrontendOps.createColumn
      ((FrontendOps.createColumn
        ((FrontendOps.createTable
          ((FrontendOps.createTable
            ((FrontendOps.createTable
              ((FrontendOps.createProject LocalState.empty "P" none "p1" 0).1)
              { projectId := "p1", name := "T1",
                position := { x := 0, y := 0 } } "t1" 0).1)
            { projectId := "p1", name := "T2",
              position := { x := 0, y := 0 } } "t2" 0).1)
          { projectId := "p1", name := "T3",
            position := { x := 0, y := 0 } } "t3" 0).1)
        { tableId := "t1", name := "x", dataType := "INTEGER",
          nullable := true, isPrimaryKey := false, isUnique := false,
          isAutoIncrement := false, orderIndex := 0 } "c1" 0).1)
      { tableId := "t3", name := "y", dataType := "INTEGER",
        nullable := true, isPrimaryKey := false, isUnique := false,
        isAutoIncrement := false, orderIndex := 0 } "c2" 0).1)
    { projectId := "p1", sourceTableId := "t2", sourceColumnId := "c1",
      targetTableId := "t3", targetColumnId := "c2", onDelete := "CASCADE",
      onUpdate := "CASCADE" } "r1" 0).1

/-- C2, counterexample: in the reachable state `stC2`, column `c1`
belongs to table `t1`, yet after the local `deleteTable("t1")` the
relationship `r1` — whose `sourceColumnId` is `c1` — survives, because
the local cascade deletes relationships by `sourceTableId`/`targetTableId`
only and never by column ids.  (The remote realization does filter by the
deleted columns' ids.) -/
theorem C2_counterexample :
    stC2.relationships.map (fun r => r.id) = ["r1"]
    ∧ stC2.columns.map (fun c => (c.id, c.tableId)) =
        [("c1", "t1"), ("c2", "t3")]
    ∧ ((FrontendOps.deleteTable stC2 "t1" 1).1.columns.map (fun c => c.id)) =
        ["c2"]
    ∧ ((FrontendOps.deleteTable stC2 "t1" 1).1.relationships.map
        (fun r => (r.id, r.sourceColumnId))) = [("r1", "c1")] := by
  decide

/-- C2, amended: `deleteTable` removes every column of the table and
every relationship whose `sourceTableId`/`targetTableId` names the table,
on both realizations; the remote realization additionally removes every
relationship referencing one of the table's columns, while the local
realization does so only for states in which each relationship's stored
table ids agree with its columns' owning tables (in such states the claim
holds as stated there too). -/
theorem C2_deleteTable_cascade (st : LocalState) (rst : RemoteState)
    (id : String) (now : Nat) (tbl : TableEntity) (d : SchemaExport)
    (t : TableEntity)
    (htbl : st.schemaTables.find? (fun t0 => t0.id = id) = some tbl)
    (hfind : BackendOps.findTableById rst id = some (d, t)) :
    (∀ c ∈ (FrontendOps.deleteTable st id now).1.columns, ¬ c.tableId = id)
    ∧ (∀ t' ∈ (FrontendOps.deleteTable st id now).1.schemaTables,
        ¬ t'.id = id)
    ∧ (∀ r ∈ (FrontendOps.deleteTable st id now).1.relationships,
        ¬ r.sourceTableId = id ∧ ¬ r.targetTableId = id)
    ∧ ((∀ r ∈ st.relationships, ∀ c ∈ st.columns,
          (r.sourceColumnId = c.id → r.sourceTableId = c.tableId) ∧
          (r.targetColumnId = c.id → r.targetTableId = c.tableId)) →
        ∀ r ∈ (FrontendOps.deleteTable st id now).1.relationships,
          ∀ c ∈ st.columns, c.tableId = id →
            ¬ r.sourceColumnId = c.id ∧ ¬ r.targetColumnId = c.id)
    ∧ (∃ doc' ∈ (BackendOps.deleteTable rst id now).1.docs,
        doc'.project.id = d.project.id ∧
        (∀ c ∈ doc'.columns, ¬ c.tableId = id) ∧
        (∀ t' ∈ doc'.tables, ¬ t'.id = id) ∧
        (∀ r ∈ doc'.relationships,
          ¬ r.sourceTableId = id ∧ ¬ r.targetTableId = id ∧
          ∀ c ∈ d.columns, c.tableId = id →
            ¬ r.sourceColumnId = c.id ∧ ¬ r.targetColumnId = c.id))
    ∧ (∀ d' ∈ rst.docs, ¬ d'.project.id = d.project.id →
        d' ∈ (BackendOps.deleteTable rst id now).1.docs) := by
  rcases findTableById_spec hfind with ⟨hdmem, htmem, htid⟩
  have hlocal : (FrontendOps.deleteTable st id now).1 =
      FrontendOps.touchProject
        { st with
          columns := st.columns.filter (fun c => ¬ c.tableId = id)
          relationships := st.relationships.filter (fun r =>
            ¬ (r.sourceTableId = id ∨ r.targetTableId = id))
          schemaTables :=
            (st.schemaTables.filter (fun t0 => ¬ t0.id = id)) }
        tbl.projectId now := by
    unfold FrontendOps.deleteTable
    rw [htbl]
  refine ⟨?_, ?_, ?_, ?_, ?_, ?_⟩
  · intro c hc
    rw [hlocal] at hc
    have := (List.mem_filter.mp hc).2
    simpa using this
  · intro t' ht'
    rw [hlocal] at ht'
    have := (List.mem_filter.mp ht').2
    simpa using this
  · intro r hr
    rw [hlocal] at hr
    have := (List.mem_filter.mp hr).2
    have hnots : ¬ (r.sourceTableId = id ∨ r.targetTableId = id) := by
      simpa using this
    exact ⟨fun h => hnots (Or.inl h), fun h => hnots (Or.inr h)⟩
  · intro hcons r hr c hc hcid
    rw [hlocal] at hr
    have hrmem : r ∈ st.relationships := List.mem_of_mem_filter hr
    have hnots : ¬ (r.sourceTableId = id ∨ r.targetTableId = id) := by
      have := (List.mem_filter.mp hr).2
      simpa using this
    rcases hcons r hrmem c hc with ⟨hsrc, htgt⟩
    constructor
    · intro hsc
      exact hnots (Or.inl ((hsrc hsc).trans hcid))
    · intro htc
      exact hnots (Or.inr ((htgt htc).trans hcid))
  · unfold BackendOps.deleteTable
    rw [hfind]
    dsimp only
    refine ⟨_, mem_putProjectSchema_of_mem _ hdmem rfl, rfl, ?_, ?_, ?_⟩
    · intro c hc
      have := (List.mem_filter.mp hc).2
      simpa using this
    · intro t' ht'
      have := (List.mem_filter.mp ht').2
      simpa using this
    · intro r hr
      have hcond := (List.mem_filter.mp hr).2
      have hcond' : ¬ r.sourceTableId = id ∧ ¬ r.targetTableId = id ∧
          ¬ r.sourceColumnId ∈
            ((d.columns.filter (fun c => c.tableId = id)).map
              (fun c => c.id)) ∧
          ¬ r.targetColumnId ∈
            ((d.columns.filter (fun c => c.tableId = id)).map
              (fun c => c.id)) := by
        simpa using hcond
      refine ⟨hcond'.1, hcond'.2.1, ?_⟩
      intro c hc hcid
      have hcmem : c.id ∈ ((d.columns.filter (fun c => c.tableId = id)).map
          (fun c => c.id)) :=
        List.mem_map_of_mem (fun c => c.id)
          (List.mem_filter.mpr ⟨hc, decide_eq_true hcid⟩)
      constructor
      · intro hsc
        exact hcond'.2.2.1 (hsc ▸ hcmem)
      · intro htc
        exact hcond'.2.2.2 (htc ▸ hcmem)
  · intro d' hd' hne
    unfold BackendOps.deleteTable
    rw [hfind]
    dsimp only
    rw [putProjectSchema_docs_of_mem _ hdmem rfl]
    exact List.mem_map.mpr ⟨d', hd', by simp only [if_neg hne]⟩

/-- C2, witness: the amended cascade applied at the concrete state
`stFix`/`rstFix`, deleting table `t1`. -/
theorem C2_deleteTable_cascade_witness :
    (∀ c ∈ (FrontendOps.deleteTable stFix "t1" 9).1.columns,
      ¬ c.tableId = "t1")
    ∧ (∀ t' ∈ (FrontendOps.deleteTable stFix "t1" 9).1.schemaTables,
        ¬ t'.id = "t1")
    ∧ (∀ r ∈ (FrontendOps.deleteTable stFix "t1" 9).1.relationships,
        ¬ r.sourceTableId = "t1" ∧ ¬ r.targetTableId = "t1")
    ∧ (∃ doc' ∈ (BackendOps.deleteTable rstFix "t1" 9).1.docs,
        doc'.project.id = "p1" ∧
        (∀ c ∈ doc'.columns, ¬ c.tableId = "t1") ∧
        (∀ t' ∈ doc'.tables, ¬ t'.id = "t1") ∧
        (∀ r ∈ doc'.relationships,
          ¬ r.sourceTableId = "t1" ∧ ¬ r.targetTableId = "t1" ∧
          ∀ c ∈ docFix.columns, c.tableId = "t1" →
            ¬ r.sourceColumnId = c.id ∧ ¬ r.targetColumnId = c.id)) := by
  have h := C2_deleteTable_cascade stFix rstFix "t1" 9 tFix docFix tFix
    rfl rfl
  exact ⟨h.1, h.2.1, h.2.2.1, h.2.2.2.2.1⟩

/-! ### Claim C9 -/

/-- C9, counterexample: a `VARCHAR` column whose `length` is set to `0`
is emitted as bare `VARCHAR` (not `VARCHAR(0)`) by both the PostgreSQL
and the MySQL generator, because the source guards on JavaScript
truthiness (`column.length && ...`) rather than presence; likewise a
`DECIMAL` column with both `precision = 10` and `scale = 0` set is
emitted as bare `DECIMAL`.  This refutes "appends `(length)` when length
is set". -/
theorem C9_counterexample :
    postgres.mapDataType
      { id := "cx", tableId := "t1", name := "v", dataType := "VARCHAR",
        length := some 0, nullable := true, isPrimaryKey := false,
        isUnique := false, isAutoIncrement := false, orderIndex := 0,
        createdAt := 0, updatedAt := 0 } = "VARCHAR"
    ∧ mysql.mapDataType
      { id := "cx", tableId := "t1", name := "v", dataType := "VARCHAR",
        length := some 0, nullable := true, isPrimaryKey := false,
        isUnique := false, isAutoIncrement := false, orderIndex := 0,
        createdAt := 0, updatedAt := 0 } = "VARCHAR"
    ∧ postgres.mapDataType
      { id := "cy", tableId := "t1", name := "d", dataType := "DECIMAL",
        precision := some 10, scale := some 0, nullable := true,
        isPrimaryKey := false, isUnique := false, isAutoIncrement := false,
        orderIndex := 0, createdAt := 0, updatedAt := 0 } = "DECIMAL" := by
  decide

/-- C9, amended: in the PostgreSQL and MySQL generators a `VARCHAR`/`CHAR`
column appends `(length)` exactly when `length` is set **to a nonzero
value**, and a `DECIMAL`/`NUMERIC` column appends `(precision,scale)`
exactly when **both** `precision` and `scale` are set to nonzero values;
in every other case (a lone precision or scale, or any zero value) the
parenthesized suffix is silently dropped and the bare dialect type name is
emitted. -/
theorem C9_mapDataType_length_precision_scale (col : Column) :
    (col.dataType = "VARCHAR" →
      postgres.mapDataType col =
        (match col.length with
          | some n => if n ≠ 0 then "VARCHAR(" ++ toString n ++ ")" else "VARCHAR"
          | none => "VARCHAR")
      ∧ mysql.mapDataType col =
        (match col.length with
          | some n => if n ≠ 0 then "VARCHAR(" ++ toString n ++ ")" else "VARCHAR"
          | none => "VARCHAR"))
    ∧ (col.dataType = "CHAR" →
      postgres.mapDataType col =
        (match col.length with
          | some n => if n ≠ 0 then "CHAR(" ++ toString n ++ ")" else "CHAR"
          | none => "CHAR")
      ∧ mysql.mapDataType col =
        (match col.length with
          | some n => if n ≠ 0 then "CHAR(" ++ toString n ++ ")" else "CHAR"
          | none => "CHAR"))
    ∧ (col.dataType = "DECIMAL" →
      postgres.mapDataType col =
        (match col.precision, col.scale with
          | some p, some s =>
            if p ≠ 0 ∧ s ≠ 0 then
              "DECIMAL(" ++ toString p ++ "," ++ toString s ++ ")"
            else "DECIMAL"
          | _, _ => "DECIMAL")
      ∧ mysql.mapDataType col =
        (match col.precision, col.scale with
          | some p, some s =>
            if p ≠ 0 ∧ s ≠ 0 then
              "DECIMAL(" ++ toString p ++ "," ++ toString s ++ ")"
            else "DECIMAL"
          | _, _ => "DECIMAL"))
    ∧ (col.dataType = "NUMERIC" →
      postgres.mapDataType col =
        (match col.precision, col.scale with
          | some p, some s =>
            if p ≠ 0 ∧ s ≠ 0 then
              "NUMERIC(" ++ toString p ++ "," ++ toString s ++ ")"
            else "NUMERIC"
          | _, _ => "NUMERIC")
      ∧ mysql.mapDataType col =
        (match col.precision, col.scale with
          | some p, some s =>
            if p ≠ 0 ∧ s ≠ 0 then
              "DECIMAL(" ++ toString p ++ "," ++ toString s ++ ")"
            else "DECIMAL"
          | _, _ => "DECIMAL")) := by
  refine ⟨?_, ?_, ?_, ?_⟩ <;> intro hdt <;> constructor <;>
    simp only [postgres.mapDataType, mysql.mapDataType, hdt] <;>
    cases hlen : col.length <;> cases hprec : col.precision <;>
    cases hsc : col.scale <;>
    simp [truthyNat, jsMapGet, postgres.DATA_TYPE_MAP, mysql.DATA_TYPE_MAP]

/-- C9, witness: the amended characterization applied at concrete
columns: `VARCHAR(255)` keeps its length, a lone precision is dropped,
and a full nonzero precision/scale pair is kept. -/
theorem C9_mapDataType_witness :
    postgres.mapDataType cFix3 = "VARCHAR(255)"
    ∧ mysql.mapDataType cFix3 = "VARCHAR(255)"
    ∧ postgres.mapDataType
      { id := "cy", tableId := "t1", name := "d", dataType := "DECIMAL",
        precision := some 10, nullable := true, isPrimaryKey := false,
        isUnique := false, isAutoIncrement := false, orderIndex := 0,
        createdAt := 0, updatedAt := 0 } = "DECIMAL"
    ∧ mysql.mapDataType
      { id := "cz", tableId := "t1", name := "d", dataType := "NUMERIC",
        precision := some 10, scale := some 2, nullable := true,
        isPrimaryKey := false, isUnique := false, isAutoIncrement := false,
        orderIndex := 0, createdAt := 0, updatedAt := 0 } = "DECIMAL(10,2)" :=
  ⟨((C9_mapDataType_length_precision_scale cFix3).1 rfl).1,
   ((C9_mapDataType_length_precision_scale cFix3).1 rfl).2,
   ((C9_mapDataType_length_precision_scale
      { id := "cy", tableId := "t1", name := "d", dataType := "DECIMAL",
        precision := some 10, nullable := true, isPrimaryKey := false,
        isUnique := false, isAutoIncrement := false, orderIndex := 0,
        createdAt := 0, updatedAt := 0 }).2.2.1 rfl).1,
   ((C9_mapDataType_length_precision_scale
      { id := "cz", tableId := "t1", name := "d", dataType := "NUMERIC",
        precision := some 10, scale := some 2, nullable := true,
        isPrimaryKey := false, isUnique := false, isAutoIncrement := false,
        orderIndex := 0, createdAt := 0, updatedAt := 0 }).2.2.2 rfl).2⟩

end DbSchemaximus
